import Mathlib

/-!
Verification development for the NHVAS audit PDF→DOCX pipeline
(`extract_pdf_data.py`, `extract_red_text.py`, `master_key.py`,
`space-pdf/space-pdf/update_docx_with_pdf.py`, `space-pdf/updated_word.py`).

The Python code is shallowly embedded: every function below is a direct
translation of the corresponding Python function (same name where possible).
Strings are modelled over their character lists; the repository only
processes ASCII template/report text, so Python's `str.upper`/`str.lower`/
`\s`/`isdigit`/`isalpha` are modelled by their ASCII meanings.
Python `dict`s are modelled as association lists with insertion-order
semantics (assignment updates the value in place for an existing key and
appends a new key at the end), matching CPython's ordered dicts.
Python `float` scores are modelled as exact rationals (`ℚ`); every number
produced by the scoring code is a small dyadic/decimal value for which
IEEE-754 double arithmetic is exact or where the comparisons performed
cannot be affected by rounding at realistic input sizes.
-/

/-! ## Generic character/string helpers (ASCII semantics of the Python builtins) -/

/-- Python `\s` for the ASCII range: space, tab, newline, carriage return,
vertical tab, form feed. -/
def isSpacePy (c : Char) : Bool :=
  c == ' ' || c == '\t' || c == '\n' || c == '\r' || c == '\x0b' || c == '\x0c'

/-- `[A-Z]`. -/
def isUpperAZ (c : Char) : Bool := 'A' ≤ c && c ≤ 'Z'

/-- `[a-z]`. -/
def isLowerAZ (c : Char) : Bool := 'a' ≤ c && c ≤ 'z'

/-- `[0-9]` (Python `str.isdigit` on the ASCII range). -/
def isDigit09 (c : Char) : Bool := '0' ≤ c && c ≤ '9'

/-- `[A-Za-z]` (Python `str.isalpha` on the ASCII range). -/
def isAlphaAZ (c : Char) : Bool := isUpperAZ c || isLowerAZ c

/-- `[A-Za-z0-9]`. -/
def isAlnumAZ09 (c : Char) : Bool := isAlphaAZ c || isDigit09 c

/-- Python `str.upper` on one ASCII character. -/
def upCh (c : Char) : Char := if isLowerAZ c then Char.ofNat (c.toNat - 32) else c

/-- Python `str.lower` on one ASCII character. -/
def lowCh (c : Char) : Char := if isUpperAZ c then Char.ofNat (c.toNat + 32) else c

/-- Python `s.upper()` (ASCII). -/
def pyUpper (s : String) : String := String.mk (s.data.map upCh)

/-- Python `s.lower()` (ASCII). -/
def pyLower (s : String) : String := String.mk (s.data.map lowCh)

/-- Does list `n` occur as a prefix of `h` (`==` on characters)? -/
def startsWithCh : List Char → List Char → Bool
  | [], _ => true
  | _ :: _, [] => false
  | a :: as, b :: bs => a == b && startsWithCh as bs

/-- Does `n` occur as a contiguous sublist of `h`? -/
def hasInfixCh (n : List Char) : List Char → Bool
  | [] => startsWithCh n []
  | c :: t => startsWithCh n (c :: t) || hasInfixCh n t

/-- Python `n in s` (substring containment). -/
def containsSub (n s : String) : Bool := hasInfixCh n.data s.data

/-- Python `s.strip()` (ASCII whitespace). -/
def pyStrip (s : String) : String :=
  String.mk (((s.data.dropWhile isSpacePy).reverse.dropWhile isSpacePy).reverse)

/-- `re.sub(r"\s+", " ", s)` followed by nothing: collapse every maximal
whitespace run to a single space. -/
def collapseWsCh : List Char → List Char
  | [] => []
  | c :: t =>
    if isSpacePy c then ' ' :: collapseWsCh (t.dropWhile isSpacePy)
    else c :: collapseWsCh t
termination_by l => l.length
decreasing_by
  · simp only [List.length_cons]
    exact Nat.lt_succ_of_le (List.dropWhile_sublist isSpacePy).length_le
  · simp

/-- `re.sub(r'\s+', ' ', s.strip())` — the extractor's `normalize_text` and the
writers' whitespace collapse (`canon` etc.). Stripping first and collapsing
is equivalent to collapsing and then stripping single leading/trailing spaces. -/
def normalize_text (s : String) : String :=
  String.mk (collapseWsCh (pyStrip s).data)

/-! ## `looks_like_plate` (update_docx_with_pdf.py) and the extraction plate
regex (extract_pdf_data.py, `_extract_vehicle_registrations`) -/

/-- The alphanumeric form computed first inside `looks_like_plate`:
`re.sub(r"[\s-]", "", str(s).upper())` — uppercased with whitespace and
hyphens removed. -/
def plateStripped (s : String) : List Char :=
  (s.data.map upCh).filter (fun c => !(isSpacePy c || c == '-'))

/-- `looks_like_plate` from `space-pdf/space-pdf/update_docx_with_pdf.py`:
uppercase, drop `[\s-]`, require total length 5–8, all `[A-Z0-9]`,
at least 2 letters, at least 2 digits, and not a known non-plate word. -/
def looks_like_plate (s : String) : Bool :=
  if s = "" then false
  else
    let t : List Char := plateStripped s
    if !(5 ≤ t.length && t.length ≤ 8) then false
    else if !(t.all isAlnumAZ09) then false
    else if (t.filter isAlphaAZ).length < 2 then false
    else if (t.filter isDigit09).length < 2 then false
    else if String.mk t ∈ ["ENTRY", "YES", "NO", "N/A", "NA"] then false
    else true

/-- `re.match(r'^[A-Z]{1,3}\s*\d{1,3}\s*[A-Z]{0,3}$', s)` from
`_extract_vehicle_registrations`.  The five character classes that appear
(`[A-Z]`, `\s`, `\d`) are pairwise disjoint, so the backtracking regex accepts
exactly what maximal-munch scanning accepts; `$` also matches just before one
trailing newline (Python semantics). -/
def plate_regex_match (s : String) : Bool :=
  let cs := s.data
  let u1 := cs.takeWhile isUpperAZ
  let r1 := cs.dropWhile isUpperAZ
  let r2 := r1.dropWhile isSpacePy
  let d := r2.takeWhile isDigit09
  let r3 := r2.dropWhile isDigit09
  let r4 := r3.dropWhile isSpacePy
  let u2 := r4.takeWhile isUpperAZ
  let r5 := r4.dropWhile isUpperAZ
  (1 ≤ u1.length && u1.length ≤ 3) &&
  (1 ≤ d.length && d.length ≤ 3) &&
  (u2.length ≤ 3) &&
  (r5 = [] || r5 = ['\n'])

/-! ## `coalesce_numeric_runs` (extract_red_text.py) -/

/-- `len(t) == 1 and t.isdigit()` — a single-character digit token. -/
def isDigitToken (t : String) : Bool :=
  t.length = 1 && t.data.all isDigit09

/-- `coalesce_numeric_runs` from `extract_red_text.py`: glue maximal runs of
single-character digit tokens into one token; `buf` is the pending digit run. -/
def coalesce_numeric_runs_go (buf : List String) : List String → List String
  | [] => if buf = [] then [] else [String.join buf]
  | t :: ts =>
    if isDigitToken t then coalesce_numeric_runs_go (buf ++ [t]) ts
    else if buf = [] then t :: coalesce_numeric_runs_go [] ts
    else String.join buf :: t :: coalesce_numeric_runs_go [] ts

/-- `coalesce_numeric_runs(text_list)`. -/
def coalesce_numeric_runs (l : List String) : List String :=
  coalesce_numeric_runs_go [] l

/-- Independent statement of the intended behaviour: each maximal run of
single-character digit tokens is replaced by the concatenation of the run,
all other tokens are kept unchanged in order. -/
def coalesceRunsSpec : List String → List String
  | [] => []
  | t :: ts =>
    if isDigitToken t then
      String.join (t :: ts.takeWhile isDigitToken) :: coalesceRunsSpec (ts.dropWhile isDigitToken)
    else t :: coalesceRunsSpec ts
termination_by l => l.length
decreasing_by
  · simp only [List.length_cons]
    exact Nat.lt_succ_of_le (List.dropWhile_sublist isDigitToken).length_le
  · simp

/-! ## `_extract_compliance_summary` (extract_pdf_data.py) -/

/-- A PDF-side table as produced by the extraction backend:
`{"headers": [...], "data": [[...], ...]}` with cells already strings. -/
structure PTable where
  headers : List String
  data : List (List String)
deriving DecidableEq

/-- `' '.join(strings)`. -/
def joinSpace (l : List String) : String := String.intercalate " " l

/-- The closed compliance code set `['V', 'NC', 'SFI', 'NAP', 'NA']`. -/
def complianceCodes : List String := ["V", "NC", "SFI", "NAP", "NA"]

/-- Header test of the compliance-table loop:
`any(keyword in ' '.join(headers) for keyword in ['compliance','standard','requirement'])`
over the lowercased headers. -/
def complianceHeadersOk (t : PTable) : Bool :=
  ["compliance", "standard", "requirement"].any
    (fun k => containsSub k (joinSpace (t.headers.map pyLower)))

/-- Row filter of the compliance-table loop: at least two cells, first cell
(stripped) starts with `"Std"`, second cell (stripped) in the code set. -/
def stdRowOk (row : List String) : Bool :=
  2 ≤ row.length &&
  startsWithCh "Std".data (pyStrip (row.getD 0 "")).data &&
  (pyStrip (row.getD 1 "")) ∈ complianceCodes

/-- Python dict assignment on an association list: update in place if the key
exists, else append at the end. -/
def upsertA (l : List (String × String)) (k v : String) : List (String × String) :=
  if l.any (fun p => p.1 = k) then l.map (fun p => if p.1 = k then (k, v) else p)
  else l ++ [(k, v)]

/-- The table loop of `_extract_compliance_summary` building
`compliance["standards_compliance"]`: for every table with
compliance/standard/requirement-like headers, record each qualifying row
`standard ↦ code` by dict assignment. -/
def standards_compliance (tables : List PTable) : List (String × String) :=
  tables.foldl
    (fun acc t =>
      if complianceHeadersOk t then
        t.data.foldl
          (fun acc row =>
            if stdRowOk row then upsertA acc (pyStrip (row.getD 0 "")) (pyStrip (row.getD 1 ""))
            else acc)
          acc
      else acc)
    []

/-- The qualifying `(standard, code)` rows of the compliance loop, in scan
order (used to characterise `standards_compliance`). -/
def complianceQualRows (tables : List PTable) : List (String × String) :=
  tables.flatMap
    (fun t =>
      if complianceHeadersOk t then
        t.data.filterMap
          (fun row =>
            if stdRowOk row then some (pyStrip (row.getD 0 ""), pyStrip (row.getD 1 "")) else none)
      else [])

/-! ## `is_red_font` (extract_red_text.py) -/

/-- A DOCX text run as the extractor sees it: its text, the typed
`run.font.color.rgb` triple when the library exposes one, and the raw XML
`w:color val` attribute when present.  (The library color object is modelled
as an optional `(r, g, b)` triple.) -/
structure Run where
  text : String
  rgb : Option (Nat × Nat × Nat)
  colorVal : Option String
deriving DecidableEq

/-- The red predicate applied to a resolved color:
`r > 150 and g < 100 and b < 100 and (r-g) > 30 and (r-b) > 30`
(differences taken over ℤ as in Python). -/
def redTriple (r g b : Nat) : Bool :=
  decide (150 < r) && decide (g < 100) && decide (b < 100) &&
  decide ((30 : ℤ) < (r : ℤ) - (g : ℤ)) && decide ((30 : ℤ) < (r : ℤ) - (b : ℤ))

/-- `[0-9A-Fa-f]`. -/
def isHexDigit (c : Char) : Bool :=
  isDigit09 c || ('a' ≤ c && c ≤ 'f') || ('A' ≤ c && c ≤ 'F')

/-- Hex value of one hex digit. -/
def hexVal (c : Char) : Nat :=
  if isDigit09 c then c.toNat - 48
  else if 'a' ≤ c && c ≤ 'f' then c.toNat - 87
  else c.toNat - 55

/-- `int(two_hex_chars, 16)`. -/
def hex2 (a b : Char) : Nat := 16 * hexVal a + hexVal b

/-- Parse a six-hex-digit `w:color val` attribute into `(r, g, b)`
(`re.fullmatch(r"[0-9A-Fa-f]{6}", val)` then `int(val[i:j], 16)`). -/
def parseHex6 (v : String) : Option (Nat × Nat × Nat) :=
  match v.data with
  | [a, b, c, d, e, f] =>
    if [a, b, c, d, e, f].all isHexDigit then some (hex2 a b, hex2 c d, hex2 e f) else none
  | _ => none

/-- `is_red_font` from `extract_red_text.py`: the typed color is tested first;
if that test does not return, the raw XML `w:color val` six-hex fallback is
tested with the same predicate. -/
def is_red_font (run : Run) : Bool :=
  (match run.rgb with
   | some (r, g, b) => redTriple r g b
   | none => false) ||
  (match run.colorVal with
   | some v =>
     (match parseHex6 v with
      | some (r, g, b) => redTriple r g b
      | none => false)
   | none => false)

/-- The claim's reading of run color resolution (stated for comparison with
`is_red_font`): the color is the typed rgb when present, otherwise the parsed
raw XML value. -/
def resolvedColorClaim (run : Run) : Option (Nat × Nat × Nat) :=
  match run.rgb with
  | some t => some t
  | none =>
    match run.colorVal with
    | some v => parseHex6 v
    | none => none

/-- Placeholder detection as the claim describes it: the red predicate applied
to the resolved color. -/
def is_red_font_claim (run : Run) : Bool :=
  match resolvedColorClaim run with
  | some (r, g, b) => redTriple r g b
  | none => false

/-! ## DOCX red-text extractor (extract_red_text.py, master_key.py) -/

/-- First-occurrence generic replacement primitive: Python `str.replace`
(all non-overlapping occurrences, scanning left to right); `pat` nonempty. -/
def replaceSubCh (pat rep : List Char) : List Char → List Char
  | [] => []
  | c :: t =>
    if pat ≠ [] && startsWithCh pat (c :: t) then
      rep ++ replaceSubCh pat rep ((c :: t).drop pat.length)
    else c :: replaceSubCh pat rep t
termination_by l => l.length
decreasing_by
  · rename_i hcond
    simp only [List.length_drop, List.length_cons]
    have hne : pat ≠ [] := by
      rcases Bool.and_eq_true_iff.mp hcond with ⟨h1, _⟩
      exact of_decide_eq_true h1
    have : 1 ≤ pat.length := List.length_pos.mpr hne
    omega
  · simp

/-- `re.sub(r"\(​[^)]*\)", "", s)`-style deletion: remove every `open … close`
span whose close delimiter exists, scanning left to right (a lone `open` with
no later `close` is kept, as the regex then has no match there). -/
def removeDelim (o c : Char) : List Char → List Char
  | [] => []
  | x :: t =>
    if x == o && t.any (fun y => y == c) then
      removeDelim o c ((t.dropWhile (fun y => !(y == c))).drop 1)
    else x :: removeDelim o c t
termination_by l => l.length
decreasing_by
  · simp only [List.length_cons, List.length_drop]
    exact Nat.lt_succ_of_le (Nat.le_trans (Nat.sub_le _ _) (List.dropWhile_sublist _).length_le)
  · simp

/-- Maximal runs of characters satisfying `keep` (used for `re.split`
complements and Python `str.split()`). -/
def runsOf (keep : Char → Bool) : List Char → List (List Char)
  | [] => []
  | c :: t =>
    if keep c then (c :: t.takeWhile keep) :: runsOf keep (t.dropWhile keep)
    else runsOf keep t
termination_by l => l.length
decreasing_by
  · simp only [List.length_cons]
    exact Nat.lt_succ_of_le (List.dropWhile_sublist keep).length_le
  · simp

/-- Python `s.split()` (split on whitespace, no empty tokens). -/
def pySplitWs (s : String) : List String := (runsOf (fun c => !isSpacePy c) s.data).map String.mk

/-- `normalize_header_label` from `extract_red_text.py`: collapse whitespace,
strip, remove parenthesised/bracketed content, unify dashes, pad slashes,
replace one round of double spaces, strip. -/
def normalize_header_label (s : String) : String :=
  let s1 := normalize_text s
  let s2 := removeDelim '(' ')' s1.data
  let s3 := removeDelim '[' ']' s2
  let s4 := s3.map (fun ch => if ch == '–' || ch == '—' then '-' else ch)
  let s5 := s4.flatMap (fun ch => if ch == '/' then " / ".data else [ch])
  let s6 := replaceSubCh "  ".data " ".data s5
  pyStrip (String.mk s6)

/-- `LABEL_ALIASES` from `extract_red_text.py`. -/
def LABEL_ALIASES : List (String × String) :=
  [("roadworthiness certificates", "Roadworthiness Certificates"),
   ("maintenance records", "Maintenance Records"),
   ("daily checks", "Daily Checks"),
   ("fault recording / reporting", "Fault Recording/ Reporting"),
   ("fault repair", "Fault Repair"),
   ("sub contracted vehicles statement of compliance",
    "Sub-contracted Vehicles Statement of Compliance"),
   ("weight verification records", "Weight Verification Records"),
   ("rfs suspension certification #", "RFS Suspension Certification #"),
   ("suspension system maintenance", "Suspension System Maintenance"),
   ("trip records", "Trip Records"),
   ("fault recording/ reporting on suspension system",
    "Fault Recording/ Reporting on Suspension System"),
   ("registration number", "Registration Number"),
   ("no.", "No."),
   ("sub contractor", "Sub contractor"),
   ("sub-contractor", "Sub contractor")]

/-- `canonicalize_label` from `extract_red_text.py`. -/
def canonicalize_label (s : String) : String :=
  let key := String.mk (collapseWsCh (pyLower (normalize_header_label s)).data)
  (LABEL_ALIASES.lookup key).getD s

/-- The token filter of `bag_similarity`: split on `[^A-Za-z0-9#]+`, keep
words longer than 2 characters plus `#` and `no`, as a set (deduplicated). -/
def bagWords (s : String) : List String :=
  (((runsOf (fun c => isAlnumAZ09 c || c == '#') (pyLower (normalize_header_label s)).data).map
      String.mk).filter (fun w => 2 < w.length || w = "#" || w = "no")).dedup

/-- `bag_similarity` from `extract_red_text.py` (float arithmetic modelled
exactly over ℚ). -/
def bag_similarity (a b : String) : ℚ :=
  let aw := bagWords a
  let bw := bagWords b
  if aw = [] ∨ bw = [] then 0
  else ((aw.filter (fun w => w ∈ bw)).length : ℚ) / (max aw.length bw.length : ℚ)

/-- A paragraph is its list of runs; a DOCX table cell is its paragraphs. -/
structure DCell where
  paras : List (List Run)
deriving DecidableEq

/-- A DOCX table row. -/
structure DRow where
  cells : List DCell
deriving DecidableEq

/-- A DOCX table, together with the text of the nearest preceding paragraph
(`_prev_para_text`). -/
structure DTable where
  prevPara : String
  rows : List DRow
deriving DecidableEq

/-- `paragraph.text` (python-docx): concatenation of the run texts. -/
def paraText (p : List Run) : String := String.join (p.map Run.text)

/-- `cell.text` (python-docx): paragraph texts joined by newlines. -/
def dcellText (c : DCell) : String := String.intercalate "\n" (c.paras.map paraText)

/-- The table context computed by `get_table_context`.  (In Python an empty
table or an empty row would raise `IndexError` inside `get_table_context`;
here missing rows/cells default to empty ones, and the theorems that go
through `get_table_context` assume a nonempty first row as the code does.) -/
structure TableContext where
  heading : String
  headers : List String
  col0 : List String
  first_cell : String
  all_cells : List String
  num_rows : Nat
  num_cols : Nat
deriving DecidableEq

/-- `get_table_context` from `extract_red_text.py`. -/
def get_table_context (t : DTable) : TableContext :=
  let row0 := t.rows.headD ⟨[]⟩
  { heading := normalize_text t.prevPara
    headers := row0.cells.filterMap
      (fun c => if pyStrip (dcellText c) ≠ "" then some (normalize_text (dcellText c)) else none)
    col0 := t.rows.filterMap
      (fun r =>
        let c := r.cells.headD ⟨[]⟩
        if pyStrip (dcellText c) ≠ "" then some (normalize_text (dcellText c)) else none)
    first_cell :=
      if t.rows ≠ [] then normalize_text (dcellText (row0.cells.headD ⟨[]⟩)) else ""
    all_cells := t.rows.flatMap
      (fun r => r.cells.filterMap
        (fun c =>
          let tx := normalize_text (dcellText c)
          if tx ≠ "" then some tx else none))
    num_rows := t.rows.length
    num_cols := if t.rows ≠ [] then row0.cells.length else 0 }

/-- One entry of `TABLE_SCHEMAS` (master_key.py).  The heading `level` fields
are never read by the matching code and are dropped; `priority` is kept as
data although the matcher never reads it either. -/
structure Schema where
  headings : List String := []
  orientation : String := ""
  labels : List String := []
  priority : Nat := 0
  context_keywords : List String := []
  context_exclusions : List String := []
  columns : List String := []
  split_labels : List String := []
deriving DecidableEq

/-- `TABLE_SCHEMAS` from `master_key.py`, in registration (insertion) order. -/
def TABLE_SCHEMAS : List (String × Schema) :=
  [("Tick as appropriate",
    { headings := ["NHVAS Audit Summary Report"], orientation := "left",
      labels := ["Mass", "Entry Audit", "Maintenance", "Initial Compliance Audit",
                 "Basic Fatigue", "Compliance Audit", "Advanced Fatigue", "Spot Check",
                 "Triggered Audit"],
      priority := 90 }),
   ("Audit Information",
    { orientation := "left",
      labels := ["Date of Audit", "Location of audit", "Auditor name",
                 "Audit Matrix Identifier (Name or Number)",
                 "Auditor Exemplar Global Reg No.", "expiry Date:",
                 "NHVR Auditor Registration Number", "expiry Date:"],
      priority := 80 }),
   ("Operator Information",
    { headings := ["Operator Information"], orientation := "left",
      labels := ["Operator name (Legal entity)", "NHVAS Accreditation No. (If applicable)",
                 "Registered trading name/s", "Australian Company Number",
                 "NHVAS Manual (Policies and Procedures) developed by"],
      priority := 85 }),
   ("Operator contact details",
    { orientation := "left",
      labels := ["Operator business address", "Operator Postal address", "Email address",
                 "Operator Telephone Number"],
      priority := 75,
      context_keywords := ["contact", "address", "email", "telephone"] }),
   ("Attendance List (Names and Position Titles)",
    { headings := ["NHVAS Audit Summary Report"], orientation := "row1",
      labels := ["Attendance List (Names and Position Titles)"], priority := 90 }),
   ("Nature of the Operators Business (Summary)",
    { orientation := "row1",
      labels := ["Nature of the Operators Business (Summary):"],
      split_labels := ["Accreditation Number:", "Expiry Date:"], priority := 85 }),
   ("Accreditation Vehicle Summary",
    { orientation := "left",
      labels := ["Number of powered vehicles", "Number of trailing vehicles"],
      priority := 80 }),
   ("Accreditation Driver Summary",
    { orientation := "left",
      labels := ["Number of drivers in BFM", "Number of drivers in AFM"], priority := 80 }),
   ("Compliance Codes",
    { orientation := "left", labels := ["V", "NC", "TNC", "SFI", "NAP", "NA"],
      priority := 70,
      context_exclusions := ["MASS MANAGEMENT", "MAINTENANCE MANAGEMENT",
                             "FATIGUE MANAGEMENT"] }),
   ("Corrective Action Request Identification",
    { orientation := "row1", labels := ["Title", "Abbreviation", "Description"],
      priority := 80 }),
   ("Maintenance Management",
    { headings := ["NHVAS AUDIT SUMMARY REPORT"], orientation := "left",
      labels := ["Std 1. Daily Check", "Std 2. Fault Recording and Reporting",
                 "Std 3. Fault Repair", "Std 4. Maintenance Schedules and Methods",
                 "Std 5. Records and Documentation", "Std 6. Responsibilities",
                 "Std 7. Internal Review", "Std 8. Training and Education"],
      priority := 60, context_keywords := ["maintenance"],
      context_exclusions := ["summary", "details", "audit findings"] }),
   ("Mass Management",
    { headings := ["NHVAS AUDIT SUMMARY REPORT"], orientation := "left",
      labels := ["Std 1. Responsibilities", "Std 2. Vehicle Control", "Std 3. Vehicle Use",
                 "Std 4. Records and Documentation", "Std 5. Verification",
                 "Std 6. Internal Review", "Std 7. Training and Education",
                 "Std 8. Maintenance of Suspension"],
      priority := 60, context_keywords := ["mass"],
      context_exclusions := ["summary", "details", "audit findings"] }),
   ("Fatigue Management",
    { headings := ["NHVAS AUDIT SUMMARY REPORT"], orientation := "left",
      labels := ["Std 1. Scheduling and Rostering",
                 "Std 2. Health and wellbeing for performed duty",
                 "Std 3. Training and Education",
                 "Std 4. Responsibilities and management practices",
                 "Std 5. Internal Review", "Std 6. Records and Documentation",
                 "Std 7. Workplace conditions"],
      priority := 60, context_keywords := ["fatigue"],
      context_exclusions := ["summary", "details", "audit findings"] }),
   ("Maintenance Management Summary",
    { headings := ["Audit Observations and Comments",
                   "Maintenance Management Summary of Audit findings"],
      orientation := "left", columns := ["MAINTENANCE MANAGEMENT", "DETAILS"],
      labels := ["Std 1. Daily Check", "Std 2. Fault Recording and Reporting",
                 "Std 3. Fault Repair", "Std 4. Maintenance Schedules and Methods",
                 "Std 5. Records and Documentation", "Std 6. Responsibilities",
                 "Std 7. Internal Review", "Std 8. Training and Education"],
      priority := 85,
      context_keywords := ["maintenance", "summary", "details", "audit findings"] }),
   ("Mass Management Summary",
    { headings := ["Mass Management Summary of Audit findings"], orientation := "left",
      columns := ["MASS MANAGEMENT", "DETAILS"],
      labels := ["Std 1. Responsibilities", "Std 2. Vehicle Control", "Std 3. Vehicle Use",
                 "Std 4. Records and Documentation", "Std 5. Verification",
                 "Std 6. Internal Review", "Std 7. Training and Education",
                 "Std 8. Maintenance of Suspension"],
      priority := 85,
      context_keywords := ["mass", "summary", "details", "audit findings"] }),
   ("Fatigue Management Summary",
    { headings := ["Fatigue Management Summary of Audit findings"], orientation := "left",
      columns := ["FATIGUE MANAGEMENT", "DETAILS"],
      labels := ["Std 1. Scheduling and Rostering",
                 "Std 2. Health and wellbeing for performed duty",
                 "Std 3. Training and Education",
                 "Std 4. Responsibilities and management practices",
                 "Std 5. Internal Review", "Std 6. Records and Documentation",
                 "Std 7. Workplace conditions"],
      priority := 85,
      context_keywords := ["fatigue", "summary", "details", "audit findings"] }),
   ("Vehicle Registration Numbers Mass",
    { headings := ["Vehicle Registration Numbers of Records Examined", "MASS MANAGEMENT"],
      orientation := "row1",
      labels := ["No.", "Registration Number", "Sub contractor",
                 "Sub-contracted Vehicles Statement of Compliance",
                 "Weight Verification Records", "RFS Suspension Certification #",
                 "Suspension System Maintenance", "Trip Records",
                 "Fault Recording/ Reporting on Suspension System"],
      priority := 90,
      context_keywords := ["mass", "vehicle registration", "rfs suspension",
                           "weight verification"],
      context_exclusions := ["maintenance", "roadworthiness", "daily checks"] }),
   ("Vehicle Registration Numbers Maintenance",
    { headings := ["Vehicle Registration Numbers of Records Examined",
                   "Maintenance Management"],
      orientation := "row1",
      labels := ["No.", "Registration Number", "Roadworthiness Certificates",
                 "Maintenance Records", "Daily Checks", "Fault Recording/ Reporting",
                 "Fault Repair"],
      priority := 85,
      context_keywords := ["maintenance", "vehicle registration", "roadworthiness",
                           "daily checks"],
      context_exclusions := ["mass", "rfs suspension", "weight verification"] }),
   ("Driver / Scheduler Records Examined",
    { headings := ["Driver / Scheduler Records Examined", "FATIGUE MANAGEMENT"],
      orientation := "row1",
      labels := ["No.", "Driver / Scheduler Name", "Driver TLIF Course # Completed",
                 "Scheduler TLIF Course # Completed",
                 "Medical Certificates (Current Yes/No) Date of expiry",
                 "Roster / Schedule / Safe Driving Plan (Date Range)",
                 "Fit for Duty Statement Completed (Yes/No)",
                 "Work Diary Pages (Page Numbers) Electronic Work Diary Records (Date Range)"],
      priority := 80, context_keywords := ["driver", "scheduler", "fatigue"] }),
   ("Operator\x27s Name (legal entity)",
    { headings := ["CORRECTIVE ACTION REQUEST (CAR)"], orientation := "left",
      labels := ["Operator\x27s Name (legal entity)"], priority := 85 }),
   ("Non-conformance and CAR details",
    { orientation := "left",
      labels := ["Non-conformance agreed close out date", "Module and Standard",
                 "Corrective Action Request (CAR) Number", "Observed Non-conformance:",
                 "Corrective Action taken or to be taken by operator:",
                 "Operator or Representative Signature", "Position", "Date", "Comments:",
                 "Auditor signature", "Date"],
      priority := 75, context_keywords := ["non-conformance", "corrective action"] }),
   ("NHVAS Approved Auditor Declaration",
    { headings := ["NHVAS APPROVED AUDITOR DECLARATION"], orientation := "row1",
      labels := ["Print Name", "NHVR or Exemplar Global Auditor Registration Number"],
      priority := 90, context_keywords := ["auditor declaration", "NHVR"],
      context_exclusions := ["manager", "operator declaration"] }),
   ("Audit Declaration dates",
    { headings := ["Audit Declaration dates"], orientation := "left",
      labels := ["Audit was conducted on", "Unconditional CARs closed out on:",
                 "Conditional CARs to be closed out by:"],
      priority := 80 }),
   ("Print accreditation name",
    { headings := ["(print accreditation name)"], orientation := "left",
      labels := ["(print accreditation name)"], priority := 85 }),
   ("Operator Declaration",
    { headings := ["Operator Declaration"], orientation := "row1",
      labels := ["Print Name", "Position Title"], priority := 90,
      context_keywords := ["operator declaration", "manager"],
      context_exclusions := ["auditor", "nhvas approved"] })]

/-- `table_text` used repeatedly inside `calculate_schema_match_score`:
`" ".join(context['headers']).lower() + " " + context['heading'].lower()`. -/
def ctxTableText (c : TableContext) : String :=
  pyLower (joinSpace c.headers) ++ " " ++ pyLower c.heading

/-- `fuzzy_match_heading(heading, [pattern])` from `extract_red_text.py`:
`re.search(pattern, normalize_text(heading.upper()), re.IGNORECASE)`.
Every heading pattern in `TABLE_SCHEMAS` is a literal except for grouping
parentheses, so the regex search equals case-insensitive substring search for
the pattern with its parentheses removed. -/
def fuzzy_match_heading (heading pattern : String) : Bool :=
  containsSub (pyUpper (String.mk (pattern.data.filter (fun ch => !(ch == '(' || ch == ')')))))
    (normalize_text (pyUpper heading))

/-- `calculate_schema_match_score` from `extract_red_text.py`
(score over ℚ; every Python int/float operation is exact here). -/
def calculate_schema_match_score (schema_name : String) (spec : Schema)
    (c : TableContext) : ℚ :=
  let tt := ctxTableText c
  let vehicleBoost : ℚ :=
    if containsSub "Vehicle Registration" schema_name then
      let km := (["registration", "vehicle", "sub-contractor", "weight verification",
                  "rfs suspension"].filter (fun k => containsSub k tt)).length
      if 2 ≤ km then 150 else if 1 ≤ km then 75 else 0
    else 0
  let summaryBoost : ℚ :=
    if containsSub "Summary" schema_name &&
       containsSub "details" (pyLower (joinSpace c.headers)) then 100 else 0
  let summaryPenalty : ℚ :=
    if !containsSub "Summary" schema_name &&
       containsSub "details" (pyLower (joinSpace c.headers)) then -75 else 0
  let exclusionPenalty : ℚ :=
    -50 * ((spec.context_exclusions.filter (fun e => containsSub (pyLower e) tt)).length : ℚ)
  let keywordBonus : ℚ :=
    15 * ((spec.context_keywords.filter (fun k => containsSub (pyLower k) tt)).length : ℚ)
  let firstCellBonus : ℚ :=
    if c.first_cell ≠ "" && pyUpper c.first_cell = pyUpper schema_name then 100 else 0
  let headingBonus : ℚ :=
    if spec.headings.any (fun h => fuzzy_match_heading c.heading h) then 50 else 0
  let columnBonus : ℚ :=
    if spec.columns ≠ [] then
      let cols := spec.columns.map normalize_text
      let m := (cols.filter
        (fun col => c.headers.any (fun h => containsSub (pyUpper col) (pyUpper h)))).length
      if m = cols.length then 60 else if 0 < m then 20 * (m : ℚ) else 0
    else 0
  let labelBonus : ℚ :=
    if spec.orientation = "left" then
      let labels := spec.labels.map normalize_text
      let m := (labels.filter (fun lbl => c.col0.any
        (fun c0 => containsSub (pyUpper lbl) (pyUpper c0) ||
                   containsSub (pyUpper c0) (pyUpper lbl)))).length
      if 0 < m then ((m : ℚ) / (labels.length : ℚ)) * 30 else 0
    else if spec.orientation = "row1" then
      let labels := spec.labels.map normalize_text
      let m : ℚ := (labels.map (fun lbl =>
        if c.headers.any (fun h => containsSub (pyUpper lbl) (pyUpper h) ||
                                   containsSub (pyUpper h) (pyUpper lbl)) then (1 : ℚ)
        else if (pySplitWs lbl).any (fun w => 3 < w.length &&
            containsSub (pyUpper w) (pyUpper (joinSpace c.headers))) then (1 : ℚ)/2
        else 0)).sum
      if 0 < m then (m / (labels.length : ℚ)) * 40 else 0
    else 0
  let opDeclBonus : ℚ :=
    if schema_name = "Operator Declaration" && pyUpper c.first_cell = "PRINT NAME" then
      if containsSub "OPERATOR DECLARATION" (pyUpper c.heading) then 80
      else if c.all_cells.any (fun cell => containsSub "MANAGER" (pyUpper cell)) then 60
      else 0
    else 0
  let auditorPenalty : ℚ :=
    if schema_name = "NHVAS Approved Auditor Declaration" &&
       pyUpper c.first_cell = "PRINT NAME" &&
       c.all_cells.any (fun cell => containsSub "MANAGER" (pyUpper cell)) then -50 else 0
  vehicleBoost + summaryBoost + summaryPenalty + exclusionPenalty + keywordBonus +
    firstCellBonus + headingBonus + columnBonus + labelBonus + opDeclBonus + auditorPenalty

/-- `looks_like_operator_declaration` from `extract_red_text.py`. -/
def looks_like_operator_declaration (c : TableContext) : Bool :=
  let heading := pyLower (pyStrip c.heading)
  let headers := pyLower (joinSpace c.headers)
  containsSub "operator declaration" heading && containsSub "print name" headers &&
    containsSub "position" headers && containsSub "title" headers

/-- `looks_like_auditor_declaration` from `extract_red_text.py`. -/
def looks_like_auditor_declaration (c : TableContext) : Bool :=
  let heading := pyLower (pyStrip c.heading)
  let headers := pyLower (joinSpace c.headers)
  containsSub "auditor declaration" heading && containsSub "print name" headers &&
    (containsSub "nhvr" headers || containsSub "auditor registration number" headers)

/-- One step of the best-score fold in `match_table_schema`
(`if score > best_score: best_score, best_match = score, name`). -/
def bestStep (c : TableContext) (acc : Option String × ℚ) (p : String × Schema) :
    Option String × ℚ :=
  let sc := calculate_schema_match_score p.1 p.2 c
  if acc.2 < sc then (some p.1, sc) else acc

/-- `match_table_schema` from `extract_red_text.py`: two hard declaration
checks first, then the best scoring schema, accepted only at score ≥ 20. -/
def match_table_schema (t : DTable) : Option String :=
  let c := get_table_context t
  if containsSub "print name" (pyLower (joinSpace c.headers)) &&
     containsSub "auditor" (pyLower (joinSpace c.headers)) then
    some "NHVAS Approved Auditor Declaration"
  else if looks_like_auditor_declaration c then some "NHVAS Approved Auditor Declaration"
  else if looks_like_operator_declaration c then some "Operator Declaration"
  else
    let best := TABLE_SCHEMAS.foldl (bestStep c) (none, 0)
    if 20 ≤ best.2 then best.1 else none

/-- `check_multi_schema_table` from `extract_red_text.py`. -/
def check_multi_schema_table (t : DTable) : Option (List String) :=
  let c := get_table_context t
  let operator_labels := ["Operator name (Legal entity)", "NHVAS Accreditation No.",
    "Registered trading name/s", "Australian Company Number", "NHVAS Manual"]
  let contact_labels := ["Operator business address", "Operator Postal address",
    "Email address", "Operator Telephone Number"]
  let has_operator := c.col0.any
    (fun cell => operator_labels.any (fun l => containsSub (pyUpper l) (pyUpper cell)))
  let has_contact := c.col0.any
    (fun cell => contact_labels.any (fun l => containsSub (pyUpper l) (pyUpper cell)))
  if has_operator && has_contact then some ["Operator Information", "Operator contact details"]
  else none

/-- Red text gathered from one cell, run by run:
`[run.text for p in cell.paragraphs for run in p.runs if is_red_font(run) and run.text]`. -/
def redsOfCell (cell : DCell) : List String :=
  cell.paras.flatMap
    (fun p => p.filterMap (fun r => if is_red_font r && r.text ≠ "" then some r.text else none))

/-- The logical red value of one cell: coalesce numeric runs, join with
spaces, normalise.  A cell contributes iff this is nonempty (the code's two
`continue` guards on `reds` and on `red_txt`). -/
def cellRedText (cell : DCell) : String :=
  normalize_text (joinSpace (coalesce_numeric_runs (redsOfCell cell)))

/-- `{lbl: [] for lbl in labels}` — build the ordered dict skeleton
(duplicate labels collapse to one key, as in a Python dict). -/
def initDict (labels : List String) : List (String × List String) :=
  labels.foldl (fun acc l => if acc.any (fun p => p.1 = l) then acc else acc ++ [(l, [])]) []

/-- `d[k].append(v)` for a key already present. -/
def appendVal (l : List (String × List String)) (k v : String) : List (String × List String) :=
  l.map (fun p => if p.1 = k then (p.1, p.2 ++ [v]) else p)

/-- `d.setdefault(k, []).append(v)`. -/
def setdefaultAppend (l : List (String × List String)) (k v : String) :
    List (String × List String) :=
  if l.any (fun p => p.1 = k) then appendVal l k v else l ++ [(k, [v])]

/-- Deduplicating append: `if v not in seen[k]: seen[k].add(v); d[k].append(v)`.
The code's `seen[k]` set always equals the set of elements of `d[k]`, so
membership in the collected list itself models the seen-set test. -/
def appendNew (l : List (String × List String)) (k v : String) : List (String × List String) :=
  l.map (fun p => if p.1 = k then (if v ∈ p.2 then p else (p.1, p.2 ++ [v])) else p)

/-- `if v not in d[k]: d[k].append(v)` where `k` may be absent
(`if k not in d: d[k] = []` first) — used by `extract_multi_schema_table`. -/
def addIfNewKeyed (l : List (String × List String)) (k v : String) :
    List (String × List String) :=
  if l.any (fun p => p.1 = k) then appendNew l k v else l ++ [(k, [v])]

/-- `{canonicalize_label(lbl): lbl for lbl in labels}`. -/
def canonicalLabelsOf (labels : List String) : List (String × String) :=
  labels.foldl (fun acc lbl => upsertA acc (canonicalize_label lbl) lbl) []

/-- Header-cell→label mapping shared by the Operator Declaration, Vehicle
Registration and Driver/Scheduler branches of `extract_table_data`:
alias/canonical lookup first, then best bag-of-words similarity at
threshold ≥ 0.40. -/
def mapHeaderCell (cl : List (String × String)) (raw_h : String) : Option String :=
  let header_text := normalize_header_label raw_h
  if header_text = "" then none
  else
    let canon := canonicalize_label header_text
    match cl.lookup canon with
    | some orig => some orig
    | none =>
      let best := cl.foldl
        (fun (acc : Option String × ℚ) p =>
          let s := bag_similarity header_text p.1
          if acc.2 < s then (some p.2, s) else acc)
        (none, 0)
      if best.1.isSome && (2 : ℚ)/5 ≤ best.2 then best.1 else none

/-- The `column_mapping` dict: column index → schema label. -/
def column_mapping (cl : List (String × String)) (header_row : DRow) : List (Nat × String) :=
  header_row.cells.enum.filterMap
    (fun ic =>
      match mapHeaderCell cl (normalize_text (dcellText ic.2)) with
      | some lbl => some (ic.1, lbl)
      | none => none)

/-- The `unmapped_bucket[raw_h] = []` initialisation of the Vehicle/Driver
branches: one (empty) bucket per nonempty unmapped header. -/
def unmappedInit (cl : List (String × String)) (header_row : DRow) :
    List (String × List String) :=
  header_row.cells.foldl
    (fun acc cell =>
      let raw_h := normalize_text (dcellText cell)
      if normalize_header_label raw_h = "" then acc
      else
        match mapHeaderCell cl raw_h with
        | some _ => acc
        | none => if acc.any (fun p => p.1 = raw_h) then acc else acc ++ [(raw_h, [])])
    []

/-- One cell of the Vehicle/Driver data-row loop: append a nonempty red cell
value to its mapped label (no deduplication), or to the unmapped bucket keyed
by its header text. -/
def repeatCellStep (cm : List (Nat × String)) (header_texts : List String)
    (st : List (String × List String) × List (String × List String)) (ic : Nat × DCell) :
    List (String × List String) × List (String × List String) :=
  let red := cellRedText ic.2
  if red = "" then st
  else
    match cm.lookup ic.1 with
    | some lbl => (appendVal st.1 lbl red, st.2)
    | none =>
      let hn := header_texts.getD ic.1 ("(unmapped col " ++ toString ic.1 ++ ")")
      (st.1, setdefaultAppend st.2 hn red)

/-- One data row of the Vehicle/Driver loop. -/
def repeatRowStep (cm : List (Nat × String)) (header_texts : List String)
    (st : List (String × List String) × List (String × List String)) (row : DRow) :
    List (String × List String) × List (String × List String) :=
  row.cells.enum.foldl (repeatCellStep cm header_texts) st

/-- Data-row loop of the Vehicle Registration / Driver-Scheduler branches. -/
def repeatDataFold (cm : List (Nat × String)) (header_texts : List String)
    (rows : List DRow)
    (init : List (String × List String) × List (String × List String)) :
    List (String × List String) × List (String × List String) :=
  rows.foldl (repeatRowStep cm header_texts) init

/-- The Vehicle Registration and Driver / Scheduler branches of
`extract_table_data` (their bodies are identical up to log strings). -/
def extract_repeating_rows (spec : Schema) (t : DTable) : List (String × List String) :=
  if t.rows.length < 2 then []
  else
    ((repeatDataFold (column_mapping (canonicalLabelsOf spec.labels) (t.rows.headD ⟨[]⟩))
        ((t.rows.headD ⟨[]⟩).cells.map (fun hc => normalize_text (dcellText hc)))
        (t.rows.drop 1)
        (initDict spec.labels,
         unmappedInit (canonicalLabelsOf spec.labels) (t.rows.headD ⟨[]⟩))).1.filter
      (fun p => p.2 ≠ [])) ++
    ((repeatDataFold (column_mapping (canonicalLabelsOf spec.labels) (t.rows.headD ⟨[]⟩))
        ((t.rows.headD ⟨[]⟩).cells.map (fun hc => normalize_text (dcellText hc)))
        (t.rows.drop 1)
        (initDict spec.labels,
         unmappedInit (canonicalLabelsOf spec.labels) (t.rows.headD ⟨[]⟩))).2.filterMap
      (fun p => if p.2 ≠ [] then some ("UNMAPPED::" ++ p.1, p.2) else none))

/-- The Operator Declaration branch of `extract_table_data`: same header
mapping, per-row appends, no unmapped bucket. -/
def extract_operator_declaration_rows (spec : Schema) (t : DTable) :
    List (String × List String) :=
  if t.rows.length < 2 then []
  else
    let header_row := t.rows.headD ⟨[]⟩
    let cl := canonicalLabelsOf spec.labels
    let cm := column_mapping cl header_row
    let col := (t.rows.drop 1).foldl
      (fun col row =>
        row.cells.enum.foldl
          (fun col ic =>
            match cm.lookup ic.1 with
            | some lbl =>
              let red := cellRedText ic.2
              if red = "" then col else appendVal col lbl red
            | none => col)
          col)
      (initDict spec.labels)
    col.filter (fun p => p.2 ≠ [])

/-- Label resolution for `left`/`single` tables in the generic branch:
exact normalised match, then substring containment of the
`normalize_header_label` forms, then the schema name as catch-all. -/
def resolveLeftLabel (spec : Schema) (schema_name : String) (row : DRow) : String :=
  let raw_label := normalize_text (dcellText (row.cells.headD ⟨[]⟩))
  match spec.labels.find? (fun sl => pyUpper (normalize_text sl) = pyUpper raw_label) with
  | some l => l
  | none =>
    let a_raw := pyUpper (normalize_header_label raw_label)
    match spec.labels.find?
      (fun sl =>
        let a_spec := pyUpper (normalize_header_label sl)
        containsSub a_spec a_raw || containsSub a_raw a_spec) with
    | some l => l
    | none => schema_name

/-- One cell of the generic branch: a nonempty red value is appended (with
deduplication) under the column label (`row1`) or the resolved left label. -/
def genCellStep (schema_name : String) (spec : Schema) (by_col : Bool) (row : DRow)
    (col : List (String × List String)) (ic : Nat × DCell) : List (String × List String) :=
  let red := cellRedText ic.2
  if red = "" then col
  else
    let lbl :=
      if by_col then
        (if ic.1 < spec.labels.length then spec.labels.getD ic.1 "" else schema_name)
      else resolveLeftLabel spec schema_name row
    appendNew col lbl red

/-- The generic (deduplicating) branch of `extract_table_data`. -/
def extract_generic (schema_name : String) (spec : Schema) (t : DTable) :
    List (String × List String) :=
  let by_col := spec.orientation = "row1"
  let start_row := if by_col then 1 else 0
  let col := (t.rows.drop start_row).foldl
    (fun col row => row.cells.enum.foldl (genCellStep schema_name spec by_col row) col)
    (initDict (spec.labels ++ [schema_name]))
  col.filter (fun p => p.2 ≠ [])

/-- `extract_table_data(tbl, schema_name, spec)` from `extract_red_text.py`. -/
def extract_table_data (t : DTable) (schema_name : String) (spec : Schema) :
    List (String × List String) :=
  if schema_name = "Operator Declaration" then extract_operator_declaration_rows spec t
  else if containsSub "Vehicle Registration" schema_name then extract_repeating_rows spec t
  else if containsSub "Driver / Scheduler" schema_name then extract_repeating_rows spec t
  else extract_generic schema_name spec t

/-- Per-schema row extraction of `extract_multi_schema_table`. -/
def extract_one_multi (t : DTable) (spec : Schema) : List (String × List String) :=
  (t.rows.drop 1).foldl
    (fun acc row =>
      let row_label := normalize_text (dcellText (row.cells.headD ⟨[]⟩))
      match spec.labels.find?
        (fun sl =>
          let sn := pyUpper (normalize_text sl)
          let rn := pyUpper row_label
          sn = rn || containsSub sn rn || containsSub rn sn) with
      | none => acc
      | some matched =>
        row.cells.foldl
          (fun acc cell =>
            let red := pyStrip (String.join (cell.paras.flatMap
              (fun p => p.filterMap (fun r => if is_red_font r then some r.text else none))))
            if red ≠ "" then addIfNewKeyed acc matched red else acc)
          acc)
    []

/-- `extract_multi_schema_table` from `extract_red_text.py`. -/
def extract_multi_schema_table (t : DTable) (schemas : List String) :
    List (String × List (String × List String)) :=
  schemas.filterMap
    (fun name =>
      match TABLE_SCHEMAS.lookup name with
      | none => none
      | some spec =>
        let d := extract_one_multi t spec
        if d ≠ [] then some (name, d) else none)

/-- The contribution of one table to the output of `extract_red_text`:
the loop body of `extract_red_text` for one `tbl` (dual-schema path first,
then single-schema match; an unmatched or empty table contributes nothing). -/
def tableContribution (t : DTable) : List (String × List (String × List String)) :=
  match check_multi_schema_table t with
  | some schemas => extract_multi_schema_table t schemas
  | none =>
    match match_table_schema t with
    | none => []
    | some name =>
      match TABLE_SCHEMAS.lookup name with
      | none => []
      | some spec =>
        let d := extract_table_data t name spec
        if d = [] then [] else [(name, d)]

/-! ## Schema-aware merger (space-pdf/space-pdf/update_docx_with_pdf.py) -/

/-- Insert a space between every adjacent character pair satisfying `need`.
For the three OCR-glue substitutions `([a-z])([A-Z])`, `([A-Za-z])(\d)` and
`(\d)([A-Za-z])` the two character classes are disjoint, so consecutive regex
matches never overlap and `re.sub` equals this pairwise insertion. -/
def pairInsert (need : Char → Char → Bool) : List Char → List Char
  | [] => []
  | a :: t =>
    match t with
    | [] => [a]
    | b :: _ => (if need a b then [a, ' '] else [a]) ++ pairInsert need t

/-- `re.sub(r'([A-Z]{2,})(\d)', r'\1 \2', s)`: insert a space before a digit
preceded by at least two uppercase letters.  (Applied after the
letter–digit substitution this never fires, but it is embedded faithfully.) -/
def subUpperRunDigit (l : List Char) : List Char := go l false
where
  go : List Char → Bool → List Char
  | [], _ => []
  | [c], _ => [c]
  | a :: b :: t, prevUpper =>
    if prevUpper && isUpperAZ a && isDigit09 b then a :: ' ' :: go (b :: t) false
    else a :: go (b :: t) (isUpperAZ a)

/-- Python word character (`\w` ASCII): `[A-Za-z0-9_]`. -/
def isWordChar (c : Char) : Bool := isAlnumAZ09 c || c == '_'

/-- The `(st|nd|rd|th)\\b` tail of the ordinal pattern: does the list start
with one of the four suffixes followed by a word boundary? -/
def ordSuffixOk : List Char → Bool
  | a :: b :: rest =>
    ([a, b] = ['s', 't'] || [a, b] = ['n', 'd'] || [a, b] = ['r', 'd'] ||
     [a, b] = ['t', 'h']) &&
    (match rest with | [] => true | r :: _ => !isWordChar r)
  | _ => false

/-- `re.sub(r'\b(\d+)\s*(st|nd|rd|th)\b', r'\1\2', s)`: compact ordinals.
`prevWord` tracks whether the previous emitted character is a word character
(for the leading `\b`); a failed attempt keeps the digit run (no match can
start inside it) and continues. -/
def ordinalFixGo (prevWord : Bool) : List Char → List Char
  | [] => []
  | c :: t =>
    if !prevWord && isDigit09 c then
      let ds := c :: t.takeWhile isDigit09
      let rest1 := t.dropWhile isDigit09
      let rest2 := rest1.dropWhile isSpacePy
      if ordSuffixOk rest2 then ds ++ rest2.take 2 ++ ordinalFixGo true (rest2.drop 2)
      else ds ++ ordinalFixGo true rest1
    else c :: ordinalFixGo (isWordChar c) t
termination_by l => l.length
decreasing_by
  · simp only [List.length_cons, List.length_drop]
    have h1 : ((t.dropWhile isDigit09).dropWhile isSpacePy).length ≤
        (t.dropWhile isDigit09).length := (List.dropWhile_sublist _).length_le
    have h2 : (t.dropWhile isDigit09).length ≤ t.length :=
      (List.dropWhile_sublist _).length_le
    omega
  · simp only [List.length_cons]
    have h2 : (t.dropWhile isDigit09).length ≤ t.length :=
      (List.dropWhile_sublist _).length_le
    omega
  · simp

/-- The whole ordinal substitution pass (word-boundary state starts clear). -/
def ordinalFix (l : List Char) : List Char := ordinalFixGo false l

/-- `_smart_space` from `update_docx_with_pdf.py`: OCR-glue space insertion,
`POBox` fix, ordinal compaction, whitespace collapse and strip. -/
def _smart_space (s : String) : String :=
  if s = "" then s
  else
    let s1 := pairInsert (fun a b => isLowerAZ a && isUpperAZ b) s.data
    let s2 := pairInsert (fun a b => isAlphaAZ a && isDigit09 b) s1
    let s3 := pairInsert (fun a b => isDigit09 a && isAlphaAZ b) s2
    let s4 := subUpperRunDigit s3
    let s5 := replaceSubCh "POBox".data "PO Box".data s4
    let s6 := ordinalFix s5
    normalize_text (String.mk s6)

/-- `_nz` from `update_docx_with_pdf.py` (string inputs): the value if its
strip is nonempty, else `""`. -/
def _nz (x : String) : String := if pyStrip x ≠ "" then x else ""

/-- Collapse every maximal run of characters satisfying `bad` to one space
(the shape of `re.sub(r"[^…]+", " ", s)`). -/
def collapseRunsTo (bad : Char → Bool) : List Char → List Char
  | [] => []
  | c :: t =>
    if bad c then ' ' :: collapseRunsTo bad (t.dropWhile bad)
    else c :: collapseRunsTo bad t
termination_by l => l.length
decreasing_by
  · simp only [List.length_cons]
    exact Nat.lt_succ_of_le (List.dropWhile_sublist bad).length_le
  · simp

/-- `_canon` from `update_docx_with_pdf.py`. -/
def _canon (s : String) : String :=
  if s = "" then ""
  else
    normalize_text (String.mk (collapseRunsTo
      (fun c => !(isLowerAZ c || isDigit09 c || c == '#'))
      (pyLower (normalize_text s)).data))

/-- `re.sub(r"[/]+", " / ", s)`. -/
def subSlashRuns : List Char → List Char
  | [] => []
  | c :: t =>
    if c == '/' then ' ' :: '/' :: ' ' :: subSlashRuns (t.dropWhile (fun y => y == '/'))
    else c :: subSlashRuns t
termination_by l => l.length
decreasing_by
  · simp only [List.length_cons]
    exact Nat.lt_succ_of_le (List.dropWhile_sublist _).length_le
  · simp

/-- `_canon_header` from `update_docx_with_pdf.py`. -/
def _canon_header (s : String) : String :=
  if s = "" then ""
  else
    let s1 := (pyLower (normalize_text s)).data
    let s2 := s1.map (fun ch => if ch == '–' || ch == '—' then '-' else ch)
    let s3 := subSlashRuns s2
    let s4 := collapseRunsTo
      (fun c => !(isLowerAZ c || isDigit09 c || c == '#' || c == '/' || c == ' ')) s3
    normalize_text (String.mk s4)

/-- `re.search(r"[A-Za-z]{2,}\s+[A-Za-z&]{2,}", s)`: the classes letter vs
whitespace are disjoint, so the search succeeds iff at some position a
maximal letter run of length ≥ 2 is followed by whitespace and then two
letter-or-ampersand characters. -/
def companySearch : List Char → Bool
  | [] => false
  | c :: t =>
    ((2 ≤ ((c :: t).takeWhile isAlphaAZ).length) &&
     (let r1 := (c :: t).dropWhile isAlphaAZ
      (1 ≤ (r1.takeWhile isSpacePy).length) &&
      (match r1.dropWhile isSpacePy with
       | a :: b :: _ => (isAlphaAZ a || a == '&') && (isAlphaAZ b || b == '&')
       | _ => false))) ||
    companySearch t

/-- `_looks_like_company` from `update_docx_with_pdf.py`. -/
def _looks_like_company (s : String) : Bool :=
  if s = "" then false else companySearch (_smart_space s).data

/-- `_real_date` from `map_to_docx_structure`: nonempty, contains a digit,
and is not the bare word `date` (case-insensitive, stripped). -/
def _real_date (s : String) : Bool :=
  s ≠ "" && s.data.any isDigit09 && pyLower (pyStrip s) ≠ "date"

/-- `re.search(r"Std\s+(\d+)", s)`: first `Std` followed by whitespace and
digits; returns the digit group. -/
def stdNum : List Char → Option (List Char)
  | [] => none
  | c :: t =>
    (if startsWithCh "Std".data (c :: t) then
       let r1 := (c :: t).drop 3
       let ws := r1.takeWhile isSpacePy
       let ds := (r1.dropWhile isSpacePy).takeWhile isDigit09
       if ws ≠ [] && ds ≠ [] then some ds else none
     else none).elim (stdNum t) some

/-- `normalize_std_label` from `update_docx_with_pdf.py`: drop parenthesised
text, collapse whitespace, strip.  (The final
`re.match(r"^(Std\s*\d+\.\s*[^:]+?)\s*$", base, re.I)` returns `base` itself
whenever it matches — `base` is already stripped, so the lazy group is forced
to the end — hence the regex branch is the identity.) -/
def normalize_std_label (label : String) : String :=
  if label = "" then ""
  else normalize_text (String.mk (removeDelim '(' ')' label.data))

/-- A section of the DOCX-side JSON: label → ordered value list. -/
abbrev Sec := List (String × List String)

/-- The DOCX-side JSON document: schema name → section. -/
abbrev MDoc := List (String × Sec)

/-- `sec[k] = v` (dict assignment inside a section). -/
def setL (sec : Sec) (k : String) (v : List String) : Sec :=
  if sec.any (fun p => p.1 = k) then sec.map (fun p => if p.1 = k then (k, v) else p)
  else sec ++ [(k, v)]

/-- Conditional label assignment (`if cond: merged[s][k] = v`). -/
def setIf (b : Bool) (k : String) (v : List String) (sec : Sec) : Sec :=
  if b then setL sec k v else sec

/-- `if name in merged: <mutate merged[name]>` — apply `f` to the section if
the top-level key exists, never adding or removing a top-level key. -/
def updSec (d : MDoc) (name : String) (f : Sec → Sec) : MDoc :=
  d.map (fun p => if p.1 = name then (p.1, f p.2) else p)

/-- `merged.get(name)` / `merged[name]` lookup. -/
def lookupSec (d : MDoc) (name : String) : Option Sec :=
  (d.find? (fun p => p.1 = name)).map (fun p => p.2)

/-- `merged[name][k]` lookup. -/
def lookupLabel (d : MDoc) (name k : String) : Option (List String) :=
  (lookupSec d name).bind (fun sec => (sec.find? (fun p => p.1 = k)).map (fun p => p.2))

/-- `pdf_extracted["audit_info"]`. -/
structure AuditInfo where
  date_of_audit : String := ""
  location : String := ""
  auditor_name : String := ""
  matrix_id : String := ""

/-- `pdf_extracted["operator_info"]`. -/
structure OperatorInfo where
  name : String := ""
  trading_name : String := ""
  acn : String := ""
  manual : String := ""
  business_address : String := ""
  postal_address : String := ""
  email : String := ""
  phone : String := ""

/-- `pdf_extracted["vehicle_summary"]`. -/
structure VehicleSummary where
  powered_vehicles : String := ""
  trailing_vehicles : String := ""
  drivers_bfm : String := ""
  drivers_afm : String := ""

/-- One record of `pdf_extracted["drivers_detailed"]`. -/
structure DriverRec where
  roster_schedule : String := ""
  fit_for_duty : String := ""
  work_diary : String := ""

/-- `pdf_extracted["operator_declaration"]`. -/
structure OperatorDecl where
  print_name : String := ""
  position_title : String := ""

/-- One row of `pdf_extracted["_maint_rows"]`. -/
structure MaintRow where
  registration : String := ""
  roadworthiness : String := ""
  maintenance_records : String := ""
  daily_checks : String := ""
  fault_recording : String := ""
  fault_repair : String := ""

/-- One record of `pdf_extracted["vehicles"]`. -/
structure VehicleRec where
  registration : String := ""
  roadworthiness : String := ""
  maintenance_records : String := ""
  daily_checks : String := ""
  fault_recording : String := ""
  fault_repair : String := ""
  weight_verification : String := ""
  rfs_certification : String := ""
  suspension_maintenance : String := ""
  trip_records : String := ""
  fault_reporting_suspension : String := ""
  seen_in_maintenance : Bool := false
  seen_in_mass : Bool := false

/-- The output dict of `extract_from_pdf_comprehensive` (the fields
`map_to_docx_structure` reads).  A missing dict key is `none`; keys holding
dicts with missing entries default to `""` fields. -/
structure PdfExtracted where
  audit_conducted_date : Option String := none
  audit_info : Option AuditInfo := none
  operator_info : Option OperatorInfo := none
  attendance : Option (List String) := none
  business_summary : Option String := none
  vehicle_summary : Option VehicleSummary := none
  drivers_detailed : Option (List DriverRec) := none
  print_accreditation_name : Option String := none
  operator_declaration : Option OperatorDecl := none
  maint_rows : List MaintRow := []
  vehicles : List VehicleRec := []

/-- `SUMMARY_SECTIONS` from `update_docx_with_pdf.py`. -/
def SUMMARY_SECTIONS : List (String × String) :=
  [("MAINTENANCE MANAGEMENT", "Maintenance Management Summary"),
   ("MASS MANAGEMENT", "Mass Management Summary"),
   ("FATIGUE MANAGEMENT", "Fatigue Management Summary")]

/-- `out[section][left_norm] = merged_text` step of `build_summary_maps`. -/
def summaryUpd (out : List (String × List (String × String))) (secName left_norm right : String) :
    List (String × List (String × String)) :=
  out.map
    (fun p =>
      if p.1 = secName then
        let prev := ((p.2.lookup left_norm).getD "")
        let mergedText := if prev ≠ "" then pyStrip (prev ++ " " ++ right) else pyStrip right
        (p.1, upsertA p.2 left_norm mergedText)
      else p)

/-- `build_summary_maps` from `update_docx_with_pdf.py` (the `pdf_json`
argument enters only through its `extracted_data.all_tables`). -/
def build_summary_maps (tables : List PTable) : List (String × Sec) :=
  let init : List (String × List (String × String)) := SUMMARY_SECTIONS.map (fun p => (p.2, []))
  let out := tables.foldl
    (fun out t =>
      let headers := t.headers.map (fun h => pyUpper (normalize_text h))
      if "DETAILS" ∉ headers then out
      else
        match headers.find? (fun h => (SUMMARY_SECTIONS.lookup h).isSome) with
        | none => out
        | some key =>
          let secName := (SUMMARY_SECTIONS.lookup key).getD ""
          t.data.foldl
            (fun out row =>
              if row = [] then out
              else
                let left := row.getD 0 ""
                let right := if 2 ≤ row.length then row.getD 1 "" else ""
                let left_norm := normalize_std_label left
                if left_norm ≠ "" && right ≠ "" then summaryUpd out secName left_norm right
                else out)
            out)
    init
  out.map
    (fun p => (p.1, p.2.filterMap
      (fun q => if q.2 ≠ "" then some (q.1, [_smart_space q.2]) else none)))

/-- `build_vehicle_sections` from `update_docx_with_pdf.py`; returns the
(Maintenance, Mass) label→array sections. -/
def build_vehicle_sections (pe : PdfExtracted) : Sec × Sec :=
  let maintSel : List MaintRow :=
    if !pe.maint_rows.isEmpty then pe.maint_rows
    else
      (pe.vehicles.filter
        (fun v => v.registration ≠ "" &&
          (v.seen_in_maintenance ||
           [v.roadworthiness, v.maintenance_records, v.daily_checks, v.fault_recording,
            v.fault_repair].any (fun x => x ≠ "")))).map
        (fun v =>
          let rw := _nz v.roadworthiness
          let mr0 := _nz v.maintenance_records
          let dc := _nz v.daily_checks
          let fr0 := _nz v.fault_recording
          let rp0 := _nz v.fault_repair
          let mr := if mr0 = "" && dc ≠ "" then dc else mr0
          let rp := if rp0 = "" && fr0 ≠ "" then fr0 else rp0
          let fr := if fr0 = "" && rp ≠ "" then rp else fr0
          { registration := v.registration, roadworthiness := rw, maintenance_records := mr,
            daily_checks := dc, fault_recording := fr, fault_repair := rp })
  let maint : Sec :=
    [("Registration Number", maintSel.map (fun r => _smart_space r.registration)),
     ("Roadworthiness Certificates", maintSel.map (fun r => _nz r.roadworthiness)),
     ("Maintenance Records", maintSel.map (fun r => _nz r.maintenance_records)),
     ("Daily Checks", maintSel.map (fun r => _nz r.daily_checks)),
     ("Fault Recording/ Reporting", maintSel.map (fun r => _nz r.fault_recording)),
     ("Fault Repair", maintSel.map (fun r => _nz r.fault_repair))]
  let massSel := pe.vehicles.filter
    (fun v => v.registration ≠ "" &&
      (v.seen_in_mass ||
       [v.weight_verification, v.rfs_certification, v.suspension_maintenance, v.trip_records,
        v.fault_reporting_suspension].any (fun x => x ≠ "")))
  let mass : Sec :=
    [("Registration Number", massSel.map (fun v => _smart_space v.registration)),
     ("Weight Verification Records", massSel.map (fun v => _nz v.weight_verification)),
     ("RFS Suspension Certification #", massSel.map (fun v => _nz v.rfs_certification)),
     ("Suspension System Maintenance", massSel.map (fun v => _nz v.suspension_maintenance)),
     ("Trip Records", massSel.map (fun v => _nz v.trip_records)),
     ("Fault Recording/ Reporting on Suspension System",
      massSel.map (fun v => _nz v.fault_reporting_suspension))]
  (maint, mass)

/-- One reconstructed row of `_force_fill_maintenance_from_tables`. -/
structure FFRow where
  reg : String
  rw : String
  mr : String
  dc : String
  fr : String
  rp : String

/-- The row-scanning part of `_force_fill_maintenance_from_tables`: canonical
headers, maintenance-table detection, per-field column indices, plate
validation and fallback filling. -/
def forceFillRows (tables : List PTable) : List FFRow :=
  tables.flatMap
    (fun t =>
      let hdrs := t.headers.map (fun h => _canon_header h)
      if hdrs.isEmpty then []
      else
        let txt := joinSpace hdrs
        if !containsSub "registration" txt ||
           !(["maintenance records", "daily", "fault recording", "fault repair",
              "roadworthiness"].any (fun k => containsSub k txt)) then []
        else
          let reg_i := hdrs.findIdx? (fun h => containsSub "registration" h)
          let rw_i := hdrs.findIdx? (fun h => containsSub "roadworthiness" h)
          let mr_i := hdrs.findIdx? (fun h => containsSub "maintenance" h && containsSub "record" h)
          let dc_i := hdrs.findIdx? (fun h => containsSub "daily" h && containsSub "check" h)
          let fr_i := hdrs.findIdx?
            (fun h => containsSub "fault" h && containsSub "record" h && !containsSub "suspension" h)
          let rp_i := hdrs.findIdx? (fun h => containsSub "fault" h && containsSub "repair" h)
          t.data.filterMap
            (fun r =>
              let cell := fun (i : Option Nat) =>
                match i with
                | none => ""
                | some i => if i < r.length then pyStrip (r.getD i "") else ""
              let plate := _smart_space (cell reg_i)
              if plate = "" || !looks_like_plate plate then none
              else
                let v_rw := _nz (cell rw_i)
                let v_mr0 := _nz (cell mr_i)
                let v_dc := _nz (cell dc_i)
                let v_fr0 := _nz (cell fr_i)
                let v_rp0 := _nz (cell rp_i)
                let v_mr := if v_mr0 = "" && v_dc ≠ "" then v_dc else v_mr0
                let v_rp := if v_rp0 = "" && v_fr0 ≠ "" then v_fr0 else v_rp0
                let v_fr := if v_fr0 = "" && v_rp ≠ "" then v_rp else v_fr0
                some ⟨plate, v_rw, v_mr, v_dc, v_fr, v_rp⟩))

/-- `_force_fill_maintenance_from_tables` from `update_docx_with_pdf.py`:
overwrite the six Maintenance arrays when any maintenance table row was
found; a no-op when the section is absent (`merged.get` returns nothing)
or no rows were found. -/
def _force_fill_maintenance_from_tables (tables : List PTable) (merged : MDoc) : MDoc :=
  let rows := forceFillRows tables
  if rows.isEmpty then merged
  else
    updSec merged "Vehicle Registration Numbers Maintenance"
      (fun sec =>
        let sec := setL sec "Registration Number" (rows.map (fun r => r.reg))
        let sec := setL sec "Roadworthiness Certificates" (rows.map (fun r => r.rw))
        let sec := setL sec "Maintenance Records" (rows.map (fun r => r.mr))
        let sec := setL sec "Daily Checks" (rows.map (fun r => r.dc))
        let sec := setL sec "Fault Recording/ Reporting" (rows.map (fun r => r.fr))
        setL sec "Fault Repair" (rows.map (fun r => r.rp)))

/-- `map_to_docx_structure`, Audit Information block. -/
def mtdAuditInfo (pe : PdfExtracted) (d : MDoc) : MDoc :=
  if pe.audit_info.isSome then
    updSec d "Audit Information"
      (fun sec =>
        let ai := pe.audit_info.getD {}
        let sec := setIf (ai.date_of_audit ≠ "") "Date of Audit"
          [_smart_space ai.date_of_audit] sec
        let sec := setIf (ai.location ≠ "") "Location of audit" [_smart_space ai.location] sec
        let sec := setIf (ai.auditor_name ≠ "") "Auditor name"
          [_smart_space ai.auditor_name] sec
        setIf (ai.matrix_id ≠ "") "Audit Matrix Identifier (Name or Number)"
          [_smart_space ai.matrix_id] sec)
  else d

/-- `map_to_docx_structure`, Operator Information block (the operator name is
written only when `_looks_like_company` accepts it). -/
def mtdOperatorInfo (pe : PdfExtracted) (d : MDoc) : MDoc :=
  if pe.operator_info.isSome then
    updSec d "Operator Information"
      (fun sec =>
        let op := pe.operator_info.getD {}
        let sec := setIf (op.name ≠ "" && _looks_like_company op.name)
          "Operator name (Legal entity)" [_smart_space op.name] sec
        let sec := setIf (op.trading_name ≠ "") "Registered trading name/s"
          [_smart_space op.trading_name] sec
        let sec := setIf (op.acn ≠ "") "Australian Company Number" [_smart_space op.acn] sec
        setIf (op.manual ≠ "") "NHVAS Manual (Policies and Procedures) developed by"
          [_smart_space op.manual] sec)
  else d

/-- `map_to_docx_structure`, Operator contact details block. -/
def mtdContact (pe : PdfExtracted) (d : MDoc) : MDoc :=
  if pe.operator_info.isSome then
    updSec d "Operator contact details"
      (fun sec =>
        let op := pe.operator_info.getD {}
        let sec := setIf (op.business_address ≠ "") "Operator business address"
          [_smart_space op.business_address] sec
        let sec := setIf (op.postal_address ≠ "") "Operator Postal address"
          [_smart_space op.postal_address] sec
        let sec := setIf (op.email ≠ "") "Email address" [op.email] sec
        setIf (op.phone ≠ "") "Operator Telephone Number" [_smart_space op.phone] sec)
  else d

/-- `_clean_list` from `update_docx_with_pdf.py`. -/
def _clean_list (vals : List String) : List String :=
  vals.filterMap (fun v => let v := _smart_space v; if v ≠ "" then some v else none)

/-- `map_to_docx_structure`, Attendance block. -/
def mtdAttendance (pe : PdfExtracted) (d : MDoc) : MDoc :=
  if pe.attendance.isSome then
    updSec d "Attendance List (Names and Position Titles)"
      (fun sec => setL sec "Attendance List (Names and Position Titles)"
        (_clean_list (pe.attendance.getD [])))
  else d

/-- `map_to_docx_structure`, business-summary block. -/
def mtdBusiness (pe : PdfExtracted) (d : MDoc) : MDoc :=
  if pe.business_summary.isSome then
    updSec d "Nature of the Operators Business (Summary)"
      (fun sec => setL sec "Nature of the Operators Business (Summary):"
        [_smart_space (pe.business_summary.getD "")])
  else d

/-- `map_to_docx_structure`, vehicle/driver summary block. -/
def mtdVehicleSummary (pe : PdfExtracted) (d : MDoc) : MDoc :=
  match pe.vehicle_summary with
  | none => d
  | some vs =>
    let d := updSec d "Accreditation Vehicle Summary"
      (fun sec =>
        let sec := setIf (vs.powered_vehicles ≠ "") "Number of powered vehicles"
          [vs.powered_vehicles] sec
        setIf (vs.trailing_vehicles ≠ "") "Number of trailing vehicles"
          [vs.trailing_vehicles] sec)
    updSec d "Accreditation Driver Summary"
      (fun sec =>
        let sec := setIf (vs.drivers_bfm ≠ "") "Number of drivers in BFM" [vs.drivers_bfm] sec
        setIf (vs.drivers_afm ≠ "") "Number of drivers in AFM" [vs.drivers_afm] sec)

/-- `Std N` number equality between a summary detail key and a DOCX key
(`re.search(r"Std\s+(\d+)", …)` on both, equal first groups). -/
def stdMatch (dk k : String) : Bool :=
  match stdNum dk.data, stdNum k.data with
  | some a, some b => a = b
  | _, _ => false

/-- `map_to_docx_structure`, summary-sections block: exact detail-key match,
else the first DOCX key with the same `Std N` number. -/
def mtdSummaries (tables : List PTable) (d : MDoc) : MDoc :=
  (build_summary_maps tables).foldl
    (fun d p =>
      if p.2 ≠ [] then
        updSec d p.1
          (fun sec =>
            p.2.foldl
              (fun sec q =>
                if sec.any (fun r => r.1 = q.1) then setL sec q.1 q.2
                else
                  match sec.find? (fun r => stdMatch q.1 r.1) with
                  | some r => setL sec r.1 q.2
                  | none => sec)
              sec)
      else d)
    d

/-- `map_to_docx_structure`, consolidated vehicle-array block
(`merged[section].update(sections[section])`). -/
def mtdVehicleSections (pe : PdfExtracted) (d : MDoc) : MDoc :=
  let sections := build_vehicle_sections pe
  let d := updSec d "Vehicle Registration Numbers Maintenance"
    (fun sec => sections.1.foldl (fun sec q => setL sec q.1 q.2) sec)
  updSec d "Vehicle Registration Numbers Mass"
    (fun sec => sections.2.foldl (fun sec q => setL sec q.1 q.2) sec)

/-- `map_to_docx_structure`, Driver/Scheduler block. -/
def mtdDrivers (pe : PdfExtracted) (d : MDoc) : MDoc :=
  if pe.drivers_detailed.isSome then
    updSec d "Driver / Scheduler Records Examined"
      (fun sec =>
        let drivers := pe.drivers_detailed.getD []
        let sec := setL sec "Roster / Schedule / Safe Driving Plan (Date Range)"
          (drivers.map (fun r => r.roster_schedule))
        let sec := setL sec "Fit for Duty Statement Completed (Yes/No)"
          (drivers.map (fun r => r.fit_for_duty))
        setL sec "Work Diary Pages (Page Numbers) Electronic Work Diary Records (Date Range)"
          (drivers.map (fun r => r.work_diary)))
  else d

/-- `map_to_docx_structure`, print-accreditation-name block. -/
def mtdPrintAccreditation (pe : PdfExtracted) (d : MDoc) : MDoc :=
  updSec d "Print accreditation name"
    (fun sec =>
      let acc1 := _smart_space (pe.print_accreditation_name.getD "")
      let oi := pe.operator_info.getD {}
      let acc :=
        if acc1 ≠ "" then acc1
        else
          let a := _smart_space oi.name
          if a ≠ "" then a else _smart_space oi.trading_name
      setIf (acc ≠ "") "(print accreditation name)" [acc] sec)

/-- `map_to_docx_structure`, Audit Declaration dates block: prefer the
explicitly extracted date, fall back to `audit_info.date_of_audit`, and write
only values passing `_real_date`. -/
def mtdAuditDecl (pe : PdfExtracted) (d : MDoc) : MDoc :=
  updSec d "Audit Declaration dates"
    (fun sec =>
      let val0 := pe.audit_conducted_date.getD ""
      let val := if _real_date val0 then val0 else (pe.audit_info.getD {}).date_of_audit
      setIf (_real_date val) "Audit was conducted on" [_smart_space val] sec)

/-- `map_to_docx_structure`, Operator Declaration block.  The
`_first_attendance_name_title` helper (a name–title regex over the attendance
list) is taken as the parameter `fat`: the theorems below hold for every
behaviour of it. -/
def mtdOperatorDecl (fat : List String → Option (String × String)) (pe : PdfExtracted)
    (d : MDoc) : MDoc :=
  updSec d "Operator Declaration"
    (fun sec =>
      match pe.operator_declaration with
      | some od =>
        let pn := _smart_space od.print_name
        let pt := _smart_space od.position_title
        let sec := setIf (pn ≠ "") "Print Name" [pn] sec
        setIf (pt ≠ "") "Position Title" [pt] sec
      | none =>
        match fat (pe.attendance.getD []) with
        | some nt => setL (setL sec "Print Name" [nt.1]) "Position Title" [nt.2]
        | none => sec)

/-- The acknowledgement paragraph key used by the paragraphs block. -/
def ackKey : String :=
  "I hereby acknowledge and agree with the findings detailed in this NHVAS Audit " ++
  "Summary Report. I have read and understand the conditions applicable to the Scheme, " ++
  "including the NHVAS Business Rules and Standards."

/-- `map_to_docx_structure`, paragraphs block: broadcast the company name to
the three management headings and the audit date to the two declaration
paragraphs. -/
def mtdParagraphs (pe : PdfExtracted) (d : MDoc) : MDoc :=
  updSec d "paragraphs"
    (fun paras =>
      let acd := pe.audit_conducted_date.getD ""
      let audit_date := if acd ≠ "" then acd else (pe.audit_info.getD {}).date_of_audit
      let oi := pe.operator_info.getD {}
      let c1 := _smart_space (pe.print_accreditation_name.getD "")
      let c2 := _smart_space oi.name
      let company_name := if c1 ≠ "" then c1 else if c2 ≠ "" then c2
        else _smart_space oi.trading_name
      let paras := ["MAINTENANCE MANAGEMENT", "MASS MANAGEMENT", "FATIGUE MANAGEMENT"].foldl
        (fun paras key =>
          if paras.any (fun p => p.1 = key) && company_name ≠ "" then
            setL paras key [company_name]
          else paras)
        paras
      let paras :=
        if paras.any (fun p => p.1 = "NHVAS APPROVED AUDITOR DECLARATION") &&
           audit_date ≠ "" then
          setL paras "NHVAS APPROVED AUDITOR DECLARATION" [_smart_space audit_date]
        else paras
      if paras.any (fun p => p.1 = ackKey) && audit_date ≠ "" then
        setL paras ackKey [_smart_space audit_date]
      else paras)

/-- `map_to_docx_structure` from `update_docx_with_pdf.py`: the deep copy of
`docx_data` threaded through every block in source order, then the final
maintenance force-fill over the raw PDF tables. -/
def map_to_docx_structure (fat : List String → Option (String × String))
    (pe : PdfExtracted) (docx : MDoc) (tables : List PTable) : MDoc :=
  _force_fill_maintenance_from_tables tables
    (mtdParagraphs pe
      (mtdOperatorDecl fat pe
        (mtdAuditDecl pe
          (mtdPrintAccreditation pe
            (mtdDrivers pe
              (mtdVehicleSections pe
                (mtdSummaries tables
                  (mtdVehicleSummary pe
                    (mtdBusiness pe
                      (mtdAttendance pe
                        (mtdContact pe
                          (mtdOperatorInfo pe
                            (mtdAuditInfo pe docx)))))))))))))

/-- `merge_pdf_to_docx` from `update_docx_with_pdf.py`: it computes
`pdf_extracted = extract_from_pdf_comprehensive(pdf_data)` and returns
`map_to_docx_structure(pdf_extracted, docx_data, pdf_data)` (the trailing loop
only logs).  Here the extraction result `pe` and the raw `all_tables` list are
the inputs, universally quantified in the theorems below. -/
def merge_pdf_to_docx (fat : List String → Option (String × String)) (docx : MDoc)
    (pe : PdfExtracted) (tables : List PTable) : MDoc :=
  map_to_docx_structure fat pe docx tables

/-! ## DOCX writer (space-pdf/updated_word.py) -/

/-- A table as the writer sees it; `grid` is the table's column-grid width,
the number of cells `table.add_row()` creates. -/
structure WTable where
  rows : List DRow
  grid : Nat
deriving DecidableEq

/-- A fresh row appended by `add_row()`: `grid` cells, each holding one empty
paragraph. -/
def newRow (grid : Nat) : DRow := ⟨List.replicate grid ⟨[[]]⟩⟩

/-- `is_red_run` from `updated_word.py`: the typed color equals
`RGBColor(0xFF, 0x00, 0x00)` exactly. -/
def is_red_run (r : Run) : Bool :=
  match r.rgb with
  | some t => t = (255, 0, 0)
  | none => false

/-- `nz` from `updated_word.py`. -/
def w_nz (x : String) : String := pyStrip x

/-- `canon` from `updated_word.py`. -/
def w_canon (s : String) : String :=
  let s1 := (pyLower (normalize_text s)).data.map
    (fun ch => if ch == '–' || ch == '—' then '-' else ch)
  String.mk (s1.filter (fun c =>
    isLowerAZ c || isDigit09 c ||
    c == '/' || c == '#' || c == '(' || c == ')' || c == '+' || c == ',' || c == '.' ||
    c == '-' || c == ' '))

/-- Rewrite the red runs of one paragraph: the first red run receives the new
text in black (`_set_text_and_black`), later red runs are blanked. -/
def replaceRedRuns (v : String) : List Run → Bool → List Run
  | [], _ => []
  | r :: t, done =>
    if is_red_run r then
      if done then { r with text := "" } :: replaceRedRuns v t done
      else { r with text := v, rgb := some (0, 0, 0) } :: replaceRedRuns v t true
    else r :: replaceRedRuns v t done

/-- `_set_cell_text_black` from `updated_word.py`: blank every run, then add a
black run with the text to the first paragraph (adding one if none exists). -/
def _set_cell_text_black (cell : DCell) (v : String) : DCell :=
  let cleared := cell.paras.map (fun p => p.map (fun r => { r with text := "" }))
  match cleared with
  | [] => ⟨[[⟨v, some (0, 0, 0), none⟩]]⟩
  | p0 :: rest => ⟨(p0 ++ [⟨v, some (0, 0, 0), none⟩]) :: rest⟩

/-- `replace_red_in_cell` from `updated_word.py`: rewrite red runs
paragraph-by-paragraph; if the cell has none, fall back to
`_set_cell_text_black` (always reports success). -/
def replace_red_in_cell (cell : DCell) (v : String) : DCell :=
  if cell.paras.any (fun p => p.any is_red_run) then
    ⟨cell.paras.map (fun p => if p.any is_red_run then replaceRedRuns v p false else p)⟩
  else _set_cell_text_black cell v

/-- `re.match(r"^\d+\.?$", s)` — a leading row-number like `1.` (with
Python's `$` also matching before one trailing newline). -/
def rowNumPat (s : String) : Bool :=
  let ds := s.data.takeWhile isDigit09
  let r := s.data.dropWhile isDigit09
  ds ≠ [] && (r = [] || r = ['.'] || r = ['\n'] || r = ['.', '\n'])

/-- `count_header_rows` from `updated_word.py` (the later of the two
identical definitions): index of the first row, among the first
`scan_up_to`, whose first cell looks like a row number; else 1. -/
def count_header_rows (t : WTable) (scan_up_to : Nat) : Nat :=
  let limit := min scan_up_to t.rows.length
  match (List.range limit).find?
    (fun i => rowNumPat (pyStrip (dcellText ((t.rows.getD i ⟨[]⟩).cells.headD ⟨[]⟩)))) with
  | some i => i
  | none => 1

/-- `map_cols` from `updated_word.py`: keyword lookup over the first two
header rows; `none` models the `IndexError` a rowless table raises. -/
def map_cols (t : WTable) (want : String) : Option (List (String × Nat)) :=
  match t.rows with
  | [] => none
  | row0 :: _ =>
    let header_rows := t.rows.take 2
    let col_texts := (List.range row0.cells.length).map
      (fun j => w_canon (joinSpace ((header_rows.filter (fun r => j < r.cells.length)).map
        (fun r => dcellText (r.cells.getD j ⟨[]⟩)))))
    let first_col := fun (needles : List String) =>
      (col_texts.enum.find? (fun jt => needles.all (fun n => containsSub n jt.2))).map
        (fun jt => jt.1)
    let pairs :=
      if want = "maintenance" then
        [("reg", first_col ["registration"]), ("rw", first_col ["roadworthiness"]),
         ("mr", first_col ["maintenance", "records"]), ("daily", first_col ["daily", "check"]),
         ("fr", first_col ["fault", "recording"]), ("rep", first_col ["fault", "repair"])]
      else
        [("reg", first_col ["registration"]), ("wv", first_col ["weight", "verification"]),
         ("rfs", first_col ["rfs", "cert"]), ("susp", first_col ["suspension", "maintenance"]),
         ("trip", first_col ["trip", "record"]), ("frs", first_col ["fault", "suspension"])]
    some (pairs.filterMap (fun p => p.2.map (fun i => (p.1, i))))

/-- `_header_col_texts` from `updated_word.py`: per-column joined text over
the first `scan_rows` rows, based on the widest of those rows. -/
def _header_col_texts (t : WTable) (scan_rows : Nat) : List String :=
  let scan_rows := min scan_rows t.rows.length
  if scan_rows = 0 then []
  else
    let cellsLen := fun i => ((t.rows.getD i ⟨[]⟩).cells.length)
    let base_row := (List.range scan_rows).foldl
      (fun best i => if cellsLen best < cellsLen i then i else best) 0
    (List.range (cellsLen base_row)).map
      (fun j => w_canon (joinSpace
        (((List.range scan_rows).filter (fun i => j < cellsLen i)).map
          (fun i => dcellText ((t.rows.getD i ⟨[]⟩).cells.getD j ⟨[]⟩)))))

/-- Python `a or b` over optional column indices: `0` is falsy, so a found
index 0 falls through to the second lookup. -/
def orPy (a b : Option Nat) : Option Nat :=
  match a with
  | some n => if n ≠ 0 then some n else b
  | none => b

/-- `map_cols_mass_strict` from `updated_word.py`. -/
def map_cols_mass_strict (t : WTable) : List (String × Nat) :=
  let cols := _header_col_texts t 5
  let first_col := fun (needles : List String) =>
    (cols.enum.find? (fun jt => needles.all (fun n => containsSub n jt.2))).map
      (fun jt => jt.1)
  ([("no", first_col ["no"]),
    ("reg", orPy (first_col ["registration", "number"]) (first_col ["registration"])),
    ("wv", first_col ["weight", "verification"]),
    ("rfs", orPy (first_col ["rfs", "cert"]) (first_col ["rfs", "certification"])),
    ("susp", first_col ["suspension", "maintenance"]),
    ("trip", first_col ["trip", "record"]),
    ("frs", orPy (first_col ["fault", "suspension"])
      (first_col ["fault", "reporting", "suspension"]))].filterMap
    (fun p => p.2.map (fun i => (p.1, i))))

/-- Replace cell `j` of row `i` (an out-of-range index models the
`IndexError` Python would raise). -/
def updateRowCellAt (rows : List DRow) (i j : Nat) (f : DCell → DCell) :
    Option (List DRow) :=
  if i < rows.length then
    let row := rows.getD i ⟨[]⟩
    if j < row.cells.length then
      some (rows.set i ⟨row.cells.set j (f (row.cells.getD j ⟨[]⟩))⟩)
    else none
  else none

/-- The `put(col_key, vals)` helper of `fill_vehicle_table`: skip when the
column is unmapped or the array is exhausted. -/
def putCellSkip (rows : List DRow) (rowIdx : Nat) (colmap : List (String × Nat))
    (key : String) (vals : List String) (i : Nat) : Option (List DRow) :=
  match colmap.lookup key with
  | none => some rows
  | some j =>
    if i < vals.length then
      updateRowCellAt rows rowIdx j (fun c => replace_red_in_cell c (w_nz (vals.getD i "")))
    else some rows

/-- The `put(row, key, arr_key, i)` helper of
`fill_mass_vehicle_table_preserve_headers`: writes `""` when the array is
exhausted. -/
def putCellPad (rows : List DRow) (rowIdx : Nat) (colmap : List (String × Nat))
    (key : String) (vals : List String) (i : Nat) : Option (List DRow) :=
  match colmap.lookup key with
  | none => some rows
  | some j =>
    updateRowCellAt rows rowIdx j
      (fun c => replace_red_in_cell c (if i < vals.length then w_nz (vals.getD i "") else ""))

/-- The per-record fill loop shared by both vehicle-table writers: write the
registration cell, then each mapped column via `put`. -/
def fillRowsLoop (put : List DRow → Nat → List (String × Nat) → String → List String → Nat →
      Option (List DRow))
    (regJ : Nat) (colmap : List (String × Nat)) (hdr : Nat) (regs : List String)
    (entries : List (String × List String)) (rows : List DRow) : Option (List DRow) :=
  (List.range regs.length).foldl
    (fun acc i =>
      acc.bind
        (fun rows =>
          (updateRowCellAt rows (hdr + i) regJ
            (fun c => replace_red_in_cell c (w_nz (regs.getD i "")))).bind
          (fun rows =>
            entries.foldl (fun acc e => acc.bind (fun rows => put rows (hdr + i) colmap e.1 e.2 i))
              (some rows))))
    (some rows)

/-- `fill_vehicle_table` from `updated_word.py`: hardcoded single header row
(`clear_data_rows_keep_headers(table, header_rows=1)`), then one fresh row
per `Registration Number` entry. -/
def fill_vehicle_table (t : WTable) (want : String) (arrays : Sec) : Option WTable :=
  match map_cols t want with
  | none => none
  | some colmap =>
    match colmap.lookup "reg" with
    | none => some t
    | some regJ =>
      let get := fun k => (arrays.lookup k).getD []
      let regs := get "Registration Number"
      let entries :=
        if want = "maintenance" then
          [("rw", get "Roadworthiness Certificates"), ("mr", get "Maintenance Records"),
           ("daily", get "Daily Checks"), ("fr", get "Fault Recording/ Reporting"),
           ("rep", get "Fault Repair")]
        else
          [("wv", get "Weight Verification Records"),
           ("rfs", get "RFS Suspension Certification #"),
           ("susp", get "Suspension System Maintenance"), ("trip", get "Trip Records"),
           ("frs", get "Fault Recording/ Reporting on Suspension System")]
      let rows1 := t.rows.take 1
      let rows2 := rows1 ++ List.replicate ((regs.length + 1) - rows1.length) (newRow t.grid)
      (fillRowsLoop putCellSkip regJ colmap 1 regs entries rows2).map
        (fun rows => { t with rows := rows })

/-- `fill_mass_vehicle_table_preserve_headers` from `updated_word.py`:
auto-detected header-row count via `count_header_rows`, cleared data rows,
one fresh row per `Registration Number` entry. -/
def fill_mass_vehicle_table_preserve_headers (t : WTable) (arrays : Sec) : Option WTable :=
  let colmap := map_cols_mass_strict t
  match colmap.lookup "reg" with
  | none => some t
  | some regJ =>
    let hdr := count_header_rows t 6
    let get := fun k => (arrays.lookup k).getD []
    let regs := get "Registration Number"
    let entries :=
      [("wv", get "Weight Verification Records"),
       ("rfs", get "RFS Suspension Certification #"),
       ("susp", get "Suspension System Maintenance"), ("trip", get "Trip Records"),
       ("frs", get "Fault Recording/ Reporting on Suspension System")]
    let rows1 := t.rows.take hdr
    let rows2 := rows1 ++ List.replicate ((hdr + regs.length) - rows1.length) (newRow t.grid)
    (fillRowsLoop putCellPad regJ colmap hdr regs entries rows2).map
      (fun rows => { t with rows := rows })

/-! ## Auxiliary specification-side definitions and concrete instances -/

/-- The value of the last pair carrying key `k` (dict overwrite semantics),
used to characterise `standards_compliance`. -/
def lastVal (k : String) (rs : List (String × String)) : Option String :=
  rs.foldl (fun acc p => if p.1 = k then some p.2 else acc) none

/-- The row-order list of red values a Vehicle/Driver table contributes to
one schema label: one entry per data-row cell whose column is mapped to the
label and whose red text is nonempty, duplicates included. -/
def rowOrderVals (spec : Schema) (t : DTable) (lbl : String) : List String :=
  (t.rows.drop 1).flatMap
    (fun row =>
      row.cells.enum.filterMap
        (fun ic =>
          if (column_mapping (canonicalLabelsOf spec.labels) (t.rows.headD ⟨[]⟩)).lookup ic.1 =
              some lbl ∧ cellRedText ic.2 ≠ "" then
            some (cellRedText ic.2)
          else none))

/-- A table cell holding a single plainly-coloured run. -/
def plainCell (s : String) : DCell := ⟨[[⟨s, none, none⟩]]⟩

/-- Counterexample table for C2: its joined headers contain both
`print name` and `auditor`, so the first hard check fires although every
schema scores below 20. -/
def c2Table : DTable :=
  ⟨"", [⟨[plainCell "zz print", plainCell "name auditor manager"]⟩]⟩

/-- Witness table for the amended C2: a plain one-cell table that matches
nothing. -/
def c2wTable : DTable := ⟨"", [⟨[plainCell "hello"]⟩]⟩

/-- Counterexample run for C3: typed black color plus a raw red
`w:color val`. -/
def c3Run : Run := ⟨"x", some (0, 0, 0), some "FF0000"⟩

/-- Concrete compliance table for C7 (headers qualify via `standard`). -/
def c7Table : PTable :=
  ⟨["Standard", "Code"], [["Std 1. Responsibilities", "V"], ["Std 9. Bogus", "Z"]]⟩

/-- Counterexample table for C8: two header rows (auto-detected count 2),
one numbered data row. -/
def c8Table : WTable :=
  ⟨[⟨[plainCell "Registration Number", plainCell "Maintenance Records",
      plainCell "Fault Repair"]⟩,
    ⟨[plainCell "extra header", plainCell "y", plainCell "z"]⟩,
    ⟨[plainCell "1.", plainCell "ABC123", plainCell ""]⟩], 3⟩

/-- Merged arrays for C8: one vehicle record. -/
def c8Arrays : Sec := [("Registration Number", ["XYZ789"])]

/-- Witness table for the amended C8 mass part. -/
def c8mTable : WTable :=
  ⟨[⟨[plainCell "Registration Number", plainCell "Weight Verification"]⟩,
    ⟨[plainCell "second header", plainCell ""]⟩,
    ⟨[plainCell "1.", plainCell "AB12C"]⟩], 2⟩

/-- The table `fill_vehicle_table` produces from `c8Table` and `c8Arrays`:
one hardcoded header row plus one record row. -/
def c8Result : WTable :=
  ⟨[⟨[plainCell "Registration Number", plainCell "Maintenance Records",
      plainCell "Fault Repair"]⟩,
    ⟨[⟨[[⟨"XYZ789", some (0, 0, 0), none⟩]]⟩, ⟨[[]]⟩, ⟨[[]]⟩]⟩], 3⟩

/-- A table cell holding a single red run (typed rgb 255,0,0). -/
def redCellC4 (s : String) : DCell := ⟨[[⟨s, some (255, 0, 0), none⟩]]⟩

/-- Vehicle-registration table for the C4 witness: the same red plate value
appears in two distinct data rows. -/
def c4Table : DTable :=
  ⟨"", [⟨[plainCell "Registration Number"]⟩, ⟨[redCellC4 "ABC123"]⟩, ⟨[redCellC4 "ABC123"]⟩]⟩

/-- Single-label row1 schema for the C4 witness. -/
def c4Spec : Schema := { orientation := "row1", labels := ["Registration Number"] }

/-- DOCX-side input for the C5 scenario: the template holds the literal
placeholder `Date`. -/
def c5Doc : MDoc := [("Audit Declaration dates", [("Audit was conducted on", ["Date"])])]

/-- PDF-side extraction for the C5 scenario: a digit-bearing date. -/
def c5pe : PdfExtracted := { audit_conducted_date := some "13th November 2024" }

/-- PDF-side extraction for the C5 scenario: the literal placeholder word. -/
def c5peBad : PdfExtracted := { audit_conducted_date := some "Date" }

/-- Structural twin of `runsOf`; used to evaluate ground instances by kernel
reduction. -/
def runsOfGo (keep : Char → Bool) : List Char → List (List Char)
  | [] => []
  | c :: t =>
    if keep c then
      match t with
      | [] => [[c]]
      | d :: _ =>
        if keep d then
          match runsOfGo keep t with
          | r :: rs => (c :: r) :: rs
          | [] => [[c]]
        else [c] :: runsOfGo keep t
    else runsOfGo keep t

/-- Structural twin of `collapseWsCh` (flag: currently inside a whitespace
run); used to evaluate ground instances by kernel reduction. -/
def collapseWsGo : Bool → List Char → List Char
  | _, [] => []
  | prevSp, c :: t =>
    if isSpacePy c then
      if prevSp then collapseWsGo true t else ' ' :: collapseWsGo true t
    else c :: collapseWsGo false t

/-- The candidate value the Audit Declaration dates block considers: the
explicitly extracted date if it is a real date, else the audit-info date. -/
def auditCandidate (pe : PdfExtracted) : String :=
  if _real_date (pe.audit_conducted_date.getD "") then pe.audit_conducted_date.getD ""
  else (pe.audit_info.getD {}).date_of_audit

/-! ## Theorems -/

theorem string_join_cons (a : String) (l : List String) :
    String.join (a :: l) = a ++ String.join l := by
  apply String.ext
  simp [String.data_join]

theorem coalesce_go_spec (l buf : List String) :
    coalesce_numeric_runs_go buf l =
      if buf = [] then coalesceRunsSpec l
      else String.join (buf ++ l.takeWhile isDigitToken) ::
        coalesceRunsSpec (l.dropWhile isDigitToken) := by
  induction l generalizing buf with
  | nil =>
    simp only [coalesce_numeric_runs_go, List.takeWhile_nil, List.dropWhile_nil,
      List.append_nil, coalesceRunsSpec]
  | cons t ts ih =>
    by_cases hd : isDigitToken t = true
    · simp only [coalesce_numeric_runs_go, hd, if_pos, List.takeWhile_cons, hd,
        List.dropWhile_cons]
      rw [ih]
      have hne : buf ++ [t] ≠ [] := by simp
      simp only [hne, if_neg, List.append_assoc, List.singleton_append]
      by_cases hb : buf = []
      · subst hb
        simp [coalesceRunsSpec, hd]
      · simp [hb, hd]
    · have hd' : isDigitToken t = false := by simpa using hd
      simp only [coalesce_numeric_runs_go, hd', Bool.false_eq_true, if_false]
      rw [ih]
      by_cases hb : buf = []
      · simp [hb, coalesceRunsSpec, hd']
      · simp [hb, coalesceRunsSpec, hd', List.takeWhile_cons, List.dropWhile_cons]

theorem coalesce_eq_spec (l : List String) :
    coalesce_numeric_runs l = coalesceRunsSpec l := by
  simpa using coalesce_go_spec l []

theorem join_coalesceRunsSpec (l : List String) :
    String.join (coalesceRunsSpec l) = String.join l := by
  induction l using coalesceRunsSpec.induct with
  | case1 => simp [coalesceRunsSpec]
  | case2 t ts hd ih =>
    rw [coalesceRunsSpec]
    simp only [hd, if_pos]
    rw [string_join_cons, ih]
    have hjoin : String.join (t :: ts.takeWhile isDigitToken) ++
        String.join (ts.dropWhile isDigitToken) =
        String.join ((t :: ts.takeWhile isDigitToken) ++ ts.dropWhile isDigitToken) := by
      apply String.ext
      simp only [String.data_append, String.data_join, List.map_cons, List.map_append,
        List.flatten_cons, List.flatten_append, List.append_assoc]
    rw [hjoin]
    simp only [List.cons_append, List.takeWhile_append_dropWhile]
  | case3 t ts hd ih =>
    have hd' : isDigitToken t = false := by simpa using hd
    rw [coalesceRunsSpec]
    simp only [hd', Bool.false_eq_true, if_false]
    rw [string_join_cons, string_join_cons, ih]

/-- C10: `coalesce_numeric_runs` replaces each maximal run of consecutive
single-character digit tokens by their concatenation, leaves every other
token unchanged in its original relative order (it equals the independent
run-grouping specification), and consequently the concatenation of its
output equals the concatenation of its input. -/
theorem C10_coalesce_runs (l : List String) :
    coalesce_numeric_runs l = coalesceRunsSpec l ∧
    String.join (coalesce_numeric_runs l) = String.join l := by
  refine ⟨coalesce_eq_spec l, ?_⟩
  rw [coalesce_eq_spec l, join_coalesceRunsSpec]

theorem lookupA_cons {β : Type} (k : String) (a : String × β) (t : List (String × β)) :
    List.lookup k (a :: t) = if k = a.1 then some a.2 else List.lookup k t := by
  cases hb : k == a.1
  · have h : ¬k = a.1 := by simpa using hb
    simp [List.lookup, hb, h]
  · have h : k = a.1 := by simpa using hb
    simp [List.lookup, hb, h]

theorem lookup_map_replace (k v k' : String) (l : List (String × String)) :
    List.lookup k' (l.map (fun p => if p.1 = k then (k, v) else p)) =
      if k' = k then (List.lookup k l).map (fun _ => v) else List.lookup k' l := by
  induction l with
  | nil => simp [List.lookup]
  | cons a t ih =>
    simp only [List.map_cons, lookupA_cons]
    by_cases hak : a.1 = k
    · subst hak
      by_cases hk : k' = a.1
      · simp [hk]
      · simp [hk, ih]
    · have h3 : ¬k = a.1 := fun h => hak h.symm
      by_cases hk2 : k' = a.1
      · have hk : ¬k' = k := fun h => hak (hk2.symm.trans h)
        simp [hak, hk2, hk, h3]
      · by_cases hk : k' = k
        · rw [hk] at ih ⊢
          simp [hak, h3, ih]
        · simp [hak, hk2, hk, ih]

theorem any_eq_lookup_isSome (k : String) (l : List (String × String)) :
    l.any (fun p => p.1 = k) = (List.lookup k l).isSome := by
  induction l with
  | nil => simp [List.lookup]
  | cons a t ih =>
    rw [List.any_cons, lookupA_cons]
    by_cases hak : a.1 = k
    · simp [hak]
    · have h2 : ¬k = a.1 := fun h => hak h.symm
      simp [hak, h2, ih]

theorem lookup_upsertA (l : List (String × String)) (k v k' : String) :
    List.lookup k' (upsertA l k v) = if k' = k then some v else List.lookup k' l := by
  unfold upsertA
  by_cases hany : l.any (fun p => p.1 = k)
  · rw [if_pos hany, lookup_map_replace]
    have hsome : (List.lookup k l).isSome := by rw [← any_eq_lookup_isSome]; exact hany
    by_cases hk : k' = k
    · rw [if_pos hk, if_pos hk]
      match hl : List.lookup k l with
      | some x => simp
      | none => rw [hl] at hsome; simp at hsome
    · simp [hk]
  · rw [if_neg hany]
    induction l with
    | nil =>
      simp only [List.nil_append, lookupA_cons]
    | cons a t ih =>
      simp only [List.any_cons, Bool.or_eq_true, not_or] at hany
      rw [List.cons_append, lookupA_cons, lookupA_cons]
      by_cases hk2 : k' = a.1
      · have hne : ¬a.1 = k := by simpa using hany.1
        have hk : ¬k' = k := fun h => hne (hk2.symm.trans h)
        simp [hk2, hk, hne]
      · rw [if_neg hk2, if_neg hk2]
        exact ih hany.2

theorem lastVal_from (k : String) (rs : List (String × String)) (o : Option String) :
    rs.foldl (fun acc p => if p.1 = k then some p.2 else acc) o =
      (lastVal k rs).elim o some := by
  induction rs generalizing o with
  | nil => simp [lastVal]
  | cons p t ih =>
    rw [List.foldl_cons, ih]
    have h2 : lastVal k (p :: t) =
        (lastVal k t).elim (if p.1 = k then some p.2 else none) some := by
      unfold lastVal
      rw [List.foldl_cons]
      exact ih _
    rw [h2]
    cases lastVal k t with
    | some v => simp
    | none => by_cases hp : p.1 = k <;> simp [hp]

theorem fold_upsert_lookup (k : String) (rs : List (String × String))
    (acc : List (String × String)) :
    List.lookup k (rs.foldl (fun a p => upsertA a p.1 p.2) acc) =
      (lastVal k rs).elim (List.lookup k acc) some := by
  induction rs generalizing acc with
  | nil => simp [lastVal]
  | cons p t ih =>
    rw [List.foldl_cons, ih]
    have h2 : lastVal k (p :: t) =
        (lastVal k t).elim (if p.1 = k then some p.2 else none) some := by
      unfold lastVal
      rw [List.foldl_cons]
      exact lastVal_from k t _
    rw [h2]
    cases lastVal k t with
    | some v => simp
    | none =>
      simp only [Option.elim_none]
      rw [lookup_upsertA]
      by_cases hp : p.1 = k
      · rw [if_pos hp.symm, if_pos hp]
        simp
      · have h3 : ¬k = p.1 := fun h => hp h.symm
        rw [if_neg h3, if_neg hp]
        simp

theorem rows_fold_upsert (rows : List (List String)) (acc : List (String × String)) :
    rows.foldl
      (fun acc row =>
        if stdRowOk row then upsertA acc (pyStrip (row.getD 0 "")) (pyStrip (row.getD 1 ""))
        else acc) acc =
    (rows.filterMap
      (fun row =>
        if stdRowOk row then some (pyStrip (row.getD 0 ""), pyStrip (row.getD 1 ""))
        else none)).foldl
      (fun a p => upsertA a p.1 p.2) acc := by
  induction rows generalizing acc with
  | nil => rfl
  | cons r t ih =>
    simp only [List.foldl_cons, List.filterMap_cons]
    by_cases hr : stdRowOk r
    · rw [if_pos hr, if_pos hr, List.foldl_cons]
      exact ih _
    · rw [if_neg hr, if_neg hr]
      exact ih _

theorem standards_compliance_as_fold (tables : List PTable) :
    standards_compliance tables =
      (complianceQualRows tables).foldl (fun a p => upsertA a p.1 p.2) [] := by
  suffices h : ∀ (ts : List PTable) (acc : List (String × String)), ts.foldl
      (fun acc t =>
        if complianceHeadersOk t then
          t.data.foldl
            (fun acc row =>
              if stdRowOk row then
                upsertA acc (pyStrip (row.getD 0 "")) (pyStrip (row.getD 1 ""))
              else acc) acc
        else acc) acc =
      (complianceQualRows ts).foldl (fun a p => upsertA a p.1 p.2) acc by
    exact h tables []
  intro ts
  induction ts with
  | nil => intro acc; rfl
  | cons t ts ih =>
    intro acc
    have hq : complianceQualRows (t :: ts) =
        (if complianceHeadersOk t then
           t.data.filterMap
             (fun row =>
               if stdRowOk row then
                 some (pyStrip (row.getD 0 ""), pyStrip (row.getD 1 ""))
               else none)
         else []) ++ complianceQualRows ts := by
      simp only [complianceQualRows, List.flatMap_cons]
    rw [hq, List.foldl_append, List.foldl_cons]
    by_cases ht : complianceHeadersOk t
    · rw [if_pos ht, if_pos ht, rows_fold_upsert]
      exact ih _
    · rw [if_neg ht, if_neg ht, List.foldl_nil]
      exact ih _

/-- C7: in the compliance-table scan, a `(standard, code)` pair is recorded
in `standards_compliance` exactly as dictated by the qualifying rows — rows
of tables with compliance/standard/requirement-like headers having at least
two cells, a first (stripped) cell starting with `Std` and a second
(stripped) cell in `{V, NC, SFI, NAP, NA}` — the last qualifying row for a
key winning; in particular a qualifying table holding the rows
`["Std 1. Responsibilities", "V"]` and `["Std 9. Bogus", "Z"]` records
exactly `Std 1. Responsibilities ↦ V` and excludes the bogus row. -/
theorem C7_standards_compliance :
    (∀ (tables : List PTable) (k : String),
       List.lookup k (standards_compliance tables) =
         lastVal k (complianceQualRows tables)) ∧
    standards_compliance [c7Table] = [("Std 1. Responsibilities", "V")] := by
  constructor
  · intro tables k
    rw [standards_compliance_as_fold, fold_upsert_lookup]
    cases lastVal k (complianceQualRows tables) <;> simp [List.lookup]
  · decide

/-- C3 counterexample: a run whose typed rgb color is black but whose raw XML
`w:color val` is `FF0000` is detected as red by `is_red_font`, while the
claim's resolved color (typed first, raw only when typed is absent) is black
and not red — so the stated iff fails at this run. -/
theorem C3_counterexample :
    is_red_font c3Run = true ∧ is_red_font_claim c3Run = false := by
  constructor <;> rfl

/-- C3 (amended): a run is detected as a placeholder iff either color
representation that is present satisfies the red predicate — the raw XML
six-hex fallback is checked whenever the typed check does not fire, not only
when the typed color is absent; both representations are tested by the same
predicate. -/
theorem exists_triple_eq_iff (r g b : ℕ) (P : ℕ → ℕ → ℕ → Prop) :
    (∃ x y z, (r = x ∧ g = y ∧ b = z) ∧ P x y z) ↔ P r g b := by
  constructor
  · rintro ⟨x, y, z, ⟨rfl, rfl, rfl⟩, h⟩
    exact h
  · intro h
    exact ⟨r, g, b, ⟨rfl, rfl, rfl⟩, h⟩

theorem C3_red_font_characterisation (run : Run) :
    is_red_font run = true ↔
      ((∃ r g b, run.rgb = some (r, g, b) ∧ redTriple r g b = true) ∨
       (∃ v r g b, run.colorVal = some v ∧ parseHex6 v = some (r, g, b) ∧
          redTriple r g b = true)) := by
  rcases run with ⟨tx, rgb, cv⟩
  rcases rgb with _ | ⟨r0, g0, b0⟩ <;> rcases cv with _ | v
  · simp [is_red_font]
  · cases hp : parseHex6 v with
    | none => simp [is_red_font, hp]
    | some t =>
      rcases t with ⟨r, g, b⟩
      simp [is_red_font, hp, exists_triple_eq_iff]
  · simp [is_red_font, exists_triple_eq_iff]
  · cases hp : parseHex6 v with
    | none => simp [is_red_font, hp, exists_triple_eq_iff]
    | some t =>
      rcases t with ⟨r, g, b⟩
      simp [is_red_font, hp, exists_triple_eq_iff]

theorem plate_length_guard (s : String)
    (h : ¬(5 ≤ (plateStripped s).length ∧ (plateStripped s).length ≤ 8)) :
    looks_like_plate s = false := by
  unfold looks_like_plate
  by_cases hs : s = ""
  · simp [hs]
  · rw [if_neg hs]
    have hcond : (!(5 ≤ (plateStripped s).length && (plateStripped s).length ≤ 8)) = true := by
      by_cases h1 : 5 ≤ (plateStripped s).length
      · have h2 : ¬(plateStripped s).length ≤ 8 := fun h2 => h ⟨h1, h2⟩
        simp [h2]
      · simp [h1]
    simp only [hcond, if_pos]

/-- C6: any candidate whose alphanumeric form (uppercased, whitespace and
hyphens removed) has length outside `[5, 8]` is rejected by
`looks_like_plate`; in particular every candidate string of exactly 4
characters is rejected. -/
theorem C6_plate_length_bounds :
    (∀ s : String,
       ¬(5 ≤ (plateStripped s).length ∧ (plateStripped s).length ≤ 8) →
       looks_like_plate s = false) ∧
    (∀ s : String, s.length = 4 → looks_like_plate s = false) := by
  refine ⟨plate_length_guard, fun s h4 => plate_length_guard s ?_⟩
  have hle : (plateStripped s).length ≤ s.data.length := by
    calc (plateStripped s).length ≤ (s.data.map upCh).length :=
          List.length_filter_le _ _
      _ = s.data.length := List.length_map _ _
  have hlen : s.data.length = 4 := h4
  intro hc
  omega

/-- C6 witness: the four-character candidate `AB12` is rejected. -/
theorem C6_plate_length_bounds_witness : looks_like_plate "AB12" = false :=
  C6_plate_length_bounds.2 "AB12" (by decide)

/-- C1 counterexample: `A1` matches the extraction regex but fails
`looks_like_plate` (stripped length 2 < 5), while `ABC1234` passes
`looks_like_plate` but fails the regex (four digits) — the claimed
equivalence fails in both directions. -/
theorem C1_counterexample :
    plate_regex_match "A1" = true ∧ looks_like_plate "A1" = false ∧
    looks_like_plate "ABC1234" = true ∧ plate_regex_match "ABC1234" = false := by
  refine ⟨by decide, by decide, by decide, by decide⟩

theorem isLowerAZ_eq_false_of_upper {c : Char} (h : isUpperAZ c = true) :
    isLowerAZ c = false := by
  rcases Bool.and_eq_true_iff.mp h with ⟨_, h2⟩
  have hz : c ≤ 'Z' := of_decide_eq_true h2
  by_contra hl
  have hl' : isLowerAZ c = true := by simpa using hl
  rcases Bool.and_eq_true_iff.mp hl' with ⟨h3, _⟩
  have ha : 'a' ≤ c := of_decide_eq_true h3
  have : ('a' : Char) ≤ 'Z' := le_trans ha hz
  exact absurd this (by decide)

theorem isLowerAZ_eq_false_of_digit {c : Char} (h : isDigit09 c = true) :
    isLowerAZ c = false := by
  rcases Bool.and_eq_true_iff.mp h with ⟨_, h2⟩
  have hz : c ≤ '9' := of_decide_eq_true h2
  by_contra hl
  have hl' : isLowerAZ c = true := by simpa using hl
  rcases Bool.and_eq_true_iff.mp hl' with ⟨h3, _⟩
  have ha : 'a' ≤ c := of_decide_eq_true h3
  have : ('a' : Char) ≤ '9' := le_trans ha hz
  exact absurd this (by decide)

theorem isLowerAZ_eq_false_of_space {c : Char} (h : isSpacePy c = true) :
    isLowerAZ c = false := by
  have h2 : c = ' ' ∨ c = '\t' ∨ c = '\n' ∨ c = '\r' ∨ c = '\x0b' ∨ c = '\x0c' := by
    simpa [isSpacePy, or_assoc] using h
  rcases h2 with h2 | h2 | h2 | h2 | h2 | h2 <;> subst h2 <;> decide

theorem upCh_eq_self_of_not_lower {c : Char} (h : isLowerAZ c = false) : upCh c = c := by
  unfold upCh
  rw [h]
  rfl

theorem plate_regex_chars (s : String) (h : plate_regex_match s = true) :
    ∀ c ∈ s.data, isUpperAZ c = true ∨ isSpacePy c = true ∨ isDigit09 c = true := by
  have h5 : ((((s.data.dropWhile isUpperAZ).dropWhile isSpacePy).dropWhile
        isDigit09).dropWhile isSpacePy).dropWhile isUpperAZ = [] ∨
      ((((s.data.dropWhile isUpperAZ).dropWhile isSpacePy).dropWhile
        isDigit09).dropWhile isSpacePy).dropWhile isUpperAZ = ['\n'] := by
    simp only [plate_regex_match, Bool.and_eq_true, Bool.or_eq_true, decide_eq_true_eq] at h
    tauto
  intro c hc
  rw [← List.takeWhile_append_dropWhile isUpperAZ s.data] at hc
  rcases List.mem_append.mp hc with h1 | hc
  · exact Or.inl (List.mem_takeWhile_imp h1)
  rw [← List.takeWhile_append_dropWhile isSpacePy (s.data.dropWhile isUpperAZ)] at hc
  rcases List.mem_append.mp hc with h1 | hc
  · exact Or.inr (Or.inl (List.mem_takeWhile_imp h1))
  rw [← List.takeWhile_append_dropWhile isDigit09
    ((s.data.dropWhile isUpperAZ).dropWhile isSpacePy)] at hc
  rcases List.mem_append.mp hc with h1 | hc
  · exact Or.inr (Or.inr (List.mem_takeWhile_imp h1))
  rw [← List.takeWhile_append_dropWhile isSpacePy
    (((s.data.dropWhile isUpperAZ).dropWhile isSpacePy).dropWhile isDigit09)] at hc
  rcases List.mem_append.mp hc with h1 | hc
  · exact Or.inr (Or.inl (List.mem_takeWhile_imp h1))
  rw [← List.takeWhile_append_dropWhile isUpperAZ
    ((((s.data.dropWhile isUpperAZ).dropWhile isSpacePy).dropWhile isDigit09).dropWhile
      isSpacePy)] at hc
  rcases List.mem_append.mp hc with h1 | hc
  · exact Or.inl (List.mem_takeWhile_imp h1)
  rcases h5 with h5 | h5 <;> rw [h5] at hc
  · exact absurd hc (List.not_mem_nil c)
  · rcases List.mem_singleton.mp hc with rfl
    exact Or.inr (Or.inl (by decide))

theorem plate_stripped_alnum (s : String) (h : plate_regex_match s = true) :
    ∀ c ∈ plateStripped s, isAlnumAZ09 c = true := by
  intro c hc
  unfold plateStripped at hc
  rcases List.mem_filter.mp hc with ⟨hmem, hq⟩
  rcases List.mem_map.mp hmem with ⟨c0, hc0, rfl⟩
  rcases plate_regex_chars s h c0 hc0 with hu | hsp | hd
  · rw [upCh_eq_self_of_not_lower (isLowerAZ_eq_false_of_upper hu)]
    unfold isAlnumAZ09 isAlphaAZ
    simp [hu]
  · exfalso
    rw [upCh_eq_self_of_not_lower (isLowerAZ_eq_false_of_space hsp)] at hq
    simp [hsp] at hq
  · rw [upCh_eq_self_of_not_lower (isLowerAZ_eq_false_of_digit hd)]
    unfold isAlnumAZ09
    simp [hd]

theorem no_digits_in_excl (t : List Char) (hd : 2 ≤ (t.filter isDigit09).length) :
    ¬(String.mk t ∈ (["ENTRY", "YES", "NO", "N/A", "NA"] : List String)) := by
  intro hmem
  have ht : t = "ENTRY".data ∨ t = "YES".data ∨ t = "NO".data ∨ t = "N/A".data ∨
      t = "NA".data := by
    simp only [List.mem_cons, List.mem_singleton] at hmem
    rcases hmem with h | h | h | h | h | h
    · exact Or.inl (congrArg String.data h)
    · exact Or.inr (Or.inl (congrArg String.data h))
    · exact Or.inr (Or.inr (Or.inl (congrArg String.data h)))
    · exact Or.inr (Or.inr (Or.inr (Or.inl (congrArg String.data h))))
    · exact Or.inr (Or.inr (Or.inr (Or.inr (congrArg String.data h))))
    · exact absurd h (List.not_mem_nil _)
  rcases ht with h | h | h | h | h <;> rw [h] at hd <;> exact absurd hd (by decide)

theorem looks_like_plate_expand (s : String) (hs : ¬s = "") :
    looks_like_plate s =
      (if !(5 ≤ (plateStripped s).length && (plateStripped s).length ≤ 8) then false
       else if !((plateStripped s).all isAlnumAZ09) then false
       else if ((plateStripped s).filter isAlphaAZ).length < 2 then false
       else if ((plateStripped s).filter isDigit09).length < 2 then false
       else if String.mk (plateStripped s) ∈ ["ENTRY", "YES", "NO", "N/A", "NA"] then false
       else true) := by
  unfold looks_like_plate
  rw [if_neg hs]

/-- C1 (amended): the equivalence fails in both directions (see the
counterexample), but restricted to strings accepted by the extraction regex
`^[A-Z]{1,3}\s*\d{1,3}\s*[A-Z]{0,3}$`, `looks_like_plate` holds iff the
candidate's alphanumeric form has length in `[5, 8]` with at least two
letters and at least two digits — the alphanumeric-shape and
known-non-plate-word checks are implied by the regex. -/
theorem C1_regex_plate_iff (s : String) (h : plate_regex_match s = true) :
    looks_like_plate s = true ↔
      (5 ≤ (plateStripped s).length ∧ (plateStripped s).length ≤ 8 ∧
       2 ≤ ((plateStripped s).filter isAlphaAZ).length ∧
       2 ≤ ((plateStripped s).filter isDigit09).length) := by
  have hs : ¬s = "" := by
    intro he
    rw [he] at h
    exact absurd h (by decide)
  rw [looks_like_plate_expand s hs]
  constructor
  · intro hl
    cases h1 : (5 ≤ (plateStripped s).length && (plateStripped s).length ≤ 8) with
    | false => rw [h1] at hl; simp at hl
    | true =>
      rw [h1] at hl
      simp only [Bool.not_true, Bool.false_eq_true, if_false] at hl
      rcases Bool.and_eq_true_iff.mp h1 with ⟨hb1, hb2⟩
      refine ⟨of_decide_eq_true hb1, of_decide_eq_true hb2, ?_, ?_⟩
      · by_cases h3 : ((plateStripped s).filter isAlphaAZ).length < 2
        · simp [h3] at hl
        · omega
      · by_cases h3 : ((plateStripped s).filter isAlphaAZ).length < 2
        · simp [h3] at hl
        · simp only [h3, if_false] at hl
          by_cases h4 : ((plateStripped s).filter isDigit09).length < 2
          · simp [h4] at hl
          · omega
  · rintro ⟨c1, c2, c3, c4⟩
    have hb1 : (5 ≤ (plateStripped s).length && (plateStripped s).length ≤ 8) = true := by
      simp [c1, c2]
    have hall : (plateStripped s).all isAlnumAZ09 = true :=
      List.all_eq_true.mpr (plate_stripped_alnum s h)
    have h3 : ¬((plateStripped s).filter isAlphaAZ).length < 2 := by omega
    have h4 : ¬((plateStripped s).filter isDigit09).length < 2 := by omega
    have h5 := no_digits_in_excl (plateStripped s) c4
    rw [hb1, hall]
    simp [h3, h4, h5]

/-- C1 witness: `AB 12C` matches the regex, and the amended equivalence
applied there confirms `looks_like_plate`. -/
theorem C1_regex_plate_iff_witness : looks_like_plate "AB 12C" = true :=
  (C1_regex_plate_iff "AB 12C" (by decide)).mpr (by decide)

theorem map_fst_updSec (d : MDoc) (n : String) (f : Sec → Sec) :
    (updSec d n f).map Prod.fst = d.map Prod.fst := by
  unfold updSec
  rw [List.map_map]
  apply List.map_congr_left
  intro p _
  by_cases h : p.1 = n <;> simp [h]

theorem map_fst_foldl_preserve {α : Type} (step : MDoc → α → MDoc) (l : List α)
    (h : ∀ d x, (step d x).map Prod.fst = d.map Prod.fst) :
    ∀ d : MDoc, (l.foldl step d).map Prod.fst = d.map Prod.fst := by
  induction l with
  | nil => intro d; rfl
  | cons x t ih =>
    intro d
    rw [List.foldl_cons, ih, h]

theorem map_fst_mtdAuditInfo (pe : PdfExtracted) (d : MDoc) :
    (mtdAuditInfo pe d).map Prod.fst = d.map Prod.fst := by
  unfold mtdAuditInfo
  by_cases h : pe.audit_info.isSome <;> simp [h, map_fst_updSec]

theorem map_fst_mtdOperatorInfo (pe : PdfExtracted) (d : MDoc) :
    (mtdOperatorInfo pe d).map Prod.fst = d.map Prod.fst := by
  unfold mtdOperatorInfo
  by_cases h : pe.operator_info.isSome <;> simp [h, map_fst_updSec]

theorem map_fst_mtdContact (pe : PdfExtracted) (d : MDoc) :
    (mtdContact pe d).map Prod.fst = d.map Prod.fst := by
  unfold mtdContact
  by_cases h : pe.operator_info.isSome <;> simp [h, map_fst_updSec]

theorem map_fst_mtdAttendance (pe : PdfExtracted) (d : MDoc) :
    (mtdAttendance pe d).map Prod.fst = d.map Prod.fst := by
  unfold mtdAttendance
  by_cases h : pe.attendance.isSome <;> simp [h, map_fst_updSec]

theorem map_fst_mtdBusiness (pe : PdfExtracted) (d : MDoc) :
    (mtdBusiness pe d).map Prod.fst = d.map Prod.fst := by
  unfold mtdBusiness
  by_cases h : pe.business_summary.isSome <;> simp [h, map_fst_updSec]

theorem map_fst_mtdVehicleSummary (pe : PdfExtracted) (d : MDoc) :
    (mtdVehicleSummary pe d).map Prod.fst = d.map Prod.fst := by
  unfold mtdVehicleSummary
  cases pe.vehicle_summary with
  | none => rfl
  | some vs => rw [map_fst_updSec, map_fst_updSec]

theorem map_fst_mtdSummaries (tables : List PTable) (d : MDoc) :
    (mtdSummaries tables d).map Prod.fst = d.map Prod.fst := by
  unfold mtdSummaries
  apply map_fst_foldl_preserve
  intro d p
  by_cases h : p.2 ≠ [] <;> simp [h, map_fst_updSec]

theorem map_fst_mtdVehicleSections (pe : PdfExtracted) (d : MDoc) :
    (mtdVehicleSections pe d).map Prod.fst = d.map Prod.fst := by
  unfold mtdVehicleSections
  rw [map_fst_updSec, map_fst_updSec]

theorem map_fst_mtdDrivers (pe : PdfExtracted) (d : MDoc) :
    (mtdDrivers pe d).map Prod.fst = d.map Prod.fst := by
  unfold mtdDrivers
  by_cases h : pe.drivers_detailed.isSome <;> simp [h, map_fst_updSec]

theorem map_fst_mtdPrintAccreditation (pe : PdfExtracted) (d : MDoc) :
    (mtdPrintAccreditation pe d).map Prod.fst = d.map Prod.fst := by
  unfold mtdPrintAccreditation
  rw [map_fst_updSec]

theorem map_fst_mtdAuditDecl (pe : PdfExtracted) (d : MDoc) :
    (mtdAuditDecl pe d).map Prod.fst = d.map Prod.fst := by
  unfold mtdAuditDecl
  rw [map_fst_updSec]

theorem map_fst_mtdOperatorDecl (fat : List String → Option (String × String))
    (pe : PdfExtracted) (d : MDoc) :
    (mtdOperatorDecl fat pe d).map Prod.fst = d.map Prod.fst := by
  unfold mtdOperatorDecl
  rw [map_fst_updSec]

theorem map_fst_mtdParagraphs (pe : PdfExtracted) (d : MDoc) :
    (mtdParagraphs pe d).map Prod.fst = d.map Prod.fst := by
  unfold mtdParagraphs
  rw [map_fst_updSec]

theorem map_fst_forceFill (tables : List PTable) (d : MDoc) :
    (_force_fill_maintenance_from_tables tables d).map Prod.fst = d.map Prod.fst := by
  unfold _force_fill_maintenance_from_tables
  by_cases h : (forceFillRows tables).isEmpty <;> simp [h, map_fst_updSec]

/-- C9: the merged output has exactly the DOCX-side input's top-level schema
keys (same keys, same order): the merger overwrites label values inside
existing sections but never adds or removes a top-level section, for every
DOCX-side input, extraction result and PDF table list. -/
theorem C9_top_level_frame (fat : List String → Option (String × String))
    (pe : PdfExtracted) (docx : MDoc) (tables : List PTable) :
    (merge_pdf_to_docx fat docx pe tables).map Prod.fst = docx.map Prod.fst := by
  unfold merge_pdf_to_docx map_to_docx_structure
  rw [map_fst_forceFill, map_fst_mtdParagraphs, map_fst_mtdOperatorDecl, map_fst_mtdAuditDecl,
    map_fst_mtdPrintAccreditation, map_fst_mtdDrivers, map_fst_mtdVehicleSections,
    map_fst_mtdSummaries, map_fst_mtdVehicleSummary, map_fst_mtdBusiness,
    map_fst_mtdAttendance, map_fst_mtdContact, map_fst_mtdOperatorInfo, map_fst_mtdAuditInfo]

theorem lookupSec_cons (a : String × Sec) (t : MDoc) (m : String) :
    lookupSec (a :: t) m = if a.1 = m then some a.2 else lookupSec t m := by
  unfold lookupSec
  rw [List.find?_cons]
  by_cases h : a.1 = m <;> simp [h]

theorem lookupSec_updSec (d : MDoc) (n m : String) (f : Sec → Sec) :
    lookupSec (updSec d n f) m =
      if m = n then (lookupSec d n).map f else lookupSec d m := by
  induction d with
  | nil => by_cases h : m = n <;> simp [updSec, lookupSec, h]
  | cons a t ih =>
    have hstep : updSec (a :: t) n f =
        (if a.1 = n then (a.1, f a.2) else a) :: updSec t n f := rfl
    rw [hstep]
    by_cases hmn : m = n
    · subst hmn
      by_cases han : a.1 = m <;> simp [lookupSec_cons, han, ih]
    · have hnm : ¬n = m := fun h => hmn h.symm
      by_cases han : a.1 = n <;> by_cases hma : a.1 = m <;>
        first
          | exact absurd (hma.symm.trans han) hmn
          | simp [lookupSec_cons, han, hma, hmn, hnm, ih]

theorem lookupSec_updSec_ne (d : MDoc) (n m : String) (f : Sec → Sec) (h : ¬m = n) :
    lookupSec (updSec d n f) m = lookupSec d m := by
  rw [lookupSec_updSec, if_neg h]

theorem lookupSec_updSec_eq (d : MDoc) (n : String) (f : Sec → Sec) :
    lookupSec (updSec d n f) n = (lookupSec d n).map f := by
  rw [lookupSec_updSec, if_pos rfl]

theorem find?_key_eq_none {β : Type} (l : List (String × β)) (k : String)
    (h : l.any (fun p => p.1 = k) = false) : l.find? (fun p => p.1 = k) = none := by
  rw [List.find?_eq_none]
  intro p hp
  simp only [List.any_eq_false, decide_eq_true_eq] at h
  simp only [decide_eq_true_eq]
  exact h p hp

theorem find?_map_setL (t : List (String × List String)) (k : String) (v : List String)
    (h : t.any (fun p => p.1 = k) = true) :
    (t.map (fun p => if p.1 = k then (k, v) else p)).find? (fun p => p.1 = k) =
      some (k, v) := by
  induction t with
  | nil => simp at h
  | cons a t ih =>
    rw [List.map_cons, List.find?_cons]
    by_cases hak : a.1 = k
    · simp [hak]
    · rw [if_neg hak]
      have hd : (decide (a.1 = k)) = false := by simp [hak]
      simp only [hd]
      simp only [List.any_cons, Bool.or_eq_true, decide_eq_true_eq] at h
      rcases h with h | h
      · exact absurd h hak
      · exact ih h

theorem find?_setL_self (sec : Sec) (k : String) (v : List String) :
    (setL sec k v).find? (fun p => p.1 = k) = some (k, v) := by
  unfold setL
  by_cases hany : sec.any (fun p => p.1 = k) = true
  · rw [if_pos hany]
    exact find?_map_setL sec k v hany
  · have hf : sec.any (fun p => p.1 = k) = false := by
      cases h2 : sec.any (fun p => p.1 = k)
      · rfl
      · exact absurd h2 hany
    rw [if_neg hany, List.find?_append, find?_key_eq_none sec k hf]
    simp

theorem map_fst_summaryUpd (out : List (String × List (String × String)))
    (secName ln r : String) :
    (summaryUpd out secName ln r).map Prod.fst = out.map Prod.fst := by
  unfold summaryUpd
  rw [List.map_map]
  apply List.map_congr_left
  intro p _
  by_cases hp : p.1 = secName <;> simp [hp]

theorem map_fst_foldl_preserveP {β α : Type} (step : List (String × β) → α → List (String × β))
    (l : List α) (h : ∀ d a, (step d a).map Prod.fst = d.map Prod.fst) :
    ∀ d : List (String × β), (l.foldl step d).map Prod.fst = d.map Prod.fst := by
  induction l with
  | nil => intro d; rfl
  | cons a t ih => intro d; rw [List.foldl_cons, ih, h]

theorem build_summary_maps_keys (tables : List PTable) :
    (build_summary_maps tables).map Prod.fst =
      ["Maintenance Management Summary", "Mass Management Summary",
       "Fatigue Management Summary"] := by
  unfold build_summary_maps
  rw [List.map_map]
  have h1 : ∀ p : String × List (String × String),
      (Prod.fst ∘ fun p : String × List (String × String) =>
        (p.1, p.2.filterMap
          (fun q => if q.2 ≠ "" then some (q.1, [_smart_space q.2]) else none))) p =
      Prod.fst p := fun p => rfl
  rw [List.map_congr_left (fun p _ => h1 p)]
  rw [map_fst_foldl_preserveP]
  · rfl
  · intro d t
    simp only
    split
    · rfl
    · split
      · rfl
      · apply map_fst_foldl_preserveP
        intro out row
        split
        · rfl
        · split <;> split <;>
            first
              | apply map_fst_summaryUpd
              | rfl

theorem lookupSec_mtdAuditInfo_decl (pe : PdfExtracted) (d : MDoc) :
    lookupSec (mtdAuditInfo pe d) "Audit Declaration dates" =
      lookupSec d "Audit Declaration dates" := by
  unfold mtdAuditInfo
  split
  · exact lookupSec_updSec_ne _ _ _ _ (by decide)
  · rfl

theorem lookupSec_mtdOperatorInfo_decl (pe : PdfExtracted) (d : MDoc) :
    lookupSec (mtdOperatorInfo pe d) "Audit Declaration dates" =
      lookupSec d "Audit Declaration dates" := by
  unfold mtdOperatorInfo
  split
  · exact lookupSec_updSec_ne _ _ _ _ (by decide)
  · rfl

theorem lookupSec_mtdContact_decl (pe : PdfExtracted) (d : MDoc) :
    lookupSec (mtdContact pe d) "Audit Declaration dates" =
      lookupSec d "Audit Declaration dates" := by
  unfold mtdContact
  split
  · exact lookupSec_updSec_ne _ _ _ _ (by decide)
  · rfl

theorem lookupSec_mtdAttendance_decl (pe : PdfExtracted) (d : MDoc) :
    lookupSec (mtdAttendance pe d) "Audit Declaration dates" =
      lookupSec d "Audit Declaration dates" := by
  unfold mtdAttendance
  split
  · exact lookupSec_updSec_ne _ _ _ _ (by decide)
  · rfl

theorem lookupSec_mtdBusiness_decl (pe : PdfExtracted) (d : MDoc) :
    lookupSec (mtdBusiness pe d) "Audit Declaration dates" =
      lookupSec d "Audit Declaration dates" := by
  unfold mtdBusiness
  split
  · exact lookupSec_updSec_ne _ _ _ _ (by decide)
  · rfl

theorem lookupSec_mtdVehicleSummary_decl (pe : PdfExtracted) (d : MDoc) :
    lookupSec (mtdVehicleSummary pe d) "Audit Declaration dates" =
      lookupSec d "Audit Declaration dates" := by
  unfold mtdVehicleSummary
  split
  · rfl
  · rw [lookupSec_updSec_ne _ _ _ _ (by decide), lookupSec_updSec_ne _ _ _ _ (by decide)]

theorem lookupSec_mtdSummaries_decl (tables : List PTable) (d : MDoc) :
    lookupSec (mtdSummaries tables d) "Audit Declaration dates" =
      lookupSec d "Audit Declaration dates" := by
  unfold mtdSummaries
  have hk : ∀ p ∈ build_summary_maps tables, ¬("Audit Declaration dates" = p.1) := by
    intro p hp
    have h1 : p.1 ∈ (build_summary_maps tables).map Prod.fst :=
      List.mem_map_of_mem Prod.fst hp
    rw [build_summary_maps_keys] at h1
    intro he
    rw [← he] at h1
    simp at h1
  revert hk
  generalize build_summary_maps tables = l
  induction l generalizing d with
  | nil => intro hk; rfl
  | cons p t ih =>
    intro hk
    rw [List.foldl_cons]
    have hstep : lookupSec
        (if p.2 ≠ [] then
          updSec d p.1
            (fun sec =>
              p.2.foldl
                (fun sec q =>
                  if sec.any (fun r => r.1 = q.1) then setL sec q.1 q.2
                  else
                    match sec.find? (fun r => stdMatch q.1 r.1) with
                    | some r => setL sec r.1 q.2
                    | none => sec)
                sec)
        else d) "Audit Declaration dates" = lookupSec d "Audit Declaration dates" := by
      split
      · exact lookupSec_updSec_ne _ _ _ _ (hk p (List.mem_cons_self p t))
      · rfl
    rw [ih _ (fun q hq => hk q (List.mem_cons_of_mem p hq)), hstep]

theorem lookupSec_mtdVehicleSections_decl (pe : PdfExtracted) (d : MDoc) :
    lookupSec (mtdVehicleSections pe d) "Audit Declaration dates" =
      lookupSec d "Audit Declaration dates" := by
  unfold mtdVehicleSections
  rw [lookupSec_updSec_ne _ _ _ _ (by decide), lookupSec_updSec_ne _ _ _ _ (by decide)]

theorem lookupSec_mtdDrivers_decl (pe : PdfExtracted) (d : MDoc) :
    lookupSec (mtdDrivers pe d) "Audit Declaration dates" =
      lookupSec d "Audit Declaration dates" := by
  unfold mtdDrivers
  split
  · exact lookupSec_updSec_ne _ _ _ _ (by decide)
  · rfl

theorem lookupSec_mtdPrintAccreditation_decl (pe : PdfExtracted) (d : MDoc) :
    lookupSec (mtdPrintAccreditation pe d) "Audit Declaration dates" =
      lookupSec d "Audit Declaration dates" := by
  unfold mtdPrintAccreditation
  exact lookupSec_updSec_ne _ _ _ _ (by decide)

theorem lookupSec_mtdOperatorDecl_decl (fat : List String → Option (String × String))
    (pe : PdfExtracted) (d : MDoc) :
    lookupSec (mtdOperatorDecl fat pe d) "Audit Declaration dates" =
      lookupSec d "Audit Declaration dates" := by
  unfold mtdOperatorDecl
  exact lookupSec_updSec_ne _ _ _ _ (by decide)

theorem lookupSec_mtdParagraphs_decl (pe : PdfExtracted) (d : MDoc) :
    lookupSec (mtdParagraphs pe d) "Audit Declaration dates" =
      lookupSec d "Audit Declaration dates" := by
  unfold mtdParagraphs
  exact lookupSec_updSec_ne _ _ _ _ (by decide)

theorem lookupSec_forceFill_decl (tables : List PTable) (d : MDoc) :
    lookupSec (_force_fill_maintenance_from_tables tables d) "Audit Declaration dates" =
      lookupSec d "Audit Declaration dates" := by
  simp only [_force_fill_maintenance_from_tables]
  split
  · rfl
  · exact lookupSec_updSec_ne _ _ _ _ (by decide)

theorem isDigit09_eq_false_of_space {c : Char} (h : isSpacePy c = true) :
    isDigit09 c = false := by
  have h2 : c = ' ' ∨ c = '\t' ∨ c = '\n' ∨ c = '\r' ∨ c = '\x0b' ∨ c = '\x0c' := by
    simpa [isSpacePy, or_assoc] using h
  rcases h2 with h2 | h2 | h2 | h2 | h2 | h2 <;> subst h2 <;> decide

theorem any_of_sublist {p : Char → Bool} {l1 l2 : List Char} (hs : l1.Sublist l2)
    (h : l1.any p = true) : l2.any p = true := by
  rw [List.any_eq_true] at h ⊢
  rcases h with ⟨c, hc, hpc⟩
  exact ⟨c, hs.subset hc, hpc⟩

theorem sublist_pairInsert (need : Char → Char → Bool) (l : List Char) :
    l.Sublist (pairInsert need l) := by
  induction l with
  | nil => exact List.Sublist.refl []
  | cons a t ih =>
    cases t with
    | nil => exact List.Sublist.refl [a]
    | cons b t2 =>
      show (a :: b :: t2).Sublist
        ((if need a b then [a, ' '] else [a]) ++ pairInsert need (b :: t2))
      by_cases hn : need a b = true
      · rw [if_pos hn]
        exact List.Sublist.cons₂ a (List.Sublist.cons ' ' ih)
      · rw [if_neg hn]
        exact List.Sublist.cons₂ a ih

theorem sublist_subUpperRunDigit_go (l : List Char) :
    ∀ f : Bool, l.Sublist (subUpperRunDigit.go l f) := by
  induction l with
  | nil => intro f; exact List.Sublist.refl []
  | cons a t ih =>
    intro f
    cases t with
    | nil => exact List.Sublist.refl [a]
    | cons b t2 =>
      rw [show subUpperRunDigit.go (a :: b :: t2) f =
          (if f && isUpperAZ a && isDigit09 b then
            a :: ' ' :: subUpperRunDigit.go (b :: t2) false
          else a :: subUpperRunDigit.go (b :: t2) (isUpperAZ a)) from rfl]
      split
      · exact List.Sublist.cons₂ a (List.Sublist.cons ' ' (ih false))
      · exact List.Sublist.cons₂ a (ih (isUpperAZ a))

theorem sublist_subUpperRunDigit (l : List Char) : l.Sublist (subUpperRunDigit l) :=
  sublist_subUpperRunDigit_go l false

theorem startsWithCh_take (pat : List Char) :
    ∀ l, startsWithCh pat l = true → l.take pat.length = pat := by
  induction pat with
  | nil => intro l _; simp
  | cons a as ih =>
    intro l h
    cases l with
    | nil => simp [startsWithCh] at h
    | cons b bs =>
      simp only [startsWithCh, Bool.and_eq_true, beq_iff_eq] at h
      rcases h with ⟨hab, hrest⟩
      simp only [List.length_cons, List.take_succ_cons]
      rw [ih bs hrest, hab]

theorem any_digit_replaceSubCh (pat rep : List Char) (hpat : pat.any isDigit09 = false) :
    ∀ l : List Char, l.any isDigit09 = true →
      (replaceSubCh pat rep l).any isDigit09 = true := by
  intro l
  induction l using replaceSubCh.induct pat rep with
  | case1 =>
    intro h
    simp at h
  | case2 c t hcond ih =>
    intro h
    rw [show replaceSubCh pat rep (c :: t) =
        rep ++ replaceSubCh pat rep ((c :: t).drop pat.length) from by
      rw [replaceSubCh]
      rw [if_pos hcond]]
    rw [List.any_append]
    have hsw : startsWithCh pat (c :: t) = true := (Bool.and_eq_true_iff.mp hcond).2
    have hsplit : c :: t = pat ++ (c :: t).drop pat.length := by
      conv_lhs => rw [← List.take_append_drop pat.length (c :: t)]
      rw [startsWithCh_take pat (c :: t) hsw]
    rw [hsplit, List.any_append, hpat, Bool.false_or] at h
    rw [ih h]
    simp
  | case3 c t hcond ih =>
    intro h
    rw [show replaceSubCh pat rep (c :: t) = c :: replaceSubCh pat rep t from by
      rw [replaceSubCh]
      rw [if_neg hcond]]
    rw [List.any_cons] at h ⊢
    rcases Bool.or_eq_true_iff.mp h with h | h
    · rw [h]
      simp
    · rw [ih h]
      simp

theorem any_digit_ordinalFixGo (p : Bool) (l : List Char) :
    l.any isDigit09 = true → (ordinalFixGo p l).any isDigit09 = true := by
  induction p, l using ordinalFixGo.induct with
  | case1 p =>
    intro h
    simp at h
  | case2 p c t hcond ds rest1 hsuf ih =>
    intro _
    have hp : (!p) = true := (Bool.and_eq_true_iff.mp hcond).1
    have hdig : isDigit09 c = true := (Bool.and_eq_true_iff.mp hcond).2
    simp [ordinalFixGo, hp, hdig, hsuf]
  | case3 p c t hcond ds rest1 hsuf ih =>
    intro _
    have hp : (!p) = true := (Bool.and_eq_true_iff.mp hcond).1
    have hdig : isDigit09 c = true := (Bool.and_eq_true_iff.mp hcond).2
    simp [ordinalFixGo, hp, hdig, hsuf]
  | case4 p c t hcond ih =>
    intro h
    simp only [ordinalFixGo, hcond, Bool.false_eq_true, if_false, List.any_cons]
    rw [List.any_cons] at h
    rcases Bool.or_eq_true_iff.mp h with h | h
    · rw [h]
      simp
    · rw [ih h]
      simp

theorem any_digit_dropWhile_space (l : List Char) (h : l.any isDigit09 = true) :
    (l.dropWhile isSpacePy).any isDigit09 = true := by
  rcases List.any_eq_true.mp h with ⟨c, hc, hd⟩
  rw [← List.takeWhile_append_dropWhile isSpacePy l] at hc
  rcases List.mem_append.mp hc with h1 | h1
  · have hsp := List.mem_takeWhile_imp h1
    rw [isDigit09_eq_false_of_space hsp] at hd
    exact absurd hd (by simp)
  · exact List.any_eq_true.mpr ⟨c, h1, hd⟩

theorem any_digit_pyStrip (s : String) (h : s.data.any isDigit09 = true) :
    (pyStrip s).data.any isDigit09 = true := by
  show (((s.data.dropWhile isSpacePy).reverse.dropWhile isSpacePy).reverse).any isDigit09 = true
  rw [List.any_reverse]
  apply any_digit_dropWhile_space
  rw [List.any_reverse]
  exact any_digit_dropWhile_space _ h

theorem any_digit_collapseWsCh (l : List Char) :
    l.any isDigit09 = true → (collapseWsCh l).any isDigit09 = true := by
  induction l using collapseWsCh.induct with
  | case1 =>
    intro h
    simp at h
  | case2 c t hsp ih =>
    intro h
    simp only [collapseWsCh, hsp, if_true, List.any_cons]
    rw [List.any_cons, isDigit09_eq_false_of_space hsp, Bool.false_or] at h
    rw [ih (any_digit_dropWhile_space t h)]
    simp
  | case3 c t hsp ih =>
    intro h
    simp only [collapseWsCh, hsp, Bool.false_eq_true, if_false, List.any_cons]
    rw [List.any_cons] at h
    rcases Bool.or_eq_true_iff.mp h with h | h
    · rw [h]
      simp
    · rw [ih h]
      simp

theorem any_digit_normalize_text (s : String) (h : s.data.any isDigit09 = true) :
    (normalize_text s).data.any isDigit09 = true := by
  show (collapseWsCh (pyStrip s).data).any isDigit09 = true
  exact any_digit_collapseWsCh _ (any_digit_pyStrip s h)

theorem any_digit_smart_space (s : String) (h : s.data.any isDigit09 = true) :
    (_smart_space s).data.any isDigit09 = true := by
  unfold _smart_space
  by_cases hs : s = ""
  · subst hs
    simp at h
  · rw [if_neg hs]
    have h1 : (pairInsert (fun a b => isLowerAZ a && isUpperAZ b) s.data).any isDigit09 = true :=
      any_of_sublist (sublist_pairInsert _ _) h
    have h2 : (pairInsert (fun a b => isAlphaAZ a && isDigit09 b)
        (pairInsert (fun a b => isLowerAZ a && isUpperAZ b) s.data)).any isDigit09 = true :=
      any_of_sublist (sublist_pairInsert _ _) h1
    have h3 := any_of_sublist (sublist_pairInsert (fun a b => isDigit09 a && isAlphaAZ b) _) h2
    have h4 := any_of_sublist (sublist_subUpperRunDigit _) h3
    have h5 := any_digit_replaceSubCh "POBox".data "PO Box".data (by decide) _ h4
    have h6 := any_digit_ordinalFixGo false _ h5
    exact any_digit_normalize_text _ h6

theorem isUpperAZ_eq_false_of_digit {c : Char} (h : isDigit09 c = true) :
    isUpperAZ c = false := by
  rcases Bool.and_eq_true_iff.mp h with ⟨_, h2⟩
  have hz : c ≤ '9' := of_decide_eq_true h2
  by_contra hl
  have hl' : isUpperAZ c = true := by simpa using hl
  rcases Bool.and_eq_true_iff.mp hl' with ⟨h3, _⟩
  have ha : 'A' ≤ c := of_decide_eq_true h3
  have : ('A' : Char) ≤ '9' := le_trans ha hz
  exact absurd this (by decide)

theorem lowCh_eq_self_of_digit {c : Char} (h : isDigit09 c = true) : lowCh c = c := by
  unfold lowCh
  rw [isUpperAZ_eq_false_of_digit h]
  rfl

theorem any_digit_pyLower (s : String) (h : s.data.any isDigit09 = true) :
    (pyLower s).data.any isDigit09 = true := by
  rcases List.any_eq_true.mp h with ⟨c, hc, hd⟩
  apply List.any_eq_true.mpr
  refine ⟨lowCh c, List.mem_map_of_mem lowCh hc, ?_⟩
  rw [lowCh_eq_self_of_digit hd]
  exact hd

theorem pyLower_strip_ne_date (w : String) (h : w.data.any isDigit09 = true) :
    ¬pyLower (pyStrip w) = "date" := by
  intro he
  have h1 : (pyLower (pyStrip w)).data.any isDigit09 = true :=
    any_digit_pyLower _ (any_digit_pyStrip w h)
  rw [he] at h1
  exact absurd h1 (by decide)

theorem mtdAuditDecl_eq (pe : PdfExtracted) (d : MDoc) :
    mtdAuditDecl pe d = updSec d "Audit Declaration dates"
      (fun sec => setIf (_real_date (auditCandidate pe)) "Audit was conducted on"
        [_smart_space (auditCandidate pe)] sec) := rfl

theorem lookupLabel_mtdAuditDecl (pe : PdfExtracted) (d : MDoc) :
    lookupLabel (mtdAuditDecl pe d) "Audit Declaration dates" "Audit was conducted on" =
      lookupLabel d "Audit Declaration dates" "Audit was conducted on" ∨
    (_real_date (auditCandidate pe) = true ∧
      lookupLabel (mtdAuditDecl pe d) "Audit Declaration dates" "Audit was conducted on" =
        some [_smart_space (auditCandidate pe)]) := by
  rw [mtdAuditDecl_eq]
  unfold lookupLabel
  rw [lookupSec_updSec_eq]
  cases hsec : lookupSec d "Audit Declaration dates" with
  | none => left; rfl
  | some sec =>
    by_cases hreal : _real_date (auditCandidate pe) = true
    · right
      refine ⟨hreal, ?_⟩
      simp only [Option.map_some', Option.some_bind, setIf, hreal, if_true, find?_setL_self]
    · left
      have hf : _real_date (auditCandidate pe) = false := by
        cases h2 : _real_date (auditCandidate pe)
        · rfl
        · exact absurd h2 hreal
      simp only [Option.map_some', Option.some_bind, setIf, hf, Bool.false_eq_true, if_false]

/-- C5: the merger never writes a digitless candidate, nor the literal
placeholder word `Date` (case-insensitively), into the
`Audit Declaration dates` → `Audit was conducted on` label: for every input,
either that label is left exactly as in the DOCX-side input, or the written
value is a single string that contains at least one digit and is not
case-insensitively `date`; concretely, the extracted candidate
`13th November 2024` is written, while the candidate `Date` leaves the
document unchanged. -/
theorem C5_audit_date_guard :
    (∀ (fat : List String → Option (String × String)) (pe : PdfExtracted) (docx : MDoc)
        (tables : List PTable),
      lookupLabel (merge_pdf_to_docx fat docx pe tables) "Audit Declaration dates"
          "Audit was conducted on" =
        lookupLabel docx "Audit Declaration dates" "Audit was conducted on" ∨
      ∃ w, lookupLabel (merge_pdf_to_docx fat docx pe tables) "Audit Declaration dates"
            "Audit was conducted on" = some [w] ∧
          w.data.any isDigit09 = true ∧ ¬pyLower (pyStrip w) = "date") ∧
    lookupLabel (merge_pdf_to_docx (fun _ => none) c5Doc c5pe []) "Audit Declaration dates"
        "Audit was conducted on" = some ["13th November 2024"] ∧
    merge_pdf_to_docx (fun _ => none) c5Doc c5peBad [] = c5Doc := by
  refine ⟨?_, ?_, ?_⟩
  · intro fat pe docx tables
    unfold merge_pdf_to_docx map_to_docx_structure
    have houter : ∀ d : MDoc,
        lookupLabel (_force_fill_maintenance_from_tables tables
            (mtdParagraphs pe (mtdOperatorDecl fat pe d)))
          "Audit Declaration dates" "Audit was conducted on" =
        lookupLabel d "Audit Declaration dates" "Audit was conducted on" := by
      intro d
      unfold lookupLabel
      rw [lookupSec_forceFill_decl, lookupSec_mtdParagraphs_decl,
        lookupSec_mtdOperatorDecl_decl]
    rw [houter]
    have hinner : lookupSec (mtdPrintAccreditation pe (mtdDrivers pe (mtdVehicleSections pe
        (mtdSummaries tables (mtdVehicleSummary pe (mtdBusiness pe (mtdAttendance pe
          (mtdContact pe (mtdOperatorInfo pe (mtdAuditInfo pe docx))))))))))
        "Audit Declaration dates" = lookupSec docx "Audit Declaration dates" := by
      rw [lookupSec_mtdPrintAccreditation_decl, lookupSec_mtdDrivers_decl,
        lookupSec_mtdVehicleSections_decl, lookupSec_mtdSummaries_decl,
        lookupSec_mtdVehicleSummary_decl, lookupSec_mtdBusiness_decl,
        lookupSec_mtdAttendance_decl, lookupSec_mtdContact_decl,
        lookupSec_mtdOperatorInfo_decl, lookupSec_mtdAuditInfo_decl]
    rcases lookupLabel_mtdAuditDecl pe
        (mtdPrintAccreditation pe (mtdDrivers pe (mtdVehicleSections pe
          (mtdSummaries tables (mtdVehicleSummary pe (mtdBusiness pe (mtdAttendance pe
            (mtdContact pe (mtdOperatorInfo pe (mtdAuditInfo pe docx)))))))))) with
      hcase | hcase
    · left
      rw [hcase]
      unfold lookupLabel
      rw [hinner]
    · right
      rcases hcase with ⟨hreal, hval⟩
      have hd : (auditCandidate pe).data.any isDigit09 = true := by
        unfold _real_date at hreal
        exact (Bool.and_eq_true_iff.mp (Bool.and_eq_true_iff.mp hreal).1).2
      exact ⟨_smart_space (auditCandidate pe), hval,
        any_digit_smart_space _ hd,
        pyLower_strip_ne_date _ (any_digit_smart_space _ hd)⟩
  · unfold merge_pdf_to_docx map_to_docx_structure lookupLabel
    rw [lookupSec_forceFill_decl, lookupSec_mtdParagraphs_decl,
      lookupSec_mtdOperatorDecl_decl, mtdAuditDecl_eq, lookupSec_updSec_eq,
      lookupSec_mtdPrintAccreditation_decl, lookupSec_mtdDrivers_decl,
      lookupSec_mtdVehicleSections_decl, lookupSec_mtdSummaries_decl,
      lookupSec_mtdVehicleSummary_decl, lookupSec_mtdBusiness_decl,
      lookupSec_mtdAttendance_decl, lookupSec_mtdContact_decl,
      lookupSec_mtdOperatorInfo_decl, lookupSec_mtdAuditInfo_decl]
    have hsec : lookupSec c5Doc "Audit Declaration dates" =
        some [("Audit was conducted on", ["Date"])] := rfl
    rw [hsec]
    have hreal : _real_date (auditCandidate c5pe) = true := by decide
    simp only [Option.map_some', Option.some_bind, setIf, hreal, if_true, find?_setL_self]
    have hss : _smart_space (auditCandidate c5pe) = "13th November 2024" := by
      have hac : auditCandidate c5pe = "13th November 2024" := by decide
      rw [hac]
      simp +decide [_smart_space, pairInsert, subUpperRunDigit, subUpperRunDigit.go,
        replaceSubCh, ordinalFix, ordinalFixGo, normalize_text, pyStrip, collapseWsCh,
        isSpacePy, isDigit09, isUpperAZ, isLowerAZ, isAlphaAZ, isWordChar, ordSuffixOk,
        startsWithCh, isAlnumAZ09]
    rw [hss]
  · rfl

theorem collapseWsGo_true_dropWhile (t : List Char) :
    collapseWsGo true t = collapseWsGo false (t.dropWhile isSpacePy) := by
  induction t with
  | nil => rfl
  | cons d t ih =>
    by_cases hd : isSpacePy d = true
    · rw [show collapseWsGo true (d :: t) =
          (if isSpacePy d then collapseWsGo true t else d :: collapseWsGo false t) from rfl]
      rw [hd, if_pos rfl, List.dropWhile_cons, hd, if_pos rfl, ih]
    · have hd' : isSpacePy d = false := by
        cases h2 : isSpacePy d
        · rfl
        · exact absurd h2 hd
      rw [show collapseWsGo true (d :: t) =
          (if isSpacePy d then collapseWsGo true t else d :: collapseWsGo false t) from rfl]
      rw [List.dropWhile_cons, hd']
      simp only [Bool.false_eq_true, if_false]
      have hexp : collapseWsGo false (d :: t) =
          (if isSpacePy d then ' ' :: collapseWsGo true t else d :: collapseWsGo false t) := rfl
      rw [hexp, hd']
      simp only [Bool.false_eq_true, if_false]

theorem collapseWsCh_eq_go (l : List Char) : collapseWsCh l = collapseWsGo false l := by
  induction l using collapseWsCh.induct with
  | case1 =>
    simp only [collapseWsCh]
    rfl
  | case2 c t hsp ih =>
    simp only [collapseWsCh, hsp, if_true]
    rw [show collapseWsGo false (c :: t) =
        (if isSpacePy c then ' ' :: collapseWsGo true t else c :: collapseWsGo false t) from by
      rw [show collapseWsGo false (c :: t) =
          (if isSpacePy c then
            (if false then collapseWsGo true t else ' ' :: collapseWsGo true t)
          else c :: collapseWsGo false t) from rfl]
      simp only [Bool.false_eq_true, if_false]]
    rw [hsp, if_pos rfl, ih, collapseWsGo_true_dropWhile]
  | case3 c t hsp ih =>
    have hsp' : isSpacePy c = false := by
      cases h2 : isSpacePy c
      · rfl
      · exact absurd h2 hsp
    simp only [collapseWsCh, hsp', Bool.false_eq_true, if_false]
    rw [show collapseWsGo false (c :: t) =
        (if isSpacePy c then
          (if false then collapseWsGo true t else ' ' :: collapseWsGo true t)
        else c :: collapseWsGo false t) from rfl]
    rw [hsp']
    simp only [Bool.false_eq_true, if_false]
    rw [ih]

/-- C8 counterexample: on a maintenance vehicle table whose auto-detected
header-row count is 2 (the first row-number cell `1.` sits in the third row),
`fill_vehicle_table` keeps only one header row: the rewritten table has 2 rows
(one hardcoded header plus one record) and its first two rows do not equal the
original first two rows, so the auto-detected header block is not preserved. -/
theorem C8_counterexample :
    count_header_rows c8Table 6 = 2 ∧
    (fill_vehicle_table c8Table "maintenance" c8Arrays).map
      (fun T => (T.rows.length, decide (T.rows.take 2 = c8Table.rows.take 2))) =
      some (2, false) := by
  constructor
  · decide
  · simp only [fill_vehicle_table, map_cols, w_canon, normalize_text, collapseWsCh_eq_go]
    decide

theorem take_set_of_le {α : Type} (l : List α) (i : Nat) (a : α) (n : Nat) (h : n ≤ i) :
    (l.set i a).take n = l.take n := by
  induction l generalizing i n with
  | nil => simp
  | cons b t ih =>
    cases i with
    | zero =>
      have hn : n = 0 := Nat.le_zero.mp h
      subst hn
      simp
    | succ i2 =>
      cases n with
      | zero => simp
      | succ n2 =>
        show b :: (t.set i2 a).take n2 = b :: t.take n2
        rw [ih i2 n2 (Nat.succ_le_succ_iff.mp h)]

theorem updateRowCellAt_preserve (rows : List DRow) (i j : Nat) (f : DCell → DCell)
    (rows2 : List DRow) (h : updateRowCellAt rows i j f = some rows2) :
    rows2.length = rows.length ∧ ∀ n, n ≤ i → rows2.take n = rows.take n := by
  have hexp : updateRowCellAt rows i j f =
      (if i < rows.length then
        (if j < (rows.getD i ⟨[]⟩).cells.length then
          some (rows.set i
            ⟨(rows.getD i ⟨[]⟩).cells.set j (f ((rows.getD i ⟨[]⟩).cells.getD j ⟨[]⟩))⟩)
        else none)
      else none) := rfl
  rw [hexp] at h
  split at h
  · split at h
    · injection h with h3
      subst h3
      refine ⟨List.length_set _ _ _, fun n hn => take_set_of_le _ _ _ _ hn⟩
    · exact absurd h (by simp)
  · exact absurd h (by simp)

theorem putCellSkip_preserve (rows : List DRow) (ri : Nat) (cm : List (String × Nat))
    (key : String) (vals : List String) (i : Nat) (rows2 : List DRow)
    (h : putCellSkip rows ri cm key vals i = some rows2) :
    rows2.length = rows.length ∧ ∀ n, n ≤ ri → rows2.take n = rows.take n := by
  unfold putCellSkip at h
  cases hlk : cm.lookup key with
  | none =>
    simp only [hlk] at h
    injection h with h3
    subst h3
    exact ⟨rfl, fun n _ => rfl⟩
  | some j =>
    simp only [hlk] at h
    split at h
    · exact updateRowCellAt_preserve _ _ _ _ _ h
    · injection h with h3
      subst h3
      exact ⟨rfl, fun n _ => rfl⟩

theorem putCellPad_preserve (rows : List DRow) (ri : Nat) (cm : List (String × Nat))
    (key : String) (vals : List String) (i : Nat) (rows2 : List DRow)
    (h : putCellPad rows ri cm key vals i = some rows2) :
    rows2.length = rows.length ∧ ∀ n, n ≤ ri → rows2.take n = rows.take n := by
  unfold putCellPad at h
  cases hlk : cm.lookup key with
  | none =>
    simp only [hlk] at h
    injection h with h3
    subst h3
    exact ⟨rfl, fun n _ => rfl⟩
  | some j =>
    simp only [hlk] at h
    exact updateRowCellAt_preserve _ _ _ _ _ h

theorem foldl_bind_none {α β : Type} (g : List α → β → Option (List α)) :
    ∀ l : List β, l.foldl (fun acc e => acc.bind (fun x => g x e)) none = none := by
  intro l
  induction l with
  | nil => rfl
  | cons a t ih =>
    rw [List.foldl_cons]
    exact ih

theorem entriesFold_preserve
    (put : List DRow → Nat → List (String × Nat) → String → List String → Nat →
      Option (List DRow))
    (hput : ∀ rows ri cm key vals i rows2, put rows ri cm key vals i = some rows2 →
      rows2.length = rows.length ∧ ∀ n, n ≤ ri → rows2.take n = rows.take n)
    (ri : Nat) (cm : List (String × Nat)) (i : Nat) :
    ∀ (entries : List (String × List String)) (rows rows2 : List DRow),
      entries.foldl (fun acc e => acc.bind (fun rows => put rows ri cm e.1 e.2 i))
        (some rows) = some rows2 →
      rows2.length = rows.length ∧ ∀ n, n ≤ ri → rows2.take n = rows.take n := by
  intro entries
  induction entries with
  | nil =>
    intro rows rows2 h
    injection h with h3
    subst h3
    exact ⟨rfl, fun n _ => rfl⟩
  | cons e es ih =>
    intro rows rows2 h
    rw [List.foldl_cons] at h
    simp only [Option.some_bind] at h
    cases hp : put rows ri cm e.1 e.2 i with
    | none =>
      rw [hp, foldl_bind_none (fun x e => put x ri cm e.1 e.2 i) es] at h
      exact absurd h (by simp)
    | some rmid =>
      rw [hp] at h
      rcases ih rmid rows2 h with ⟨hl1, ht1⟩
      rcases hput rows ri cm e.1 e.2 i rmid hp with ⟨hl2, ht2⟩
      exact ⟨hl1.trans hl2, fun n hn => (ht1 n hn).trans (ht2 n hn)⟩

theorem fillRowsLoop_fold_preserve
    (put : List DRow → Nat → List (String × Nat) → String → List String → Nat →
      Option (List DRow))
    (hput : ∀ rows ri cm key vals i rows2, put rows ri cm key vals i = some rows2 →
      rows2.length = rows.length ∧ ∀ n, n ≤ ri → rows2.take n = rows.take n)
    (regJ : Nat) (cm : List (String × Nat)) (hdr : Nat) (regs : List String)
    (entries : List (String × List String)) :
    ∀ (idxs : List Nat) (rows rows2 : List DRow),
      idxs.foldl
        (fun acc i =>
          acc.bind
            (fun rows =>
              (updateRowCellAt rows (hdr + i) regJ
                (fun c => replace_red_in_cell c (w_nz (regs.getD i "")))).bind
              (fun rows =>
                entries.foldl
                  (fun acc e => acc.bind (fun rows => put rows (hdr + i) cm e.1 e.2 i))
                  (some rows))))
        (some rows) = some rows2 →
      rows2.length = rows.length ∧ rows2.take hdr = rows.take hdr := by
  intro idxs
  induction idxs with
  | nil =>
    intro rows rows2 h
    injection h with h3
    subst h3
    exact ⟨rfl, rfl⟩
  | cons i is ih =>
    intro rows rows2 h
    rw [List.foldl_cons] at h
    simp only [Option.some_bind] at h
    cases hupd : updateRowCellAt rows (hdr + i) regJ
        (fun c => replace_red_in_cell c (w_nz (regs.getD i ""))) with
    | none =>
      rw [hupd] at h
      simp only [Option.none_bind] at h
      rw [foldl_bind_none] at h
      exact absurd h (by simp)
    | some rmid1 =>
      rw [hupd] at h
      simp only [Option.some_bind] at h
      cases hstep : entries.foldl
          (fun acc e => acc.bind (fun rows => put rows (hdr + i) cm e.1 e.2 i))
          (some rmid1) with
      | none =>
        rw [hstep] at h
        rw [foldl_bind_none] at h
        exact absurd h (by simp)
      | some rmid2 =>
        rw [hstep] at h
        rcases ih rmid2 rows2 h with ⟨hl1, ht1⟩
        rcases entriesFold_preserve put hput (hdr + i) cm i entries rmid1 rmid2 hstep with
          ⟨hl2, ht2⟩
        rcases updateRowCellAt_preserve rows (hdr + i) regJ _ rmid1 hupd with ⟨hl3, ht3⟩
        refine ⟨(hl1.trans hl2).trans hl3, ?_⟩
        rw [ht1, ht2 hdr (Nat.le_add_right hdr i), ht3 hdr (Nat.le_add_right hdr i)]

theorem fillRowsLoop_preserve
    (put : List DRow → Nat → List (String × Nat) → String → List String → Nat →
      Option (List DRow))
    (hput : ∀ rows ri cm key vals i rows2, put rows ri cm key vals i = some rows2 →
      rows2.length = rows.length ∧ ∀ n, n ≤ ri → rows2.take n = rows.take n)
    (regJ : Nat) (cm : List (String × Nat)) (hdr : Nat) (regs : List String)
    (entries : List (String × List String)) (rows rows2 : List DRow)
    (h : fillRowsLoop put regJ cm hdr regs entries rows = some rows2) :
    rows2.length = rows.length ∧ rows2.take hdr = rows.take hdr :=
  fillRowsLoop_fold_preserve put hput regJ cm hdr regs entries (List.range regs.length)
    rows rows2 h

theorem map_cols_rows_ne (t : WTable) (want : String) (cm : List (String × Nat))
    (h : map_cols t want = some cm) : t.rows ≠ [] := by
  intro he
  unfold map_cols at h
  rw [he] at h
  exact absurd h (by simp)

theorem mass_reg_rows_ne (t : WTable) (j : Nat)
    (h : (map_cols_mass_strict t).lookup "reg" = some j) : t.rows ≠ [] := by
  intro he
  obtain ⟨rows, grid⟩ := t
  have he2 : rows = [] := he
  subst he2
  have hz : map_cols_mass_strict ⟨[], grid⟩ = [] := rfl
  rw [hz] at h
  exact absurd h (by simp)

theorem count_header_rows_le (t : WTable) (hne : t.rows ≠ []) :
    count_header_rows t 6 ≤ t.rows.length := by
  simp only [count_header_rows]
  split
  next i hf =>
    have hmem : i ∈ List.range (min 6 t.rows.length) := List.mem_of_find?_eq_some hf
    have h2 : i < min 6 t.rows.length := List.mem_range.mp hmem
    exact Nat.le_of_lt (lt_of_lt_of_le h2 (Nat.min_le_right _ _))
  next hf =>
    exact List.length_pos.mpr hne

/-- C8 (amended): once a registration column is mapped, both vehicle-table
writers produce exactly one rendered row per merged Registration Number entry
and preserve exactly the header rows they clear down to — the hardcoded single
header row for `fill_vehicle_table` (not the auto-detected count: see the
counterexample), and the auto-detected `count_header_rows` rows for
`fill_mass_vehicle_table_preserve_headers`. -/
theorem C8_fill_row_counts (t : WTable) (want : String) (arrays : Sec) :
    (∀ colmap regJ T2, map_cols t want = some colmap → colmap.lookup "reg" = some regJ →
      fill_vehicle_table t want arrays = some T2 →
      T2.rows.length = 1 + ((arrays.lookup "Registration Number").getD []).length ∧
      T2.rows.take 1 = t.rows.take 1) ∧
    (∀ regJ T2, (map_cols_mass_strict t).lookup "reg" = some regJ →
      fill_mass_vehicle_table_preserve_headers t arrays = some T2 →
      T2.rows.length = count_header_rows t 6 +
        ((arrays.lookup "Registration Number").getD []).length ∧
      T2.rows.take (count_header_rows t 6) = t.rows.take (count_header_rows t 6)) := by
  constructor
  · intro colmap regJ T2 hmc hreg hfill
    have hne : t.rows ≠ [] := map_cols_rows_ne t want colmap hmc
    have hpos : 1 ≤ t.rows.length := List.length_pos.mpr hne
    unfold fill_vehicle_table at hfill
    simp only [hmc, hreg] at hfill
    rw [Option.map_eq_some'] at hfill
    rcases hfill with ⟨rowsf, hloop, hT⟩
    have hTrows : T2.rows = rowsf := by rw [← hT]
    rcases fillRowsLoop_preserve putCellSkip putCellSkip_preserve _ _ _ _ _ _ _ hloop with
      ⟨hlen, htake⟩
    have hlen1 : (t.rows.take 1).length = 1 := by
      rw [List.length_take]
      exact Nat.min_eq_left hpos
    constructor
    · rw [hTrows, hlen, List.length_append, List.length_replicate, hlen1]
      omega
    · rw [hTrows, htake, List.take_append_of_le_length (le_of_eq hlen1.symm),
        List.take_of_length_le (le_of_eq hlen1)]
  · intro regJ T2 hreg hfill
    have hne : t.rows ≠ [] := mass_reg_rows_ne t regJ hreg
    have hhdr : count_header_rows t 6 ≤ t.rows.length := count_header_rows_le t hne
    unfold fill_mass_vehicle_table_preserve_headers at hfill
    simp only [hreg] at hfill
    rw [Option.map_eq_some'] at hfill
    rcases hfill with ⟨rowsf, hloop, hT⟩
    have hTrows : T2.rows = rowsf := by rw [← hT]
    rcases fillRowsLoop_preserve putCellPad putCellPad_preserve _ _ _ _ _ _ _ hloop with
      ⟨hlen, htake⟩
    have hlenh : (t.rows.take (count_header_rows t 6)).length = count_header_rows t 6 := by
      rw [List.length_take]
      exact Nat.min_eq_left hhdr
    constructor
    · rw [hTrows, hlen, List.length_append, List.length_replicate, hlenh]
      omega
    · rw [hTrows, htake, List.take_append_of_le_length (le_of_eq hlenh.symm),
        List.take_of_length_le (le_of_eq hlenh)]

theorem C8_fill_row_counts_witness :
    map_cols c8Table "maintenance" = some [("reg", 0), ("mr", 1), ("rep", 2)] ∧
    ([("reg", 0), ("mr", 1), ("rep", 2)] : List (String × Nat)).lookup "reg" = some 0 ∧
    fill_vehicle_table c8Table "maintenance" c8Arrays = some c8Result ∧
    c8Result.rows.length = 1 + ((c8Arrays.lookup "Registration Number").getD []).length ∧
    c8Result.rows.take 1 = c8Table.rows.take 1 := by
  have h1 : map_cols c8Table "maintenance" = some [("reg", 0), ("mr", 1), ("rep", 2)] := by
    simp only [map_cols, w_canon, normalize_text, collapseWsCh_eq_go]
    decide
  have h2 : ([("reg", 0), ("mr", 1), ("rep", 2)] : List (String × Nat)).lookup "reg" =
      some 0 := by decide
  have h3 : fill_vehicle_table c8Table "maintenance" c8Arrays = some c8Result := by
    simp only [fill_vehicle_table, map_cols, w_canon, normalize_text, collapseWsCh_eq_go]
    decide
  exact ⟨h1, h2, h3,
    (C8_fill_row_counts c8Table "maintenance" c8Arrays).1 _ _ _ h1 h2 h3⟩

theorem bestFold_char (c : TableContext) :
    ∀ (l : List (String × Schema)) (acc : Option String × ℚ),
      (l.foldl (bestStep c) acc = acc ∧
        ∀ q ∈ l, calculate_schema_match_score q.1 q.2 c ≤ acc.2) ∨
      (∃ l1 p l2, l = l1 ++ p :: l2 ∧
        l.foldl (bestStep c) acc = (some p.1, calculate_schema_match_score p.1 p.2 c) ∧
        acc.2 < calculate_schema_match_score p.1 p.2 c ∧
        (∀ q ∈ l1, calculate_schema_match_score q.1 q.2 c <
          calculate_schema_match_score p.1 p.2 c) ∧
        (∀ q ∈ l2, calculate_schema_match_score q.1 q.2 c ≤
          calculate_schema_match_score p.1 p.2 c)) := by
  intro l
  induction l with
  | nil =>
    intro acc
    exact Or.inl ⟨rfl, fun q hq => absurd hq (List.not_mem_nil q)⟩
  | cons a l ih =>
    intro acc
    rw [List.foldl_cons]
    by_cases ha : acc.2 < calculate_schema_match_score a.1 a.2 c
    · have hstep : bestStep c acc a = (some a.1, calculate_schema_match_score a.1 a.2 c) := by
        unfold bestStep
        rw [if_pos ha]
      rw [hstep]
      rcases ih (some a.1, calculate_schema_match_score a.1 a.2 c) with ⟨hres, hall⟩ |
        ⟨l1, p, l2, heq, hres, hgt, hl1, hl2⟩
      · refine Or.inr ⟨[], a, l, rfl, hres, ha, fun q hq => absurd hq (List.not_mem_nil q),
          fun q hq => hall q hq⟩
      · refine Or.inr ⟨a :: l1, p, l2, by rw [heq, List.cons_append], hres, lt_trans ha hgt, ?_, hl2⟩
        intro q hq
        rcases List.mem_cons.mp hq with hq | hq
        · rw [hq]
          exact hgt
        · exact hl1 q hq
    · have hstep : bestStep c acc a = acc := by
        unfold bestStep
        rw [if_neg ha]
      rw [hstep]
      have hale : calculate_schema_match_score a.1 a.2 c ≤ acc.2 := le_of_not_lt ha
      rcases ih acc with ⟨hres, hall⟩ | ⟨l1, p, l2, heq, hres, hgt, hl1, hl2⟩
      · refine Or.inl ⟨hres, fun q hq => ?_⟩
        rcases List.mem_cons.mp hq with hq | hq
        · rw [hq]
          exact hale
        · exact hall q hq
      · refine Or.inr ⟨a :: l1, p, l2, by rw [heq, List.cons_append], hres, hgt, ?_, hl2⟩
        intro q hq
        rcases List.mem_cons.mp hq with hq | hq
        · rw [hq]
          exact lt_of_le_of_lt hale hgt
        · exact hl1 q hq

theorem runsOf_eq_go_aux (keep : Char → Bool) :
    ∀ (n : Nat) (l : List Char), l.length ≤ n → runsOf keep l = runsOfGo keep l := by
  intro n
  induction n with
  | zero =>
    intro l hl
    have : l = [] := List.eq_nil_of_length_eq_zero (Nat.le_zero.mp hl)
    subst this
    simp only [runsOf]
    rfl
  | succ n ih =>
    intro l hl
    cases l with
    | nil =>
      simp only [runsOf]
      rfl
    | cons c t =>
      by_cases hc : keep c = true
      · cases t with
        | nil =>
          simp only [runsOf, hc, if_true, List.takeWhile_nil, List.dropWhile_nil]
          rw [show runsOfGo keep [c] = (if keep c then [[c]] else runsOfGo keep []) from rfl, hc]
          simp
        | cons d t2 =>
          have hlen : (d :: t2).length ≤ n := by
            simp only [List.length_cons] at hl ⊢
            omega
          by_cases hd : keep d = true
          · simp only [runsOf, hc, if_true, List.takeWhile_cons, hd, List.dropWhile_cons]
            have hgo : runsOfGo keep (c :: d :: t2) =
                (match runsOfGo keep (d :: t2) with
                 | r :: rs => (c :: r) :: rs
                 | [] => [[c]]) := by
              rw [show runsOfGo keep (c :: d :: t2) =
                  (if keep c then
                    (if keep d then
                      (match runsOfGo keep (d :: t2) with
                       | r :: rs => (c :: r) :: rs
                       | [] => [[c]])
                    else [c] :: runsOfGo keep (d :: t2))
                  else runsOfGo keep (d :: t2)) from rfl]
              rw [hc, hd]
              simp
            rw [hgo, ← ih (d :: t2) hlen]
            simp only [runsOf, hd, if_true, List.takeWhile_cons, List.dropWhile_cons]
          · have hd' : keep d = false := by
              cases h2 : keep d
              · rfl
              · exact absurd h2 hd
            simp only [runsOf, hc, if_true, List.takeWhile_cons, hd', List.dropWhile_cons,
              Bool.false_eq_true, if_false]
            have hgo : runsOfGo keep (c :: d :: t2) = [c] :: runsOfGo keep (d :: t2) := by
              rw [show runsOfGo keep (c :: d :: t2) =
                  (if keep c then
                    (if keep d then
                      (match runsOfGo keep (d :: t2) with
                       | r :: rs => (c :: r) :: rs
                       | [] => [[c]])
                    else [c] :: runsOfGo keep (d :: t2))
                  else runsOfGo keep (d :: t2)) from rfl]
              rw [hc, hd']
              simp
            rw [hgo, ← ih (d :: t2) hlen]
            simp only [runsOf, hd', Bool.false_eq_true, if_false]
      · have hc' : keep c = false := by
          cases h2 : keep c
          · rfl
          · exact absurd h2 hc
        have hlen : t.length ≤ n := by
          simp only [List.length_cons] at hl
          omega
        simp only [runsOf, hc', Bool.false_eq_true, if_false]
        have hgo : runsOfGo keep (c :: t) = runsOfGo keep t := by
          cases t with
          | nil =>
            rw [show runsOfGo keep (c :: []) =
                (if keep c then [[c]] else runsOfGo keep []) from rfl]
            rw [hc']
            simp
          | cons d t2 =>
            rw [show runsOfGo keep (c :: d :: t2) =
                (if keep c then
                  (if keep d then
                    (match runsOfGo keep (d :: t2) with
                     | r :: rs => (c :: r) :: rs
                     | [] => [[c]])
                  else [c] :: runsOfGo keep (d :: t2))
                else runsOfGo keep (d :: t2)) from rfl]
            rw [hc']
            simp
        rw [hgo, ih t hlen]

theorem runsOf_eq (keep : Char → Bool) (l : List Char) : runsOf keep l = runsOfGo keep l :=
  runsOf_eq_go_aux keep l.length l le_rfl

set_option maxHeartbeats 2000000 in
/-- C2 counterexample: on `c2Table` every one of the 25 registered schemas
scores strictly below the acceptance threshold 20, yet `match_table_schema`
still assigns `NHVAS Approved Auditor Declaration`, because the hard
header check (`print name` and `auditor` both occur in the joined header
text) bypasses the scoring entirely. -/
theorem C2_counterexample :
    (∀ p ∈ TABLE_SCHEMAS,
      calculate_schema_match_score p.1 p.2 (get_table_context c2Table) < 20) ∧
    match_table_schema c2Table = some "NHVAS Approved Auditor Declaration" := by
  constructor
  · intro p hp
    fin_cases hp <;>
      · simp +decide [calculate_schema_match_score, get_table_context, ctxTableText,
          fuzzy_match_heading, pySplitWs, runsOf_eq, normalize_text, collapseWsCh_eq_go]
        try norm_num
  · simp only [match_table_schema, get_table_context, normalize_text, collapseWsCh_eq_go]
    decide

/-- C2 (amended): when none of the three hard declaration checks fires,
`match_table_schema` follows the scores exactly: if every schema scores
below 20 the table matches nothing and (unless the dual-schema path applies)
contributes nothing to the output; and any assigned schema is one whose score
is at least 20, beats every earlier-registered schema strictly, and is not
exceeded by any later-registered schema (first-registered wins ties). -/
theorem C2_threshold_tiebreak (t : DTable)
    (hh1 : (containsSub "print name" (pyLower (joinSpace (get_table_context t).headers)) &&
            containsSub "auditor" (pyLower (joinSpace (get_table_context t).headers))) = false)
    (hh2 : looks_like_auditor_declaration (get_table_context t) = false)
    (hh3 : looks_like_operator_declaration (get_table_context t) = false) :
    ((∀ p ∈ TABLE_SCHEMAS,
        calculate_schema_match_score p.1 p.2 (get_table_context t) < 20) →
      match_table_schema t = none ∧
      (check_multi_schema_table t = none → tableContribution t = [])) ∧
    (∀ s, match_table_schema t = some s →
      ∃ l1 p l2, TABLE_SCHEMAS = l1 ++ p :: l2 ∧ p.1 = s ∧
        20 ≤ calculate_schema_match_score p.1 p.2 (get_table_context t) ∧
        (∀ q ∈ l1, calculate_schema_match_score q.1 q.2 (get_table_context t) <
          calculate_schema_match_score p.1 p.2 (get_table_context t)) ∧
        (∀ q ∈ l2, calculate_schema_match_score q.1 q.2 (get_table_context t) ≤
          calculate_schema_match_score p.1 p.2 (get_table_context t))) := by
  have hms : match_table_schema t =
      (if (20 : ℚ) ≤ (TABLE_SCHEMAS.foldl (bestStep (get_table_context t)) (none, 0)).2 then
        (TABLE_SCHEMAS.foldl (bestStep (get_table_context t)) (none, 0)).1
      else none) := by
    unfold match_table_schema
    simp only [hh1, hh2, hh3, Bool.false_eq_true, if_false]
  constructor
  · intro hall
    have hnone : match_table_schema t = none := by
      rw [hms]
      rcases bestFold_char (get_table_context t) TABLE_SCHEMAS (none, 0) with ⟨hres, _⟩ |
        ⟨l1, p, l2, heq, hres, hgt, hl1, hl2⟩
      · simp only [hres]
        split <;> rfl
      · have hp : p ∈ TABLE_SCHEMAS := by
          rw [heq]
          exact List.mem_append_right l1 (List.mem_cons_self p l2)
        have hlt := hall p hp
        simp only [hres]
        rw [if_neg (not_le.mpr hlt)]
    refine ⟨hnone, fun hmulti => ?_⟩
    unfold tableContribution
    simp only [hmulti, hnone]
  · intro s hs
    rw [hms] at hs
    rcases bestFold_char (get_table_context t) TABLE_SCHEMAS (none, 0) with ⟨hres, _⟩ |
      ⟨l1, p, l2, heq, hres, hgt, hl1, hl2⟩
    · simp only [hres] at hs
      split at hs <;> simp at hs
    · simp only [hres] at hs
      by_cases h20 : (20 : ℚ) ≤ calculate_schema_match_score p.1 p.2 (get_table_context t)
      · rw [if_pos h20] at hs
        injection hs with hs2
        exact ⟨l1, p, l2, heq, hs2, h20, hl1, hl2⟩
      · rw [if_neg h20] at hs
        exact absurd hs (by simp)

set_option maxHeartbeats 2000000 in
theorem C2_threshold_tiebreak_witness :
    (containsSub "print name" (pyLower (joinSpace (get_table_context c2wTable).headers)) &&
     containsSub "auditor" (pyLower (joinSpace (get_table_context c2wTable).headers))) = false ∧
    looks_like_auditor_declaration (get_table_context c2wTable) = false ∧
    looks_like_operator_declaration (get_table_context c2wTable) = false ∧
    match_table_schema c2wTable = none ∧ tableContribution c2wTable = [] := by
  have hh1 : (containsSub "print name"
        (pyLower (joinSpace (get_table_context c2wTable).headers)) &&
      containsSub "auditor" (pyLower (joinSpace (get_table_context c2wTable).headers))) =
      false := by
    simp only [get_table_context, normalize_text, collapseWsCh_eq_go]
    decide
  have hh2 : looks_like_auditor_declaration (get_table_context c2wTable) = false := by
    simp only [get_table_context, normalize_text, collapseWsCh_eq_go]
    decide
  have hh3 : looks_like_operator_declaration (get_table_context c2wTable) = false := by
    simp only [get_table_context, normalize_text, collapseWsCh_eq_go]
    decide
  have hall : ∀ p ∈ TABLE_SCHEMAS,
      calculate_schema_match_score p.1 p.2 (get_table_context c2wTable) < 20 := by
    intro p hp
    fin_cases hp <;>
      · simp +decide [calculate_schema_match_score, get_table_context, ctxTableText,
          fuzzy_match_heading, pySplitWs, runsOf_eq, normalize_text, collapseWsCh_eq_go]
        try norm_num
  have hmulti : check_multi_schema_table c2wTable = none := by
    simp only [check_multi_schema_table, get_table_context, normalize_text, collapseWsCh_eq_go]
    decide
  rcases (C2_threshold_tiebreak c2wTable hh1 hh2 hh3).1 hall with ⟨hnone, hcontrib⟩
  exact ⟨hh1, hh2, hh3, hnone, hcontrib hmulti⟩

theorem nodup_appendNew (l : List (String × List String)) (k v : String)
    (h : ∀ p ∈ l, p.2.Nodup) : ∀ p ∈ appendNew l k v, p.2.Nodup := by
  intro p hp
  unfold appendNew at hp
  rcases List.mem_map.mp hp with ⟨q, hq, hfq⟩
  by_cases hqk : q.1 = k
  · rw [if_pos hqk] at hfq
    by_cases hv : v ∈ q.2
    · rw [if_pos hv] at hfq
      rw [← hfq]
      exact h q hq
    · rw [if_neg hv] at hfq
      rw [← hfq]
      show (q.2 ++ [v]).Nodup
      rw [List.nodup_append]
      exact ⟨h q hq, List.nodup_singleton v,
        fun a ha hb => hv ((List.mem_singleton.mp hb) ▸ ha)⟩
  · rw [if_neg hqk] at hfq
    rw [← hfq]
    exact h q hq

theorem nodup_foldl_preserve {α : Type}
    (step : List (String × List String) → α → List (String × List String))
    (hstep : ∀ col a, (∀ p ∈ col, p.2.Nodup) → ∀ p ∈ step col a, p.2.Nodup) :
    ∀ (l : List α) (col : List (String × List String)),
      (∀ p ∈ col, p.2.Nodup) → ∀ p ∈ l.foldl step col, p.2.Nodup := by
  intro l
  induction l with
  | nil => intro col h; exact h
  | cons a t ih =>
    intro col h
    rw [List.foldl_cons]
    exact ih _ (hstep col a h)

theorem nodup_genCellStep (schema_name : String) (spec : Schema) (by_col : Bool) (row : DRow)
    (col : List (String × List String)) (ic : Nat × DCell)
    (h : ∀ p ∈ col, p.2.Nodup) : ∀ p ∈ genCellStep schema_name spec by_col row col ic,
      p.2.Nodup := by
  intro p hp
  unfold genCellStep at hp
  by_cases hred : cellRedText ic.2 = ""
  · simp only [hred, if_pos] at hp
    exact h p hp
  · rw [if_neg hred] at hp
    exact nodup_appendNew col _ _ h p hp

theorem initDict_values_nil (labels : List String) : ∀ p ∈ initDict labels, p.2 = [] := by
  unfold initDict
  have h : ∀ (ls : List String) (acc : List (String × List String)),
      (∀ p ∈ acc, p.2 = []) →
      ∀ p ∈ ls.foldl
        (fun acc l => if acc.any (fun p => p.1 = l) then acc else acc ++ [(l, [])]) acc,
        p.2 = [] := by
    intro ls
    induction ls with
    | nil => intro acc h p hp; exact h p hp
    | cons a t ih =>
      intro acc h
      rw [List.foldl_cons]
      apply ih
      intro p hp
      split at hp
      · exact h p hp
      · rcases List.mem_append.mp hp with hp | hp
        · exact h p hp
        · rw [List.mem_singleton.mp hp]
  exact h labels [] (fun p hp => absurd hp (List.not_mem_nil p))

theorem extract_generic_nodup (schema_name : String) (spec : Schema) (t : DTable) :
    ∀ p ∈ extract_generic schema_name spec t, p.2.Nodup := by
  intro p hp
  simp only [extract_generic, List.mem_filter] at hp
  refine nodup_foldl_preserve _ ?_ _ _ ?_ p hp.1
  · intro col row h
    exact nodup_foldl_preserve _ (nodup_genCellStep schema_name spec _ row) _ col h
  · intro q hq
    rw [initDict_values_nil _ q hq]
    exact List.nodup_nil

theorem repeatCellStep_empty (cm : List (Nat × String)) (hts : List String)
    (st : List (String × List String) × List (String × List String)) (ic : Nat × DCell)
    (hred : cellRedText ic.2 = "") : repeatCellStep cm hts st ic = st := by
  simp [repeatCellStep, hred]

theorem repeatCellStep_mapped (cm : List (Nat × String)) (hts : List String)
    (st : List (String × List String) × List (String × List String)) (ic : Nat × DCell)
    (lbl : String) (hred : ¬cellRedText ic.2 = "") (hlk : cm.lookup ic.1 = some lbl) :
    repeatCellStep cm hts st ic = (appendVal st.1 lbl (cellRedText ic.2), st.2) := by
  simp [repeatCellStep, hred, hlk]

theorem repeatCellStep_unmapped (cm : List (Nat × String)) (hts : List String)
    (st : List (String × List String) × List (String × List String)) (ic : Nat × DCell)
    (hred : ¬cellRedText ic.2 = "") (hlk : cm.lookup ic.1 = none) :
    repeatCellStep cm hts st ic =
      (st.1, setdefaultAppend st.2
        (hts.getD ic.1 ("(unmapped col " ++ toString ic.1 ++ ")")) (cellRedText ic.2)) := by
  simp [repeatCellStep, hred, hlk]

theorem repeatCells_fst (cm : List (Nat × String)) (hts : List String) :
    ∀ (cells : List (Nat × DCell))
      (st : List (String × List String) × List (String × List String)),
      (cells.foldl (repeatCellStep cm hts) st).1 =
        st.1.map (fun p => (p.1, p.2 ++ cells.filterMap (fun ic =>
          if cm.lookup ic.1 = some p.1 ∧ cellRedText ic.2 ≠ "" then some (cellRedText ic.2)
          else none))) := by
  intro cells
  induction cells with
  | nil =>
    intro st
    simp
  | cons ic cs ih =>
    intro st
    rw [List.foldl_cons]
    by_cases hred : cellRedText ic.2 = ""
    · rw [repeatCellStep_empty cm hts st ic hred, ih]
      apply List.map_congr_left
      intro p _
      simp [List.filterMap_cons, hred]
    · cases hlk : cm.lookup ic.1 with
      | some l2 =>
        rw [repeatCellStep_mapped cm hts st ic l2 hred hlk, ih]
        show (appendVal st.1 l2 (cellRedText ic.2)).map _ = _
        unfold appendVal
        rw [List.map_map]
        apply List.map_congr_left
        intro p _
        by_cases hpl : p.1 = l2
        · simp only [Function.comp, hpl, if_pos]
          simp [List.filterMap_cons, hlk, hpl, hred, List.append_assoc]
        · have hq2 : ¬l2 = p.1 := fun h => hpl h.symm
          simp only [Function.comp, hpl, Bool.false_eq_true, if_false]
          simp [List.filterMap_cons, hlk, hq2, hred]
      | none =>
        rw [repeatCellStep_unmapped cm hts st ic hred hlk, ih]
        apply List.map_congr_left
        intro p _
        simp [List.filterMap_cons, hlk]

theorem repeatDataFold_fst (cm : List (Nat × String)) (hts : List String) :
    ∀ (rows : List DRow)
      (st : List (String × List String) × List (String × List String)),
      (repeatDataFold cm hts rows st).1 =
        st.1.map (fun p => (p.1, p.2 ++ rows.flatMap (fun row =>
          row.cells.enum.filterMap (fun ic =>
            if cm.lookup ic.1 = some p.1 ∧ cellRedText ic.2 ≠ "" then some (cellRedText ic.2)
            else none)))) := by
  intro rows
  induction rows with
  | nil =>
    intro st
    unfold repeatDataFold
    simp
  | cons row rs ih =>
    intro st
    unfold repeatDataFold at ih ⊢
    rw [List.foldl_cons]
    rw [ih]
    rw [show repeatRowStep cm hts st row =
        row.cells.enum.foldl (repeatCellStep cm hts) st from rfl]
    rw [repeatCells_fst]
    rw [List.map_map]
    apply List.map_congr_left
    intro p _
    simp [Function.comp, List.flatMap_cons, List.append_assoc]

theorem find?_map_keyfix (f : String × List String → String × List String)
    (hf : ∀ p, (f p).1 = p.1) (l : List (String × List String)) (k : String) :
    (l.map f).find? (fun p => p.1 = k) = (l.find? (fun p => p.1 = k)).map f := by
  induction l with
  | nil => rfl
  | cons a t ih =>
    rw [List.map_cons, List.find?_cons, List.find?_cons]
    by_cases hak : a.1 = k
    · have h2 : (f a).1 = k := (hf a).trans hak
      simp [hak, h2]
    · have h2 : ¬(f a).1 = k := by
        rw [hf a]
        exact hak
      simp [hak, h2, ih]

theorem initDict_fold_find (lbl : String) :
    ∀ (labels : List String) (acc : List (String × List String)),
      (labels.foldl
        (fun acc l => if acc.any (fun p => p.1 = l) then acc else acc ++ [(l, [])])
        acc).find? (fun p => p.1 = lbl) =
      (match acc.find? (fun p => p.1 = lbl) with
        | some q => some q
        | none => if lbl ∈ labels then some (lbl, ([] : List String)) else none) := by
  intro labels
  induction labels with
  | nil =>
    intro acc
    cases hacc : acc.find? (fun p => p.1 = lbl) with
    | some q => simp [List.foldl_nil, hacc]
    | none => simp [List.foldl_nil, hacc]
  | cons a ls ih =>
    intro acc
    rw [List.foldl_cons]
    by_cases hany : acc.any (fun p => p.1 = a) = true
    · rw [if_pos hany, ih]
      cases hacc : acc.find? (fun p => p.1 = lbl) with
      | some q => rfl
      | none =>
        by_cases hla : lbl = a
        · subst hla
          have hsome : (acc.find? (fun p => p.1 = lbl)).isSome := by
            rw [List.find?_isSome]
            rcases List.any_eq_true.mp hany with ⟨x, hx, hpx⟩
            exact ⟨x, hx, hpx⟩
          rw [hacc] at hsome
          simp at hsome
        · simp only [List.mem_cons, hla, false_or]
    · rw [if_neg hany, ih]
      cases hacc : acc.find? (fun p => p.1 = lbl) with
      | some q =>
        have happ : (acc ++ [(a, ([] : List String))]).find? (fun p => p.1 = lbl) = some q := by
          rw [List.find?_append, hacc]
          rfl
        rw [happ]
      | none =>
        have happ : (acc ++ [(a, ([] : List String))]).find? (fun p => p.1 = lbl) =
            if a = lbl then some (a, []) else none := by
          rw [List.find?_append, hacc]
          simp [List.find?_cons]
          by_cases hal : a = lbl
          · simp [hal]
          · simp [hal]
        rw [happ]
        by_cases hal : a = lbl
        · subst hal
          simp
        · have hla : ¬lbl = a := fun h => hal h.symm
          simp only [List.mem_cons, hla, false_or, hal, Bool.false_eq_true, if_false]

theorem initDict_find (labels : List String) (lbl : String) :
    (initDict labels).find? (fun p => p.1 = lbl) =
      if lbl ∈ labels then some (lbl, ([] : List String)) else none := by
  unfold initDict
  rw [initDict_fold_find, List.find?_nil]

theorem initDict_keys_nodup (labels : List String) :
    ((initDict labels).map Prod.fst).Nodup := by
  unfold initDict
  have h : ∀ (ls : List String) (acc : List (String × List String)),
      ((acc.map Prod.fst).Nodup) →
      (((ls.foldl
        (fun acc l => if acc.any (fun p => p.1 = l) then acc else acc ++ [(l, [])]) acc).map
          Prod.fst).Nodup) := by
    intro ls
    induction ls with
    | nil => intro acc h; exact h
    | cons a t ih =>
      intro acc h
      rw [List.foldl_cons]
      apply ih
      by_cases hany : acc.any (fun p => p.1 = a) = true
      · rw [if_pos hany]
        exact h
      · rw [if_neg hany]
        rw [List.map_append]
        rw [List.nodup_append]
        refine ⟨h, by simp, ?_⟩
        intro k hk hk2
        simp only [List.map_cons, List.map_nil, List.mem_singleton] at hk2
        subst hk2
        rcases List.mem_map.mp hk with ⟨q, hq, hqk⟩
        exact hany (List.any_eq_true.mpr ⟨q, hq, by simp [hqk]⟩)
  exact h labels [] (by simp)

theorem find?_filter_of_key (l : List (String × List String)) (lbl : String)
    (huniq : (l.map Prod.fst).Nodup) :
    (l.filter (fun p => p.2 ≠ [])).find? (fun p => p.1 = lbl) =
      (l.find? (fun p => p.1 = lbl)).bind
        (fun q => if q.2 ≠ [] then some q else none) := by
  induction l with
  | nil => rfl
  | cons a t ih =>
    rw [List.map_cons, List.nodup_cons] at huniq
    rcases huniq with ⟨hnot, hnd⟩
    by_cases hak : a.1 = lbl <;> by_cases ha2 : a.2 = []
    · have hd1 : (decide (a.1 = lbl)) = true := decide_eq_true hak
      have hd2 : (decide (a.2 ≠ [])) = false := by simp [ha2]
      simp only [List.filter_cons, List.find?_cons, hd1, hd2, Bool.false_eq_true, if_false,
        Option.some_bind]
      rw [if_neg (by simp [ha2])]
      rw [List.find?_eq_none]
      intro q hq hqk
      have hqt : q ∈ t := List.mem_of_mem_filter hq
      have hq1 : q.1 = lbl := of_decide_eq_true hqk
      exact hnot (by rw [hak, ← hq1]; exact List.mem_map_of_mem Prod.fst hqt)
    · have hd1 : (decide (a.1 = lbl)) = true := decide_eq_true hak
      have hd2 : (decide (a.2 ≠ [])) = true := by simp [ha2]
      simp only [List.filter_cons, List.find?_cons, hd1, hd2, if_true, Option.some_bind]
      rw [if_pos ha2]
    · have hd1 : (decide (a.1 = lbl)) = false := decide_eq_false hak
      have hd2 : (decide (a.2 ≠ [])) = false := by simp [ha2]
      simp only [List.filter_cons, List.find?_cons, hd1, hd2, Bool.false_eq_true, if_false]
      exact ih hnd
    · have hd1 : (decide (a.1 = lbl)) = false := decide_eq_false hak
      have hd2 : (decide (a.2 ≠ [])) = true := by simp [ha2]
      simp only [List.filter_cons, List.find?_cons, hd1, hd2, if_true]
      exact ih hnd

theorem startsWithCh_self_append (a b : List Char) : startsWithCh a (a ++ b) = true := by
  induction a with
  | nil => rfl
  | cons c cs ih => simp [startsWithCh, ih]

theorem find?_unmappedPart (l : List (String × List String)) (lbl : String)
    (hpre : startsWithCh "UNMAPPED::".data lbl.data = false) :
    (l.filterMap
      (fun p => if p.2 ≠ [] then some ("UNMAPPED::" ++ p.1, p.2) else none)).find?
      (fun p => p.1 = lbl) = none := by
  rw [List.find?_eq_none]
  intro q hq hqk
  rcases List.mem_filterMap.mp hq with ⟨p0, _, hp0⟩
  have hq1 : q.1 = lbl := of_decide_eq_true hqk
  by_cases hp2 : p0.2 ≠ []
  · rw [if_pos hp2] at hp0
    injection hp0 with he
    rw [← he] at hq1
    have hsw : startsWithCh "UNMAPPED::".data lbl.data = true := by
      rw [← hq1]
      show startsWithCh "UNMAPPED::".data ("UNMAPPED::" ++ p0.1).data = true
      rw [String.data_append]
      exact startsWithCh_self_append _ _
    rw [hsw] at hpre
    exact absurd hpre (by simp)
  · rw [if_neg hp2] at hp0
    exact absurd hp0 (by simp)

theorem map_fst_keyfix (f : String × List String → String × List String)
    (hf : ∀ p, (f p).1 = p.1) (l : List (String × List String)) :
    (l.map f).map Prod.fst = l.map Prod.fst := by
  rw [List.map_map]
  apply List.map_congr_left
  intro p _
  exact hf p

theorem map_fst_pairmap (g : String × List String → List String)
    (l : List (String × List String)) :
    (l.map (fun p => (p.1, g p))).map Prod.fst = l.map Prod.fst :=
  map_fst_keyfix (fun p => (p.1, g p)) (fun p => rfl) l

theorem find?_pairmap (g : String × List String → List String)
    (l : List (String × List String)) (k : String) :
    (l.map (fun p => (p.1, g p))).find? (fun p => p.1 = k) =
      (l.find? (fun p => p.1 = k)).map (fun p => (p.1, g p)) :=
  find?_map_keyfix (fun p => (p.1, g p)) (fun p => rfl) l k

theorem repeat_st1_keys (spec : Schema) (t : DTable) :
    (((repeatDataFold
        (column_mapping (canonicalLabelsOf spec.labels) (t.rows.headD ⟨[]⟩))
        ((t.rows.headD ⟨[]⟩).cells.map (fun hc => normalize_text (dcellText hc)))
        (t.rows.drop 1)
        (initDict spec.labels,
         unmappedInit (canonicalLabelsOf spec.labels) (t.rows.headD ⟨[]⟩))).1).map
      Prod.fst).Nodup := by
  rw [repeatDataFold_fst, map_fst_pairmap]
  exact initDict_keys_nodup spec.labels

theorem repeat_st1_find (spec : Schema) (t : DTable) (lbl : String)
    (hmem : lbl ∈ spec.labels) :
    ((repeatDataFold
        (column_mapping (canonicalLabelsOf spec.labels) (t.rows.headD ⟨[]⟩))
        ((t.rows.headD ⟨[]⟩).cells.map (fun hc => normalize_text (dcellText hc)))
        (t.rows.drop 1)
        (initDict spec.labels,
         unmappedInit (canonicalLabelsOf spec.labels) (t.rows.headD ⟨[]⟩))).1).find?
      (fun p => p.1 = lbl) = some (lbl, rowOrderVals spec t lbl) := by
  rw [repeatDataFold_fst, find?_pairmap]
  rw [show ((initDict spec.labels,
      unmappedInit (canonicalLabelsOf spec.labels) (t.rows.headD ⟨[]⟩)) :
      List (String × List String) × List (String × List String)).1 =
      initDict spec.labels from rfl]
  rw [initDict_find, if_pos hmem]
  rfl

theorem extract_repeating_find (spec : Schema) (t : DTable) (lbl : String)
    (hrows : 2 ≤ t.rows.length) (hmem : lbl ∈ spec.labels)
    (hpre : startsWithCh "UNMAPPED::".data lbl.data = false) :
    (extract_repeating_rows spec t).find? (fun p => p.1 = lbl) =
      if rowOrderVals spec t lbl = [] then none
      else some (lbl, rowOrderVals spec t lbl) := by
  unfold extract_repeating_rows
  rw [if_neg (not_lt.mpr hrows), List.find?_append, find?_unmappedPart _ _ hpre,
    find?_filter_of_key _ _ (repeat_st1_keys spec t), repeat_st1_find spec t lbl hmem]
  by_cases hrv : rowOrderVals spec t lbl = []
  · simp [hrv]
  · simp [hrv]

/-- C4: the generic branch of `extract_table_data` (taken for every schema
other than Operator Declaration, Vehicle Registration and Driver / Scheduler)
deduplicates: every extracted label carries a list without duplicate strings;
the repeating-record Vehicle Registration and Driver / Scheduler branches do
not deduplicate: a mapped label's extracted list is exactly the row-order
list of nonempty red values from the data rows whose column maps to it, one
value per physical row, duplicates included (the label is omitted only when
that list is empty). -/
theorem C4_dedup_vs_row_order (t : DTable) (schema_name : String) (spec : Schema) :
    (¬schema_name = "Operator Declaration" →
      containsSub "Vehicle Registration" schema_name = false →
      containsSub "Driver / Scheduler" schema_name = false →
      ∀ p ∈ extract_table_data t schema_name spec, p.2.Nodup) ∧
    (containsSub "Vehicle Registration" schema_name = true →
      2 ≤ t.rows.length →
      ∀ lbl ∈ spec.labels, startsWithCh "UNMAPPED::".data lbl.data = false →
        (extract_table_data t schema_name spec).find? (fun p => p.1 = lbl) =
          if rowOrderVals spec t lbl = [] then none
          else some (lbl, rowOrderVals spec t lbl)) ∧
    (containsSub "Driver / Scheduler" schema_name = true →
      containsSub "Vehicle Registration" schema_name = false →
      2 ≤ t.rows.length →
      ∀ lbl ∈ spec.labels, startsWithCh "UNMAPPED::".data lbl.data = false →
        (extract_table_data t schema_name spec).find? (fun p => p.1 = lbl) =
          if rowOrderVals spec t lbl = [] then none
          else some (lbl, rowOrderVals spec t lbl)) := by
  refine ⟨?_, ?_, ?_⟩
  · intro h1 h2 h3 p hp
    unfold extract_table_data at hp
    rw [if_neg h1] at hp
    simp only [h2, Bool.false_eq_true, if_false, h3] at hp
    exact extract_generic_nodup schema_name spec t p hp
  · intro h2 hrows lbl hmem hpre
    have h1 : ¬schema_name = "Operator Declaration" := by
      intro he
      rw [he] at h2
      exact absurd h2 (by decide)
    unfold extract_table_data
    rw [if_neg h1]
    simp only [h2, if_true]
    exact extract_repeating_find spec t lbl hrows hmem hpre
  · intro h3 h2 hrows lbl hmem hpre
    have h1 : ¬schema_name = "Operator Declaration" := by
      intro he
      rw [he] at h3
      exact absurd h3 (by decide)
    unfold extract_table_data
    rw [if_neg h1]
    simp only [h2, Bool.false_eq_true, if_false, h3, if_true]
    exact extract_repeating_find spec t lbl hrows hmem hpre


set_option maxHeartbeats 2000000 in
theorem C4_dedup_vs_row_order_witness :
    containsSub "Vehicle Registration" "Vehicle Registration Numbers Maintenance" = true ∧
    2 ≤ c4Table.rows.length ∧
    "Registration Number" ∈ c4Spec.labels ∧
    startsWithCh "UNMAPPED::".data "Registration Number".data = false ∧
    rowOrderVals c4Spec c4Table "Registration Number" = ["ABC123", "ABC123"] ∧
    (extract_table_data c4Table "Vehicle Registration Numbers Maintenance" c4Spec).find?
      (fun p => p.1 = "Registration Number") =
      some ("Registration Number", ["ABC123", "ABC123"]) := by
  have h2 : containsSub "Vehicle Registration"
      "Vehicle Registration Numbers Maintenance" = true := by decide
  have hrows : 2 ≤ c4Table.rows.length := by decide
  have hmem : "Registration Number" ∈ c4Spec.labels := by decide
  have hpre : startsWithCh "UNMAPPED::".data "Registration Number".data = false := by decide
  have h1 : normalize_header_label "Registration Number" = "Registration Number" := by
    simp +decide [normalize_header_label, normalize_text, collapseWsCh, removeDelim,
      replaceSubCh, pyStrip]
  have hlab : canonicalize_label "Registration Number" = "Registration Number" := by
    unfold canonicalize_label
    rw [h1]
    simp +decide [collapseWsCh, pyLower, lowCh, isUpperAZ, LABEL_ALIASES, List.lookup]
  have hdc : dcellText (plainCell "Registration Number") = "Registration Number" := rfl
  have hnt : normalize_text "Registration Number" = "Registration Number" := by
    simp +decide [normalize_text, collapseWsCh, pyStrip]
  have hcl : canonicalLabelsOf c4Spec.labels =
      [("Registration Number", "Registration Number")] := by
    unfold canonicalLabelsOf
    rw [show c4Spec.labels = ["Registration Number"] from rfl, List.foldl_cons,
      List.foldl_nil, hlab]
    rfl
  have hmh : mapHeaderCell [("Registration Number", "Registration Number")]
      (normalize_text (dcellText (plainCell "Registration Number"))) =
      some "Registration Number" := by
    rw [hdc, hnt]
    simp +decide [mapHeaderCell, h1, hlab, List.lookup]
  have hcm : column_mapping (canonicalLabelsOf c4Spec.labels) (c4Table.rows.headD ⟨[]⟩) =
      [(0, "Registration Number")] := by
    rw [hcl, show (c4Table.rows.headD ⟨[]⟩) = ⟨[plainCell "Registration Number"]⟩ from rfl]
    unfold column_mapping
    simp +decide [List.enum, List.enumFrom, hmh]
  have hcrt : cellRedText (redCellC4 "ABC123") = "ABC123" := by
    simp +decide [cellRedText, redsOfCell, redCellC4, coalesce_numeric_runs,
      coalesce_numeric_runs_go, joinSpace, normalize_text, collapseWsCh, pyStrip,
      is_red_font, isDigitToken, String.intercalate, String.intercalate.go, String.join]
  have hrov : rowOrderVals c4Spec c4Table "Registration Number" = ["ABC123", "ABC123"] := by
    unfold rowOrderVals
    rw [hcm]
    simp +decide [c4Table, hcrt, List.enum, List.enumFrom]
  refine ⟨h2, hrows, hmem, hpre, hrov, ?_⟩
  rw [(C4_dedup_vs_row_order c4Table "Vehicle Registration Numbers Maintenance" c4Spec).2.1
    h2 hrows "Registration Number" hmem hpre, hrov]
  rw [if_neg (by decide : ¬(["ABC123", "ABC123"] : List String) = [])]
